import Mathlib

/-!
# A shallow embedding of the 6502 emulator core (`6502.c`)

The C program keeps the machine in global variables.  Here the globals are the
fields of one record `CPU`, and every C function that mutates them is a Lean
function from `CPU` to `CPU` (paired with its return value when it has one).

Conventions of the translation:

* `uint8_t`, `uint16_t` and `uint64_t` variables are natural numbers; every
  assignment that can leave the range is written with an explicit `% 256`,
  `% 65536` or `% 2 ^ 64`.  `WF` records the ranges the C types guarantee.
* `memory` is a function from indices to bytes.  The C array has 65,536
  entries; an index above 65,535 can therefore be told apart from a wrapped
  one, which matters for the two-byte `memcpy` reads.
* `memcpy (&w, &memory[a], 2)` on the little-endian host is
  `memory a + 256 * memory (a + 1)`.
* The decoders return `uint8_t *`; a pointer is either a cell of `memory` or
  the accumulator (`Ptr`).
* `int` and `unsigned int` are 32 bits wide.
* The debugging globals `read_addr` and `write_addr` are only ever written and
  the trace printed by `step_cpu` when `verbose` is set is output only; neither
  is part of the record.
-/

namespace Emu6502

/-- Addressing modes, in the order of the `Mode` enumeration. -/
inductive Mode where
  | ACC | ABS | ABSX | ABSY | IMM | IMPL | IND | XIND | INDY | REL | ZP | ZPX | ZPY
  | JMP_IND_BUG
  deriving DecidableEq, Repr

/-- One constructor per `inst_*` function of the source. -/
inductive Op where
  | ADC | AND | ASL | BCC | BCS | BEQ | BIT | BMI | BNE | BPL | BRK | BVC | BVS
  | CLC | CLD | CLI | CLV | CMP | CPX | CPY | DEC | DEX | DEY | EOR | INC | INX
  | INY | JMP | JSR | LDA | LDX | LDY | LSR | NOP | ORA | PHA | PHP | PLA | PLP
  | ROL | ROR | RTI | RTS | SBC | SEC | SED | SEI | STA | STX | STY | TAX | TAY
  | TSX | TXA | TXS | TYA
  deriving DecidableEq, Repr

/-- Modelled from the spec: the `Instruction` record of `6502.h` (the header is
not among the sources): label, semantic, addressing mode, base cycle count. -/
structure Instruction where
  mnemonic : String
  function : Op
  mode : Mode
  cycles : Nat

/-- Modelled from the spec: the `StatusReg` union of `6502.h` (the header is
not among the sources).  The fields are the one-bit members of `SR.bits`, in
the bit order of the status-register table of the spec (bit 0 first). -/
structure StatusReg where
  carry : Bool
  zero : Bool
  interrupt : Bool
  decimal : Bool
  brk : Bool
  unused : Bool
  overflow : Bool
  sign : Bool
  deriving DecidableEq, Repr

/-- The `byte` view of the union: reading `SR.byte`. -/
def StatusReg.byte (r : StatusReg) : Nat :=
  r.carry.toNat + 2 * r.zero.toNat + 4 * r.interrupt.toNat + 8 * r.decimal.toNat
    + 16 * r.brk.toNat + 32 * r.unused.toNat + 64 * r.overflow.toNat + 128 * r.sign.toNat

/-- The `byte` view of the union: the effect of `SR.byte = n`. -/
def StatusReg.ofByte (n : Nat) : StatusReg where
  carry := decide (n % 2 = 1)
  zero := decide (n / 2 % 2 = 1)
  interrupt := decide (n / 4 % 2 = 1)
  decimal := decide (n / 8 % 2 = 1)
  brk := decide (n / 16 % 2 = 1)
  unused := decide (n / 32 % 2 = 1)
  overflow := decide (n / 64 % 2 = 1)
  sign := decide (n / 128 % 2 = 1)

/-- A value of type `uint8_t *` as the decoders produce it: the address of a
cell of `memory`, or the address of the accumulator. -/
inductive Ptr where
  | mem (addr : Nat)
  | acc
  deriving DecidableEq, Repr

/-- The global variables of `6502.c`. -/
structure CPU where
  memory : Nat → Nat
  A : Nat
  X : Nat
  Y : Nat
  PC : Nat
  SP : Nat
  extra_cycles : Nat
  total_cycles : Nat
  SR : StatusReg
  inst : Instruction
  jumping : Nat

/-- The ranges guaranteed by the C types of the globals. -/
def WF (s : CPU) : Prop :=
  (∀ a, s.memory a < 256) ∧ s.A < 256 ∧ s.X < 256 ∧ s.Y < 256 ∧ s.PC < 65536 ∧
    s.SP < 256 ∧ s.total_cycles < 2 ^ 64

/-- Modelled from the spec: the macro `IRQ_VEC` of `6502.h` (the header is not
among the sources); the spec places the vector used by BRK at $FFFE. -/
def IRQ_VEC : Nat := 0xFFFE

/-- The array `memory` after `memory[a] = v`. -/
def poke (m : Nat → Nat) (a v : Nat) : Nat → Nat :=
  fun i => if i = a then v else m i

/-- A two-byte `memcpy` out of `memory` into a `uint16_t` (little-endian). -/
def memcpy16 (m : Nat → Nat) (a : Nat) : Nat :=
  m a + 256 * m (a + 1)

/-- Reading through a decoder pointer: `* p`. -/
def load (s : CPU) : Ptr → Nat
  | .mem a => s.memory a
  | .acc => s.A

/-- Writing through a decoder pointer: `* p = v`. -/
def store (s : CPU) (p : Ptr) (v : Nat) : CPU :=
  match p with
  | .mem a => { s with memory := poke s.memory a v }
  | .acc => { s with A := v }

/-- The pointer difference `p - memory`.  No entry of the opcode table pairs a
jump or branch with the accumulator mode, so the second case is never used by
`step_cpu`. -/
def Ptr.offset : Ptr → Nat
  | .mem a => a
  | .acc => 0

/-- Conversion of a byte to `int8_t`. -/
def int8 (b : Nat) : Int :=
  if b < 128 then (b : Int) else (b : Int) - 256

/-- Conversion of an `int` to `unsigned int`. -/
def u32 (i : Int) : Nat :=
  (i % 4294967296).toNat

/-! ## Flag checks and stack helpers -/

def N_flag (s : CPU) (val : Nat) : CPU :=
  { s with SR := { s.SR with sign := decide (128 ≤ val % 256) } }

def Z_flag (s : CPU) (val : Nat) : CPU :=
  { s with SR := { s.SR with zero := decide (val % 256 = 0) } }

def stack_push (s : CPU) (val : Nat) : CPU :=
  { s with memory := poke s.memory (0x100 + s.SP) (val % 256), SP := (s.SP + 255) % 256 }

def stack_pull (s : CPU) : Nat × CPU :=
  let s := { s with SP := (s.SP + 1) % 256 }
  (s.memory (0x100 + s.SP), s)

/-! ## Addressing implementations -/

def get_IMPL (s : CPU) : Ptr × CPU :=
  (.mem 0, s)

def get_IMM (s : CPU) : Ptr × CPU :=
  (.mem ((s.PC + 1) % 65536), s)

def get_uint16 (s : CPU) : Nat × CPU :=
  let r := get_IMM s
  (memcpy16 r.2.memory r.1.offset, r.2)

def get_ZP (s : CPU) : Ptr × CPU :=
  let r := get_IMM s
  (.mem (load r.2 r.1), r.2)

def get_ZPX (s : CPU) : Ptr × CPU :=
  let r := get_IMM s
  (.mem ((load r.2 r.1 + r.2.X) &&& 0xFF), r.2)

def get_ZPY (s : CPU) : Ptr × CPU :=
  let r := get_IMM s
  (.mem ((load r.2 r.1 + r.2.Y) &&& 0xFF), r.2)

def get_ACC (s : CPU) : Ptr × CPU :=
  (.acc, s)

def get_ABS (s : CPU) : Ptr × CPU :=
  let r := get_uint16 s
  (.mem r.1, r.2)

def get_ABSX (s : CPU) : Ptr × CPU :=
  let r := get_uint16 s
  let s := r.2
  let ptr := (r.1 + s.X) % 65536
  let s := if ptr % 256 < s.X then { s with extra_cycles := (s.extra_cycles + 1) % 256 } else s
  (.mem ptr, s)

def get_ABSY (s : CPU) : Ptr × CPU :=
  let r := get_uint16 s
  let s := r.2
  let ptr := (r.1 + s.Y) % 65536
  let s := if ptr % 256 < s.Y then { s with extra_cycles := (s.extra_cycles + 1) % 256 } else s
  (.mem ptr, s)

def get_IND (s : CPU) : Ptr × CPU :=
  let r := get_ABS s
  (.mem (memcpy16 r.2.memory r.1.offset), r.2)

def get_XIND (s : CPU) : Ptr × CPU :=
  let r := get_IMM s
  let s := r.2
  let ptr := (load s r.1 + s.X) &&& 0xFF
  let ptr :=
    if ptr = 0xff then (s.memory ptr + (s.memory (ptr &&& 0xff00) <<< 8)) % 65536
    else memcpy16 s.memory ptr
  (.mem ptr, s)

def get_INDY (s : CPU) : Ptr × CPU :=
  let r := get_IMM s
  let s := r.2
  let ptr := load s r.1
  let ptr :=
    if ptr = 0xff then (s.memory ptr + (s.memory (ptr &&& 0xff00) <<< 8)) % 65536
    else memcpy16 s.memory ptr
  let ptr := (ptr + s.Y) % 65536
  let s := if ptr % 256 < s.Y then { s with extra_cycles := (s.extra_cycles + 1) % 256 } else s
  (.mem ptr, s)

def get_REL (s : CPU) : Ptr × CPU :=
  let r := get_IMM s
  (.mem (((r.2.PC : Int) + int8 (load r.2 r.1)) % 65536).toNat, r.2)

def get_JMP_IND_BUG (s : CPU) : Ptr × CPU :=
  let r := get_uint16 s
  let s := r.2
  let ptr := r.1
  let ptr :=
    if ptr &&& 0xff = 0xff then (s.memory ptr + (s.memory (ptr &&& 0xff00) <<< 8)) % 65536
    else memcpy16 s.memory ptr
  (.mem ptr, s)

/-! ## The tables built by `init_tables` -/

/-- Instruction length table, indexed by addressing mode. -/
def lengths : Mode → Nat
  | .ACC => 1
  | .ABS => 3
  | .ABSX => 3
  | .ABSY => 3
  | .IMM => 2
  | .IMPL => 1
  | .IND => 3
  | .XIND => 2
  | .INDY => 2
  | .REL => 2
  | .ZP => 2
  | .ZPX => 2
  | .ZPY => 2
  | .JMP_IND_BUG => 3

/-- Addressing mode decoder table. -/
def get_ptr : Mode → CPU → Ptr × CPU
  | .ACC => get_ACC
  | .ABS => get_ABS
  | .ABSX => get_ABSX
  | .ABSY => get_ABSY
  | .IMM => get_IMM
  | .IMPL => get_IMPL
  | .IND => get_IND
  | .XIND => get_XIND
  | .INDY => get_INDY
  | .REL => get_REL
  | .ZP => get_ZP
  | .ZPX => get_ZPX
  | .ZPY => get_ZPY
  | .JMP_IND_BUG => get_JMP_IND_BUG

/-- The entries of `instructions` for the opcodes $00 to $0F. -/
def instructionRow0 : List Instruction :=
  [
    Instruction.mk "BRK impl" Op.BRK Mode.IMPL 7,
    Instruction.mk "ORA X,ind" Op.ORA Mode.XIND 6,
    Instruction.mk "???" Op.NOP Mode.IMPL 2,
    Instruction.mk "???" Op.NOP Mode.IMPL 8,
    Instruction.mk "???" Op.NOP Mode.ZP 3,
    Instruction.mk "ORA zpg" Op.ORA Mode.ZP 3,
    Instruction.mk "ASL zpg" Op.ASL Mode.ZP 5,
    Instruction.mk "???" Op.NOP Mode.IMPL 5,
    Instruction.mk "PHP impl" Op.PHP Mode.IMPL 3,
    Instruction.mk "ORA #" Op.ORA Mode.IMM 2,
    Instruction.mk "ASL A" Op.ASL Mode.ACC 2,
    Instruction.mk "???" Op.NOP Mode.IMPL 2,
    Instruction.mk "???" Op.NOP Mode.ABS 4,
    Instruction.mk "ORA abs" Op.ORA Mode.ABS 4,
    Instruction.mk "ASL abs" Op.ASL Mode.ABS 6,
    Instruction.mk "???" Op.NOP Mode.IMPL 6
  ]

/-- The entries of `instructions` for the opcodes $10 to $1F. -/
def instructionRow1 : List Instruction :=
  [
    Instruction.mk "BPL rel" Op.BPL Mode.REL 2,
    Instruction.mk "ORA ind,Y" Op.ORA Mode.INDY 5,
    Instruction.mk "???" Op.NOP Mode.IMPL 2,
    Instruction.mk "???" Op.NOP Mode.IMPL 8,
    Instruction.mk "???" Op.NOP Mode.ZP 4,
    Instruction.mk "ORA zpg,X" Op.ORA Mode.ZPX 4,
    Instruction.mk "ASL zpg,X" Op.ASL Mode.ZPX 6,
    Instruction.mk "???" Op.NOP Mode.IMPL 6,
    Instruction.mk "CLC impl" Op.CLC Mode.IMPL 2,
    Instruction.mk "ORA abs,Y" Op.ORA Mode.ABSY 4,
    Instruction.mk "???" Op.NOP Mode.IMPL 2,
    Instruction.mk "???" Op.NOP Mode.IMPL 7,
    Instruction.mk "???" Op.NOP Mode.ABSX 4,
    Instruction.mk "ORA abs,X" Op.ORA Mode.ABSX 4,
    Instruction.mk "ASL abs,X" Op.ASL Mode.ABSX 7,
    Instruction.mk "???" Op.NOP Mode.IMPL 7
  ]

/-- The entries of `instructions` for the opcodes $20 to $2F. -/
def instructionRow2 : List Instruction :=
  [
    Instruction.mk "JSR abs" Op.JSR Mode.ABS 6,
    Instruction.mk "AND X,ind" Op.AND Mode.XIND 6,
    Instruction.mk "???" Op.NOP Mode.IMPL 2,
    Instruction.mk "???" Op.NOP Mode.IMPL 8,
    Instruction.mk "BIT zpg" Op.BIT Mode.ZP 3,
    Instruction.mk "AND zpg" Op.AND Mode.ZP 3,
    Instruction.mk "ROL zpg" Op.ROL Mode.ZP 5,
    Instruction.mk "???" Op.NOP Mode.IMPL 5,
    Instruction.mk "PLP impl" Op.PLP Mode.IMPL 4,
    Instruction.mk "AND #" Op.AND Mode.IMM 2,
    Instruction.mk "ROL A" Op.ROL Mode.ACC 2,
    Instruction.mk "???" Op.NOP Mode.IMPL 2,
    Instruction.mk "BIT abs" Op.BIT Mode.ABS 4,
    Instruction.mk "AND abs" Op.AND Mode.ABS 4,
    Instruction.mk "ROL abs" Op.ROL Mode.ABS 6,
    Instruction.mk "???" Op.NOP Mode.IMPL 6
  ]

/-- The entries of `instructions` for the opcodes $30 to $3F. -/
def instructionRow3 : List Instruction :=
  [
    Instruction.mk "BMI rel" Op.BMI Mode.REL 2,
    Instruction.mk "AND ind,Y" Op.AND Mode.INDY 5,
    Instruction.mk "???" Op.NOP Mode.IMPL 2,
    Instruction.mk "???" Op.NOP Mode.IMPL 8,
    Instruction.mk "???" Op.NOP Mode.ZP 4,
    Instruction.mk "AND zpg,X" Op.AND Mode.ZPX 4,
    Instruction.mk "ROL zpg,X" Op.ROL Mode.ZPX 6,
    Instruction.mk "???" Op.NOP Mode.IMPL 6,
    Instruction.mk "SEC impl" Op.SEC Mode.IMPL 2,
    Instruction.mk "AND abs,Y" Op.AND Mode.ABSY 4,
    Instruction.mk "???" Op.NOP Mode.IMPL 2,
    Instruction.mk "???" Op.NOP Mode.IMPL 7,
    Instruction.mk "???" Op.NOP Mode.ABSX 4,
    Instruction.mk "AND abs,X" Op.AND Mode.ABSX 4,
    Instruction.mk "ROL abs,X" Op.ROL Mode.ABSX 7,
    Instruction.mk "???" Op.NOP Mode.IMPL 7
  ]

/-- The entries of `instructions` for the opcodes $40 to $4F. -/
def instructionRow4 : List Instruction :=
  [
    Instruction.mk "RTI impl" Op.RTI Mode.IMPL 6,
    Instruction.mk "EOR X,ind" Op.EOR Mode.XIND 6,
    Instruction.mk "???" Op.NOP Mode.IMPL 2,
    Instruction.mk "???" Op.NOP Mode.IMPL 8,
    Instruction.mk "???" Op.NOP Mode.ZP 3,
    Instruction.mk "EOR zpg" Op.EOR Mode.ZP 3,
    Instruction.mk "LSR zpg" Op.LSR Mode.ZP 5,
    Instruction.mk "???" Op.NOP Mode.IMPL 5,
    Instruction.mk "PHA impl" Op.PHA Mode.IMPL 3,
    Instruction.mk "EOR #" Op.EOR Mode.IMM 2,
    Instruction.mk "LSR A" Op.LSR Mode.ACC 2,
    Instruction.mk "???" Op.NOP Mode.IMPL 2,
    Instruction.mk "JMP abs" Op.JMP Mode.ABS 3,
    Instruction.mk "EOR abs" Op.EOR Mode.ABS 4,
    Instruction.mk "LSR abs" Op.LSR Mode.ABS 6,
    Instruction.mk "???" Op.NOP Mode.IMPL 6
  ]

/-- The entries of `instructions` for the opcodes $50 to $5F. -/
def instructionRow5 : List Instruction :=
  [
    Instruction.mk "BVC rel" Op.BVC Mode.REL 2,
    Instruction.mk "EOR ind,Y" Op.EOR Mode.INDY 5,
    Instruction.mk "???" Op.NOP Mode.IMPL 2,
    Instruction.mk "???" Op.NOP Mode.IMPL 8,
    Instruction.mk "???" Op.NOP Mode.ZP 4,
    Instruction.mk "EOR zpg,X" Op.EOR Mode.ZPX 4,
    Instruction.mk "LSR zpg,X" Op.LSR Mode.ZPX 6,
    Instruction.mk "???" Op.NOP Mode.IMPL 6,
    Instruction.mk "CLI impl" Op.CLI Mode.IMPL 2,
    Instruction.mk "EOR abs,Y" Op.EOR Mode.ABSY 4,
    Instruction.mk "???" Op.NOP Mode.IMPL 2,
    Instruction.mk "???" Op.NOP Mode.IMPL 7,
    Instruction.mk "???" Op.NOP Mode.ABSX 4,
    Instruction.mk "EOR abs,X" Op.EOR Mode.ABSX 4,
    Instruction.mk "LSR abs,X" Op.LSR Mode.ABSX 7,
    Instruction.mk "???" Op.NOP Mode.IMPL 7
  ]

/-- The entries of `instructions` for the opcodes $60 to $6F. -/
def instructionRow6 : List Instruction :=
  [
    Instruction.mk "RTS impl" Op.RTS Mode.IMPL 6,
    Instruction.mk "ADC X,ind" Op.ADC Mode.XIND 6,
    Instruction.mk "???" Op.NOP Mode.IMPL 2,
    Instruction.mk "???" Op.NOP Mode.IMPL 8,
    Instruction.mk "???" Op.NOP Mode.ZP 3,
    Instruction.mk "ADC zpg" Op.ADC Mode.ZP 3,
    Instruction.mk "ROR zpg" Op.ROR Mode.ZP 5,
    Instruction.mk "???" Op.NOP Mode.IMPL 5,
    Instruction.mk "PLA impl" Op.PLA Mode.IMPL 4,
    Instruction.mk "ADC #" Op.ADC Mode.IMM 2,
    Instruction.mk "ROR A" Op.ROR Mode.ACC 2,
    Instruction.mk "???" Op.NOP Mode.IMPL 2,
    Instruction.mk "JMP ind" Op.JMP Mode.JMP_IND_BUG 5,
    Instruction.mk "ADC abs" Op.ADC Mode.ABS 4,
    Instruction.mk "ROR abs" Op.ROR Mode.ABS 6,
    Instruction.mk "???" Op.NOP Mode.IMPL 6
  ]

/-- The entries of `instructions` for the opcodes $70 to $7F. -/
def instructionRow7 : List Instruction :=
  [
    Instruction.mk "BVS rel" Op.BVS Mode.REL 2,
    Instruction.mk "ADC ind,Y" Op.ADC Mode.INDY 5,
    Instruction.mk "???" Op.NOP Mode.IMPL 2,
    Instruction.mk "???" Op.NOP Mode.IMPL 8,
    Instruction.mk "???" Op.NOP Mode.ZP 4,
    Instruction.mk "ADC zpg,X" Op.ADC Mode.ZPX 4,
    Instruction.mk "ROR zpg,X" Op.ROR Mode.ZPX 6,
    Instruction.mk "???" Op.NOP Mode.IMPL 6,
    Instruction.mk "SEI impl" Op.SEI Mode.IMPL 2,
    Instruction.mk "ADC abs,Y" Op.ADC Mode.ABSY 4,
    Instruction.mk "???" Op.NOP Mode.IMPL 2,
    Instruction.mk "???" Op.NOP Mode.IMPL 7,
    Instruction.mk "???" Op.NOP Mode.ABSX 4,
    Instruction.mk "ADC abs,X" Op.ADC Mode.ABSX 4,
    Instruction.mk "ROR abs,X" Op.ROR Mode.ABSX 7,
    Instruction.mk "???" Op.NOP Mode.IMPL 7
  ]

/-- The entries of `instructions` for the opcodes $80 to $8F. -/
def instructionRow8 : List Instruction :=
  [
    Instruction.mk "???" Op.NOP Mode.IMM 2,
    Instruction.mk "STA X,ind" Op.STA Mode.XIND 6,
    Instruction.mk "???" Op.NOP Mode.IMPL 2,
    Instruction.mk "???" Op.NOP Mode.IMPL 6,
    Instruction.mk "STY zpg" Op.STY Mode.ZP 3,
    Instruction.mk "STA zpg" Op.STA Mode.ZP 3,
    Instruction.mk "STX zpg" Op.STX Mode.ZP 3,
    Instruction.mk "???" Op.NOP Mode.IMPL 3,
    Instruction.mk "DEY impl" Op.DEY Mode.IMPL 2,
    Instruction.mk "???" Op.NOP Mode.IMPL 2,
    Instruction.mk "TXA impl" Op.TXA Mode.IMPL 2,
    Instruction.mk "???" Op.NOP Mode.IMPL 2,
    Instruction.mk "STY abs" Op.STY Mode.ABS 4,
    Instruction.mk "STA abs" Op.STA Mode.ABS 4,
    Instruction.mk "STX abs" Op.STX Mode.ABS 4,
    Instruction.mk "???" Op.NOP Mode.IMPL 4
  ]

/-- The entries of `instructions` for the opcodes $90 to $9F. -/
def instructionRow9 : List Instruction :=
  [
    Instruction.mk "BCC rel" Op.BCC Mode.REL 2,
    Instruction.mk "STA ind,Y" Op.STA Mode.INDY 6,
    Instruction.mk "???" Op.NOP Mode.IMPL 2,
    Instruction.mk "???" Op.NOP Mode.IMPL 6,
    Instruction.mk "STY zpg,X" Op.STY Mode.ZPX 4,
    Instruction.mk "STA zpg,X" Op.STA Mode.ZPX 4,
    Instruction.mk "STX zpg,Y" Op.STX Mode.ZPY 4,
    Instruction.mk "???" Op.NOP Mode.IMPL 4,
    Instruction.mk "TYA impl" Op.TYA Mode.IMPL 2,
    Instruction.mk "STA abs,Y" Op.STA Mode.ABSY 5,
    Instruction.mk "TXS impl" Op.TXS Mode.IMPL 2,
    Instruction.mk "???" Op.NOP Mode.IMPL 5,
    Instruction.mk "???" Op.NOP Mode.IMPL 5,
    Instruction.mk "STA abs,X" Op.STA Mode.ABSX 5,
    Instruction.mk "???" Op.NOP Mode.IMPL 5,
    Instruction.mk "???" Op.NOP Mode.IMPL 5
  ]

/-- The entries of `instructions` for the opcodes $A0 to $AF. -/
def instructionRowA : List Instruction :=
  [
    Instruction.mk "LDY #" Op.LDY Mode.IMM 2,
    Instruction.mk "LDA X,ind" Op.LDA Mode.XIND 6,
    Instruction.mk "LDX #" Op.LDX Mode.IMM 2,
    Instruction.mk "???" Op.NOP Mode.IMPL 6,
    Instruction.mk "LDY zpg" Op.LDY Mode.ZP 3,
    Instruction.mk "LDA zpg" Op.LDA Mode.ZP 3,
    Instruction.mk "LDX zpg" Op.LDX Mode.ZP 3,
    Instruction.mk "???" Op.NOP Mode.IMPL 3,
    Instruction.mk "TAY impl" Op.TAY Mode.IMPL 2,
    Instruction.mk "LDA #" Op.LDA Mode.IMM 2,
    Instruction.mk "TAX impl" Op.TAX Mode.IMPL 2,
    Instruction.mk "???" Op.NOP Mode.IMPL 2,
    Instruction.mk "LDY abs" Op.LDY Mode.ABS 4,
    Instruction.mk "LDA abs" Op.LDA Mode.ABS 4,
    Instruction.mk "LDX abs" Op.LDX Mode.ABS 4,
    Instruction.mk "???" Op.NOP Mode.IMPL 4
  ]

/-- The entries of `instructions` for the opcodes $B0 to $BF. -/
def instructionRowB : List Instruction :=
  [
    Instruction.mk "BCS rel" Op.BCS Mode.REL 2,
    Instruction.mk "LDA ind,Y" Op.LDA Mode.INDY 5,
    Instruction.mk "???" Op.NOP Mode.IMPL 2,
    Instruction.mk "???" Op.NOP Mode.IMPL 5,
    Instruction.mk "LDY zpg,X" Op.LDY Mode.ZPX 4,
    Instruction.mk "LDA zpg,X" Op.LDA Mode.ZPX 4,
    Instruction.mk "LDX zpg,Y" Op.LDX Mode.ZPY 4,
    Instruction.mk "???" Op.NOP Mode.IMPL 4,
    Instruction.mk "CLV impl" Op.CLV Mode.IMPL 2,
    Instruction.mk "LDA abs,Y" Op.LDA Mode.ABSY 4,
    Instruction.mk "TSX impl" Op.TSX Mode.IMPL 2,
    Instruction.mk "???" Op.NOP Mode.IMPL 4,
    Instruction.mk "LDY abs,X" Op.LDY Mode.ABSX 4,
    Instruction.mk "LDA abs,X" Op.LDA Mode.ABSX 4,
    Instruction.mk "LDX abs,Y" Op.LDX Mode.ABSY 4,
    Instruction.mk "???" Op.NOP Mode.IMPL 4
  ]

/-- The entries of `instructions` for the opcodes $C0 to $CF. -/
def instructionRowC : List Instruction :=
  [
    Instruction.mk "CPY #" Op.CPY Mode.IMM 2,
    Instruction.mk "CMP X,ind" Op.CMP Mode.XIND 6,
    Instruction.mk "???" Op.NOP Mode.IMPL 2,
    Instruction.mk "???" Op.NOP Mode.IMPL 8,
    Instruction.mk "CPY zpg" Op.CPY Mode.ZP 3,
    Instruction.mk "CMP zpg" Op.CMP Mode.ZP 3,
    Instruction.mk "DEC zpg" Op.DEC Mode.ZP 5,
    Instruction.mk "???" Op.NOP Mode.IMPL 5,
    Instruction.mk "INY impl" Op.INY Mode.IMPL 2,
    Instruction.mk "CMP #" Op.CMP Mode.IMM 2,
    Instruction.mk "DEX impl" Op.DEX Mode.IMPL 2,
    Instruction.mk "???" Op.NOP Mode.IMPL 2,
    Instruction.mk "CPY abs" Op.CPY Mode.ABS 4,
    Instruction.mk "CMP abs" Op.CMP Mode.ABS 4,
    Instruction.mk "DEC abs" Op.DEC Mode.ABS 6,
    Instruction.mk "???" Op.NOP Mode.IMPL 6
  ]

/-- The entries of `instructions` for the opcodes $D0 to $DF. -/
def instructionRowD : List Instruction :=
  [
    Instruction.mk "BNE rel" Op.BNE Mode.REL 2,
    Instruction.mk "CMP ind,Y" Op.CMP Mode.INDY 5,
    Instruction.mk "???" Op.NOP Mode.IMPL 2,
    Instruction.mk "???" Op.NOP Mode.IMPL 8,
    Instruction.mk "???" Op.NOP Mode.ZP 4,
    Instruction.mk "CMP zpg,X" Op.CMP Mode.ZPX 4,
    Instruction.mk "DEC zpg,X" Op.DEC Mode.ZPX 6,
    Instruction.mk "???" Op.NOP Mode.IMPL 6,
    Instruction.mk "CLD impl" Op.CLD Mode.IMPL 2,
    Instruction.mk "CMP abs,Y" Op.CMP Mode.ABSY 4,
    Instruction.mk "???" Op.NOP Mode.IMPL 2,
    Instruction.mk "???" Op.NOP Mode.IMPL 7,
    Instruction.mk "???" Op.NOP Mode.ABSX 4,
    Instruction.mk "CMP abs,X" Op.CMP Mode.ABSX 4,
    Instruction.mk "DEC abs,X" Op.DEC Mode.ABSX 7,
    Instruction.mk "???" Op.NOP Mode.IMPL 7
  ]

/-- The entries of `instructions` for the opcodes $E0 to $EF. -/
def instructionRowE : List Instruction :=
  [
    Instruction.mk "CPX #" Op.CPX Mode.IMM 2,
    Instruction.mk "SBC X,ind" Op.SBC Mode.XIND 6,
    Instruction.mk "???" Op.NOP Mode.IMPL 2,
    Instruction.mk "???" Op.NOP Mode.IMPL 8,
    Instruction.mk "CPX zpg" Op.CPX Mode.ZP 3,
    Instruction.mk "SBC zpg" Op.SBC Mode.ZP 3,
    Instruction.mk "INC zpg" Op.INC Mode.ZP 5,
    Instruction.mk "???" Op.NOP Mode.IMPL 5,
    Instruction.mk "INX impl" Op.INX Mode.IMPL 2,
    Instruction.mk "SBC #" Op.SBC Mode.IMM 2,
    Instruction.mk "NOP impl" Op.NOP Mode.IMPL 2,
    Instruction.mk "???" Op.NOP Mode.IMPL 2,
    Instruction.mk "CPX abs" Op.CPX Mode.ABS 4,
    Instruction.mk "SBC abs" Op.SBC Mode.ABS 4,
    Instruction.mk "INC abs" Op.INC Mode.ABS 6,
    Instruction.mk "???" Op.NOP Mode.IMPL 6
  ]

/-- The entries of `instructions` for the opcodes $F0 to $FF. -/
def instructionRowF : List Instruction :=
  [
    Instruction.mk "BEQ rel" Op.BEQ Mode.REL 2,
    Instruction.mk "SBC ind,Y" Op.SBC Mode.INDY 5,
    Instruction.mk "???" Op.NOP Mode.IMPL 2,
    Instruction.mk "???" Op.NOP Mode.IMPL 8,
    Instruction.mk "???" Op.NOP Mode.ZP 4,
    Instruction.mk "SBC zpg,X" Op.SBC Mode.ZPX 4,
    Instruction.mk "INC zpg,X" Op.INC Mode.ZPX 6,
    Instruction.mk "???" Op.NOP Mode.IMPL 6,
    Instruction.mk "SED impl" Op.SED Mode.IMPL 2,
    Instruction.mk "SBC abs,Y" Op.SBC Mode.ABSY 4,
    Instruction.mk "???" Op.NOP Mode.IMPL 2,
    Instruction.mk "???" Op.NOP Mode.IMPL 7,
    Instruction.mk "???" Op.NOP Mode.ABSX 4,
    Instruction.mk "SBC abs,X" Op.SBC Mode.ABSX 4,
    Instruction.mk "INC abs,X" Op.INC Mode.ABSX 7,
    Instruction.mk "???" Op.NOP Mode.IMPL 7
  ]

/-- The 256 entries of `instructions`, in opcode order. -/
def instructionTable : List Instruction :=
  instructionRow0 ++ instructionRow1 ++ instructionRow2 ++ instructionRow3 ++ instructionRow4 ++ instructionRow5 ++ instructionRow6 ++ instructionRow7
    ++ instructionRow8 ++ instructionRow9 ++ instructionRowA ++ instructionRowB ++ instructionRowC ++ instructionRowD ++ instructionRowE ++ instructionRowF

/-- The array `instructions`: the entry of an opcode byte. -/
def instructions (opcode : Nat) : Instruction :=
  instructionTable.getD opcode (Instruction.mk "???" Op.NOP Mode.IMPL 2)

/-! ## Memory read/write wrappers -/

def read_ptr (s : CPU) : Ptr × CPU :=
  get_ptr s.inst.mode s

def write_ptr (s : CPU) : Ptr × CPU :=
  get_ptr s.inst.mode s

/-! ## Branch logic common to all branch instructions -/

def take_branch (s : CPU) : CPU :=
  let oldPC := (s.PC + 2) % 65536
  let r := read_ptr s
  let s := { r.2 with PC := r.1.offset % 65536 }
  let s :=
    if (s.PC ^^^ oldPC) &&& 0xff00 ≠ 0 then
      { s with extra_cycles := (s.extra_cycles + 1) % 256 }
    else s
  { s with extra_cycles := (s.extra_cycles + 1) % 256 }

/-! ## Instruction implementations -/

def inst_ADC (s : CPU) : CPU :=
  let r := read_ptr s
  let s := r.2
  let operand := load s r.1
  let tmp := s.A + operand + (s.SR.carry.toNat &&& 1)
  let tmp :=
    if s.SR.decimal then
      let tmp := (s.A &&& 0x0f) + (operand &&& 0x0f) + (s.SR.carry.toNat &&& 1)
      let tmp := if tmp ≥ 10 then (tmp - 10) ||| 0x10 else tmp
      let tmp := tmp + ((s.A &&& 0xf0) + (operand &&& 0xf0))
      if tmp > 0x9f then tmp + 0x60 else tmp
    else tmp
  let s := { s with SR := { s.SR with carry := decide (tmp > 0xFF) } }
  let s := { s with SR := { s.SR with
    overflow := decide ((s.A ^^^ tmp) &&& (operand ^^^ tmp) &&& 0x80 ≠ 0) } }
  let s := { s with A := tmp &&& 0xFF }
  let s := N_flag s s.A
  Z_flag s s.A

def inst_AND (s : CPU) : CPU :=
  let r := read_ptr s
  let s := r.2
  let s := { s with A := s.A &&& load s r.1 }
  let s := N_flag s s.A
  Z_flag s s.A

def inst_ASL (s : CPU) : CPU :=
  let r := read_ptr s
  let s := r.2
  let tmp := load s r.1
  let s := { s with SR := { s.SR with carry := decide (tmp &&& 0x80 ≠ 0) } }
  let tmp := (tmp <<< 1) % 256
  let s := N_flag s tmp
  let s := Z_flag s tmp
  let w := write_ptr s
  store w.2 w.1 tmp

def inst_BCC (s : CPU) : CPU :=
  if !s.SR.carry then take_branch s else s

def inst_BCS (s : CPU) : CPU :=
  if s.SR.carry then take_branch s else s

def inst_BEQ (s : CPU) : CPU :=
  if s.SR.zero then take_branch s else s

def inst_BIT (s : CPU) : CPU :=
  let r := read_ptr s
  let s := r.2
  let tmp := load s r.1
  let s := N_flag s tmp
  let s := Z_flag s (tmp &&& s.A)
  { s with SR := { s.SR with overflow := decide (tmp &&& 0x40 ≠ 0) } }

def inst_BMI (s : CPU) : CPU :=
  if s.SR.sign then take_branch s else s

def inst_BNE (s : CPU) : CPU :=
  if !s.SR.zero then take_branch s else s

def inst_BPL (s : CPU) : CPU :=
  if !s.SR.sign then take_branch s else s

def inst_BRK (s : CPU) : CPU :=
  let newPC := memcpy16 s.memory IRQ_VEC
  let s := { s with PC := (s.PC + 2) % 65536 }
  let s := stack_push s (s.PC >>> 8)
  let s := stack_push s (s.PC &&& 0xFF)
  let s := { s with SR := { s.SR with brk := true } }
  let s := stack_push s s.SR.byte
  let s := { s with SR := { s.SR with interrupt := true } }
  let s := { s with PC := newPC }
  { s with jumping := 1 }

def inst_BVC (s : CPU) : CPU :=
  if !s.SR.overflow then take_branch s else s

def inst_BVS (s : CPU) : CPU :=
  if s.SR.overflow then take_branch s else s

def inst_CLC (s : CPU) : CPU :=
  { s with SR := { s.SR with carry := false } }

def inst_CLD (s : CPU) : CPU :=
  { s with SR := { s.SR with decimal := false } }

def inst_CLI (s : CPU) : CPU :=
  { s with SR := { s.SR with interrupt := false } }

def inst_CLV (s : CPU) : CPU :=
  { s with SR := { s.SR with overflow := false } }

def inst_CMP (s : CPU) : CPU :=
  let r := read_ptr s
  let s := r.2
  let operand := load s r.1
  let tmpDiff := (((s.A : Int) - (operand : Int)) % 256).toNat
  let s := N_flag s tmpDiff
  let s := Z_flag s tmpDiff
  { s with SR := { s.SR with carry := decide (s.A ≥ operand) } }

def inst_CPX (s : CPU) : CPU :=
  let r := read_ptr s
  let s := r.2
  let operand := load s r.1
  let tmpDiff := (((s.X : Int) - (operand : Int)) % 256).toNat
  let s := N_flag s tmpDiff
  let s := Z_flag s tmpDiff
  { s with SR := { s.SR with carry := decide (s.X ≥ operand) } }

def inst_CPY (s : CPU) : CPU :=
  let r := read_ptr s
  let s := r.2
  let operand := load s r.1
  let tmpDiff := (((s.Y : Int) - (operand : Int)) % 256).toNat
  let s := N_flag s tmpDiff
  let s := Z_flag s tmpDiff
  { s with SR := { s.SR with carry := decide (s.Y ≥ operand) } }

def inst_DEC (s : CPU) : CPU :=
  let r := read_ptr s
  let s := r.2
  let tmp := load s r.1
  let tmp := (tmp + 255) % 256
  let s := N_flag s tmp
  let s := Z_flag s tmp
  let w := write_ptr s
  store w.2 w.1 tmp

def inst_DEX (s : CPU) : CPU :=
  let s := { s with X := (s.X + 255) % 256 }
  let s := N_flag s s.X
  Z_flag s s.X

def inst_DEY (s : CPU) : CPU :=
  let s := { s with Y := (s.Y + 255) % 256 }
  let s := N_flag s s.Y
  Z_flag s s.Y

def inst_EOR (s : CPU) : CPU :=
  let r := read_ptr s
  let s := r.2
  let s := { s with A := s.A ^^^ load s r.1 }
  let s := N_flag s s.A
  Z_flag s s.A

def inst_INC (s : CPU) : CPU :=
  let r := read_ptr s
  let s := r.2
  let tmp := load s r.1
  let tmp := (tmp + 1) % 256
  let s := N_flag s tmp
  let s := Z_flag s tmp
  let w := write_ptr s
  store w.2 w.1 tmp

def inst_INX (s : CPU) : CPU :=
  let s := { s with X := (s.X + 1) % 256 }
  let s := N_flag s s.X
  Z_flag s s.X

def inst_INY (s : CPU) : CPU :=
  let s := { s with Y := (s.Y + 1) % 256 }
  let s := N_flag s s.Y
  Z_flag s s.Y

def inst_JMP (s : CPU) : CPU :=
  let r := read_ptr s
  let s := { r.2 with PC := r.1.offset % 65536 }
  { s with jumping := 1 }

def inst_JSR (s : CPU) : CPU :=
  let r := read_ptr s
  let s := r.2
  let newPC := r.1.offset % 65536
  let s := { s with PC := (s.PC + 2) % 65536 }
  let s := stack_push s (s.PC >>> 8)
  let s := stack_push s (s.PC &&& 0xFF)
  let s := { s with PC := newPC }
  { s with jumping := 1 }

def inst_LDA (s : CPU) : CPU :=
  let r := read_ptr s
  let s := r.2
  let s := { s with A := load s r.1 }
  let s := N_flag s s.A
  Z_flag s s.A

def inst_LDX (s : CPU) : CPU :=
  let r := read_ptr s
  let s := r.2
  let s := { s with X := load s r.1 }
  let s := N_flag s s.X
  Z_flag s s.X

def inst_LDY (s : CPU) : CPU :=
  let r := read_ptr s
  let s := r.2
  let s := { s with Y := load s r.1 }
  let s := N_flag s s.Y
  Z_flag s s.Y

def inst_LSR (s : CPU) : CPU :=
  let r := read_ptr s
  let s := r.2
  let tmp := load s r.1
  let s := { s with SR := { s.SR with carry := decide (tmp &&& 1 ≠ 0) } }
  let tmp := tmp >>> 1
  let s := N_flag s tmp
  let s := Z_flag s tmp
  let w := write_ptr s
  store w.2 w.1 tmp

def inst_NOP (s : CPU) : CPU :=
  (read_ptr s).2

def inst_ORA (s : CPU) : CPU :=
  let r := read_ptr s
  let s := r.2
  let s := { s with A := s.A ||| load s r.1 }
  let s := N_flag s s.A
  Z_flag s s.A

def inst_PHA (s : CPU) : CPU :=
  stack_push s s.A

def inst_PHP (s : CPU) : CPU :=
  let pushed_sr := s.SR
  let pushed_sr := { pushed_sr with brk := true }
  stack_push s pushed_sr.byte

def inst_PLA (s : CPU) : CPU :=
  let r := stack_pull s
  let s := { r.2 with A := r.1 }
  let s := N_flag s s.A
  Z_flag s s.A

def inst_PLP (s : CPU) : CPU :=
  let r := stack_pull s
  let s := { r.2 with SR := StatusReg.ofByte r.1 }
  let s := { s with SR := { s.SR with unused := true } }
  { s with SR := { s.SR with brk := false } }

def inst_ROL (s : CPU) : CPU :=
  let r := read_ptr s
  let s := r.2
  let tmp := load s r.1 <<< 1
  let tmp := tmp ||| (s.SR.carry.toNat &&& 1)
  let s := { s with SR := { s.SR with carry := decide (tmp > 0xFF) } }
  let tmp := tmp &&& 0xFF
  let s := N_flag s tmp
  let s := Z_flag s tmp
  let w := write_ptr s
  store w.2 w.1 (tmp % 256)

def inst_ROR (s : CPU) : CPU :=
  let r := read_ptr s
  let s := r.2
  let tmp := load s r.1
  let tmp := tmp ||| (s.SR.carry.toNat <<< 8)
  let s := { s with SR := { s.SR with carry := decide (tmp &&& 1 ≠ 0) } }
  let tmp := tmp >>> 1
  let s := N_flag s tmp
  let s := Z_flag s tmp
  let w := write_ptr s
  store w.2 w.1 (tmp % 256)

def inst_RTI (s : CPU) : CPU :=
  let r := stack_pull s
  let s := { r.2 with SR := StatusReg.ofByte r.1 }
  let s := { s with SR := { s.SR with unused := true } }
  let r := stack_pull s
  let s := { r.2 with PC := r.1 }
  let r := stack_pull s
  let s := { r.2 with PC := (s.PC ||| (r.1 <<< 8)) % 65536 }
  { s with jumping := 1 }

def inst_RTS (s : CPU) : CPU :=
  let r := stack_pull s
  let s := { r.2 with PC := r.1 }
  let r := stack_pull s
  let s := { r.2 with PC := (s.PC ||| (r.1 <<< 8)) % 65536 }
  let s := { s with PC := (s.PC + 1) % 65536 }
  { s with jumping := 1 }

def inst_SBC (s : CPU) : CPU :=
  let r := read_ptr s
  let s := r.2
  let operand := load s r.1
  let tmp := u32 ((s.A : Int) - (operand : Int) - 1 + ((s.SR.carry.toNat &&& 1 : Nat) : Int))
  let s := { s with SR := { s.SR with
    overflow := decide ((s.A ^^^ tmp) &&& (s.A ^^^ operand) &&& 0x80 ≠ 0) } }
  let s :=
    if s.SR.decimal then
      let lo := u32 (((s.A &&& 0x0f : Nat) : Int) - ((operand &&& 0x0f : Nat) : Int) - 1
        + (s.SR.carry.toNat : Int))
      let hi := u32 (((s.A >>> 4 : Nat) : Int) - ((operand >>> 4 : Nat) : Int))
      let b := decide (lo &&& 0x10 ≠ 0)
      let lo := if b then u32 ((lo : Int) - 6) else lo
      let hi := if b then u32 ((hi : Int) - 1) else hi
      let hi := if hi &&& 0x10 ≠ 0 then u32 ((hi : Int) - 6) else hi
      { s with A := ((hi <<< 4) % 4294967296 ||| (lo &&& 0x0f)) % 256 }
    else
      { s with A := tmp &&& 0xFF }
  let s := { s with SR := { s.SR with carry := decide (tmp < 0x100) } }
  let s := N_flag s s.A
  Z_flag s s.A

def inst_SEC (s : CPU) : CPU :=
  { s with SR := { s.SR with carry := true } }

def inst_SED (s : CPU) : CPU :=
  { s with SR := { s.SR with decimal := true } }

def inst_SEI (s : CPU) : CPU :=
  { s with SR := { s.SR with interrupt := true } }

def inst_STA (s : CPU) : CPU :=
  let w := write_ptr s
  let s := store w.2 w.1 w.2.A
  { s with extra_cycles := 0 }

def inst_STX (s : CPU) : CPU :=
  let w := write_ptr s
  store w.2 w.1 w.2.X

def inst_STY (s : CPU) : CPU :=
  let w := write_ptr s
  store w.2 w.1 w.2.Y

def inst_TAX (s : CPU) : CPU :=
  let s := { s with X := s.A }
  let s := N_flag s s.X
  Z_flag s s.X

def inst_TAY (s : CPU) : CPU :=
  let s := { s with Y := s.A }
  let s := N_flag s s.Y
  Z_flag s s.Y

def inst_TSX (s : CPU) : CPU :=
  let s := { s with X := s.SP }
  let s := N_flag s s.X
  Z_flag s s.X

def inst_TXA (s : CPU) : CPU :=
  let s := { s with A := s.X }
  let s := N_flag s s.A
  Z_flag s s.A

def inst_TXS (s : CPU) : CPU :=
  { s with SP := s.X }

def inst_TYA (s : CPU) : CPU :=
  let s := { s with A := s.Y }
  let s := N_flag s s.A
  Z_flag s s.A

/-- The call `inst.function ()` through the function pointer of a table entry. -/
def exec : Op → CPU → CPU
  | .ADC => inst_ADC
  | .AND => inst_AND
  | .ASL => inst_ASL
  | .BCC => inst_BCC
  | .BCS => inst_BCS
  | .BEQ => inst_BEQ
  | .BIT => inst_BIT
  | .BMI => inst_BMI
  | .BNE => inst_BNE
  | .BPL => inst_BPL
  | .BRK => inst_BRK
  | .BVC => inst_BVC
  | .BVS => inst_BVS
  | .CLC => inst_CLC
  | .CLD => inst_CLD
  | .CLI => inst_CLI
  | .CLV => inst_CLV
  | .CMP => inst_CMP
  | .CPX => inst_CPX
  | .CPY => inst_CPY
  | .DEC => inst_DEC
  | .DEX => inst_DEX
  | .DEY => inst_DEY
  | .EOR => inst_EOR
  | .INC => inst_INC
  | .INX => inst_INX
  | .INY => inst_INY
  | .JMP => inst_JMP
  | .JSR => inst_JSR
  | .LDA => inst_LDA
  | .LDX => inst_LDX
  | .LDY => inst_LDY
  | .LSR => inst_LSR
  | .NOP => inst_NOP
  | .ORA => inst_ORA
  | .PHA => inst_PHA
  | .PHP => inst_PHP
  | .PLA => inst_PLA
  | .PLP => inst_PLP
  | .ROL => inst_ROL
  | .ROR => inst_ROR
  | .RTI => inst_RTI
  | .RTS => inst_RTS
  | .SBC => inst_SBC
  | .SEC => inst_SEC
  | .SED => inst_SED
  | .SEI => inst_SEI
  | .STA => inst_STA
  | .STX => inst_STX
  | .STY => inst_STY
  | .TAX => inst_TAX
  | .TAY => inst_TAY
  | .TSX => inst_TSX
  | .TXA => inst_TXA
  | .TXS => inst_TXS
  | .TYA => inst_TYA

/-! ## Reset and the step driver -/

/-- The function `reset_cpu`; the arguments are C `int`s. -/
def reset_cpu (s : CPU) (_a _x _y _sp _sr _pc : Int) : CPU :=
  let s := { s with A := (_a % 256).toNat }
  let s := { s with X := (_x % 256).toNat }
  let s := { s with Y := (_y % 256).toNat }
  let s := { s with SP := (_sp % 256).toNat }
  let s := { s with SR := StatusReg.ofByte (_sr % 256).toNat }
  let s := { s with SR := { s.SR with interrupt := true } }
  let s := { s with SR := { s.SR with unused := true } }
  let s :=
    if _pc < 0 then { s with PC := memcpy16 s.memory (-_pc).toNat }
    else { s with PC := (_pc % 65536).toNat }
  { s with total_cycles := 0 }

/-- The function `load_rom`.  The file system is a parameter: `file` is `none`
when `fopen` returns `NULL` and is otherwise the sequence of bytes of the file;
`fread` copies at most `max_size` of them to `memory[load_addr]` onwards.  The
messages printed are output only. -/
def load_rom (s : CPU) (file : Option (List Nat)) (load_addr : Nat) : Int × CPU :=
  let s := { s with memory := fun i => if i < 65536 then 0 else s.memory i }
  match file with
  | none => (-1, s)
  | some bytes =>
    let max_size := (((0x10000 : Int) - (load_addr : Int)) % 18446744073709551616).toNat
    let loaded := bytes.take max_size
    let image : Nat → Nat := fun i =>
      if load_addr ≤ i ∧ i < load_addr + loaded.length then loaded.getD (i - load_addr) 0 % 256
      else s.memory i
    let s := { s with memory := image }
    (0, s)

/-- The function `step_cpu`: the returned cycle count and the new globals. -/
def step_cpu (s : CPU) : Nat × CPU :=
  let s := { s with inst := instructions (s.memory s.PC) }
  let s := { s with jumping := 0 }
  let s := { s with extra_cycles := 0 }
  let s := exec s.inst.function s
  let s := if s.jumping = 0 then { s with PC := (s.PC + lengths s.inst.mode) % 65536 } else s
  let s := if s.inst.cycles = 7 then { s with extra_cycles := 0 } else s
  let s := { s with total_cycles := (s.total_cycles + (s.inst.cycles + s.extra_cycles)) % 2 ^ 64 }
  (s.inst.cycles + s.extra_cycles, s)

/-! ## Notions used to state the properties -/

/-- The globals after `n` successive calls of `step_cpu`. -/
def run : Nat → CPU → CPU
  | 0, s => s
  | n + 1, s => run n (step_cpu s).2

/-- A machine with the given memory image, registers and status byte; the
cycle counters and the scratch globals of the driver are zero. -/
def mkCPU (mem : Nat → Nat) (a x y sp p pc : Nat) : CPU where
  memory := mem
  A := a
  X := x
  Y := y
  PC := pc
  SP := sp
  extra_cycles := 0
  total_cycles := 0
  SR := StatusReg.ofByte p
  inst := instructions 0xEA
  jumping := 0

/-- A memory filled with NOP ($EA); the program counter is at the last byte. -/
def nopAtTop : CPU :=
  mkCPU (fun _ => 0xEA) 0 0 0 0xFD 0x24 0xFFFF

/-- PHA at $0200 followed by PLA, on an otherwise zero memory; A = $42. -/
def phaPla : CPU :=
  mkCPU (fun i => if i = 0x0200 then 0x48 else if i = 0x0201 then 0x68 else 0)
    0x42 0 0 0xFD 0x24 0x0200

/-- PHP at $0200 followed by PLP, on an otherwise zero memory; SP = 0, so the
push wraps; status byte $E3. -/
def phpPlp : CPU :=
  mkCPU (fun i => if i = 0x0200 then 0x08 else if i = 0x0201 then 0x28 else 0)
    0 0 0 0x00 0xE3 0x0200

/-- ROL A at $0200 followed by ROR A; A = $C5 and the carry is set. -/
def rolRorAcc : CPU :=
  mkCPU (fun i => if i = 0x0200 then 0x2A else if i = 0x0201 then 0x6A else 0)
    0xC5 0 0 0xFD 0x25 0x0200

/-- The JSR/RTS scenario of the spec: `20 34 12` at $0200, `60` at $1234,
SP = $FF. -/
def jsrRts : CPU :=
  mkCPU (fun i => if i = 0x0200 then 0x20 else if i = 0x0201 then 0x34
      else if i = 0x0202 then 0x12 else if i = 0x1234 then 0x60 else 0)
    0 0 0 0xFF 0x24 0x0200

/-- JSR $0300 at $FFFD with SP = 0 (both the return address and the stack
pointer wrap), RTS at $0300. -/
def jsrRtsWrap : CPU :=
  mkCPU (fun i => if i = 0xFFFD then 0x20 else if i = 0xFFFE then 0x00
      else if i = 0xFFFF then 0x03 else if i = 0x0300 then 0x60 else 0)
    0 0 0 0x00 0x24 0xFFFD

/-- The binary ADC scenario of the spec: `69 50` at $0200, A = $50, C = 0. -/
def adcBinary : CPU :=
  mkCPU (fun i => if i = 0x0200 then 0x69 else if i = 0x0201 then 0x50 else 0)
    0x50 0 0 0xFD 0x24 0x0200

/-- A decimal ADC with both digit carries: `69 27` at $0200, A = $95, D = 1,
C = 1. -/
def adcDecimal : CPU :=
  mkCPU (fun i => if i = 0x0200 then 0x69 else if i = 0x0201 then 0x27 else 0)
    0x95 0 0 0xFD 0x2D 0x0200

/-- The decimal value of a packed-BCD byte. -/
def decOfBCD (b : Nat) : Nat :=
  10 * (b / 16) + b % 16

/-- The packed-BCD encoding of a number below 100. -/
def bcdOfDec (n : Nat) : Nat :=
  16 * (n / 10) + n % 10

/-- Both nibbles of the byte are decimal digits. -/
def validBCD (b : Nat) : Prop :=
  b / 16 ≤ 9 ∧ b % 16 ≤ 9

instance (b : Nat) : Decidable (validBCD b) :=
  inferInstanceAs (Decidable (b / 16 ≤ 9 ∧ b % 16 ≤ 9))

/-- The semantics of the eight branch instructions. -/
def branchOps : List Op :=
  [Op.BCC, Op.BCS, Op.BNE, Op.BEQ, Op.BPL, Op.BMI, Op.BVC, Op.BVS]

/-- The predicate a branch instruction tests, as the specification lists
them: BCC C=0, BCS C=1, BNE Z=0, BEQ Z=1, BPL N=0, BMI N=1, BVC V=0, BVS V=1. -/
def branchPredicate (op : Op) (p : StatusReg) : Bool :=
  match op with
  | .BCC => !p.carry
  | .BCS => p.carry
  | .BNE => !p.zero
  | .BEQ => p.zero
  | .BPL => !p.sign
  | .BMI => p.sign
  | .BVC => !p.overflow
  | .BVS => p.overflow
  | _ => false

/-- The offset byte of a branch: the byte after the opcode. -/
def branchOffset (s : CPU) : Nat :=
  s.memory ((s.PC + 1) % 65536)

/-- The address a taken branch leads to according to the specification:
`(PC + 2 + signed offset) mod 65536`. -/
def branchTarget (s : CPU) : Nat :=
  (((s.PC : Int) + 2 + int8 (branchOffset s)) % 65536).toNat

/-- The two addresses lie in different pages: their high bytes differ. -/
def pageDiffers (a b : Nat) : Prop :=
  a / 256 ≠ b / 256

instance (a b : Nat) : Decidable (pageDiffers a b) :=
  inferInstanceAs (Decidable (a / 256 ≠ b / 256))

/-- The operand word of a three-byte instruction, as `get_uint16` fetches it. -/
def operandWord (s : CPU) : Nat :=
  memcpy16 s.memory ((s.PC + 1) % 65536)

/-- The un-indexed base address of the indexed modes: the operand word for
ABSX and ABSY, and for INDY the word the decoder fetches from the zero-page
pointer named by the operand byte. -/
def indexedBase (m : Mode) (s : CPU) : Nat :=
  match m with
  | .INDY =>
    if s.memory ((s.PC + 1) % 65536) = 0xff then
      (s.memory 0xff + (s.memory 0 <<< 8)) % 65536
    else memcpy16 s.memory (s.memory ((s.PC + 1) % 65536))
  | _ => operandWord s

/-- The index register of the indexed modes: X for ABSX, Y for ABSY and INDY. -/
def indexValue (m : Mode) (s : CPU) : Nat :=
  match m with
  | .ABSX => s.X
  | _ => s.Y

/-- The register whose new value sets N and Z, for the semantics that write
A, X or Y; the shifts and rotates write A only in accumulator mode. -/
def writtenRegister (op : Op) (m : Mode) : Option (CPU → Nat) :=
  match op with
  | .LDA | .TXA | .TYA | .PLA | .AND | .ORA | .EOR | .ADC | .SBC => some CPU.A
  | .LDX | .TAX | .TSX | .INX | .DEX => some CPU.X
  | .LDY | .TAY | .INY | .DEY => some CPU.Y
  | .ASL | .LSR | .ROL | .ROR => if m = Mode.ACC then some CPU.A else none
  | _ => none

/-- The register a compare instruction reads. -/
def comparedRegister (op : Op) : Option (CPU → Nat) :=
  match op with
  | .CMP => some CPU.A
  | .CPX => some CPU.X
  | .CPY => some CPU.Y
  | _ => none

/-- The branch scenario of the spec: `D0 7F` (BNE +127) at $02F0, Z = 0. -/
def bneSpec : CPU :=
  mkCPU (fun i => if i = 0x02F0 then 0xD0 else if i = 0x02F1 then 0x7F else 0)
    0 0 0 0xFD 0x24 0x02F0

/-- BNE +14 at $02F0 with Z = 0: the next instruction is at $02F2 and the
target is $0300. -/
def bneLate : CPU :=
  mkCPU (fun i => if i = 0x02F0 then 0xD0 else if i = 0x02F1 then 0x0E else 0)
    0 0 0 0xFD 0x24 0x02F0

/-- BNE +0 at $02FE with Z = 0: the next instruction and the target are both
$0300. -/
def bneEarly : CPU :=
  mkCPU (fun i => if i = 0x02FE then 0xD0 else if i = 0x02FF then 0x00 else 0)
    0 0 0 0xFD 0x24 0x02FE

/-- The indirect JMP scenario of the spec: `6C FF 30` at $0200, $34 at $30FF,
$12 at $3000, $80 at $3100. -/
def jmpIndirect : CPU :=
  mkCPU (fun i => if i = 0x0200 then 0x6C else if i = 0x0201 then 0xFF
      else if i = 0x0202 then 0x30 else if i = 0x30FF then 0x34
      else if i = 0x3000 then 0x12 else if i = 0x3100 then 0x80 else 0)
    0 0 0 0xFD 0x24 0x0200

/-- LDA $20FF,X at $0200 with X = 1: the effective address $2100 is in the
page after the base. -/
def ldaAbsX : CPU :=
  mkCPU (fun i => if i = 0x0200 then 0xBD else if i = 0x0201 then 0xFF
      else if i = 0x0202 then 0x20 else if i = 0x2100 then 0x77 else 0)
    0 1 0 0xFD 0x24 0x0200

/-- STA $20FF,X at $0200 with X = 1 and A = $55. -/
def staAbsX : CPU :=
  mkCPU (fun i => if i = 0x0200 then 0x9D else if i = 0x0201 then 0xFF
      else if i = 0x0202 then 0x20 else 0)
    0x55 1 0 0xFD 0x24 0x0200

/-- The undocumented opcode $1C (a NOP in mode ABSX) at $0200 with operand
$20FF and X = 1. -/
def nopAbsX : CPU :=
  mkCPU (fun i => if i = 0x0200 then 0x1C else if i = 0x0201 then 0xFF
      else if i = 0x0202 then 0x20 else 0)
    0 1 0 0xFD 0x24 0x0200

/-- JMP abs ($4C) at $FFFE with $34 at $FFFF; `hi` is the content of the
index 65536, one past the last cell of the 65,536-byte array. -/
def jmpAtTop (hi : Nat) : CPU :=
  mkCPU (fun i => if i = 0xFFFE then 0x4C else if i = 0xFFFF then 0x34
      else if i = 0x10000 then hi else 0)
    0 0 0 0xFD 0x24 0xFFFE

/-- LDA #$00 at $0200 with A = $42. -/
def ldaZero : CPU :=
  mkCPU (fun i => if i = 0x0200 then 0xA9 else 0) 0x42 0 0 0xFD 0x24 0x0200

/-- RTI at $0200 with SP = $FD: the status byte $C3 is at $01FE, the low byte
$34 at $01FF and, the stack pointer wrapping, the high byte $12 at $0100. -/
def rtiWrap : CPU :=
  mkCPU (fun i => if i = 0x0200 then 0x40 else if i = 0x01FE then 0xC3
      else if i = 0x01FF then 0x34 else if i = 0x0100 then 0x12 else 0)
    0 0 0 0xFD 0x24 0x0200

/-- The semantics that call the decoder exactly once, through `read_ptr`, and
leave the extra-cycle counter as the decoder set it. -/
def readOps : List Op :=
  [Op.ORA, Op.AND, Op.EOR, Op.ADC, Op.LDA, Op.LDX, Op.LDY, Op.CMP, Op.SBC, Op.NOP]

/-- RTS at $0200 with SP = $FD, on the stack contents of `rtiWrap`: the low
byte $C3 is at $01FE and the high byte $34 at $01FF. -/
def rtsPlain : CPU :=
  mkCPU (fun i => if i = 0x0200 then 0x60 else if i = 0x01FE then 0xC3
      else if i = 0x01FF then 0x34 else if i = 0x0100 then 0x12 else 0)
    0 0 0 0xFD 0x24 0x0200

/-- The sum that decimal-mode ADC forms before it sets the flags, in the words
of the specification: the low nibbles and the carry are added; a sum of 10 or
more is replaced by the sum minus 10 with bit 4 set; the high nibbles are
added; and $60 is added when the result exceeds $9F. -/
def adcDecimalSum (a m c : Nat) : Nat :=
  let lo := (a &&& 0x0f) + (m &&& 0x0f) + c
  let lo := if lo ≥ 10 then (lo - 10) ||| 0x10 else lo
  let t := lo + ((a &&& 0xf0) + (m &&& 0xf0))
  if t > 0x9f then t + 0x60 else t

/-- RTI at $0200 with SP = $FD; the status byte on the stack is $10 (only B
set) and the return address is $1234. -/
def rtiBreak : CPU :=
  mkCPU (fun i => if i = 0x0200 then 0x40 else if i = 0x01FE then 0x10
      else if i = 0x01FF then 0x34 else if i = 0x0100 then 0x12 else 0)
    0 0 0 0xFD 0x24 0x0200

/-- PLP at $0200 on the stack contents of `rtiBreak`. -/
def plpBreak : CPU :=
  mkCPU (fun i => if i = 0x0200 then 0x28 else if i = 0x01FE then 0x10
      else if i = 0x01FF then 0x34 else if i = 0x0100 then 0x12 else 0)
    0 0 0 0xFD 0x24 0x0200

/-- BRK at $0200 with SP = $FD and status byte $20 (all flags clear); the
vector at $FFFE/$FFFF holds $1234. -/
def brkPlain : CPU :=
  mkCPU (fun i => if i = 0x0200 then 0x00 else if i = 0xFFFE then 0x34
      else if i = 0xFFFF then 0x12 else 0)
    0 0 0 0xFD 0x20 0x0200

/-- Decimal ADC of 79 + 01: `69 01` at $0200, A = $79, D = 1, C = 0. -/
def adcDecimalV : CPU :=
  mkCPU (fun i => if i = 0x0200 then 0x69 else if i = 0x0201 then 0x01 else 0)
    0x79 0 0 0xFD 0x2C 0x0200

/-- Decimal ADC of 50 + 50: `69 50` at $0200, A = $50, D = 1, C = 0; the
machine `adcBinary` with the decimal flag set. -/
def adcDecimalFifty : CPU :=
  mkCPU (fun i => if i = 0x0200 then 0x69 else if i = 0x0201 then 0x50 else 0)
    0x50 0 0 0xFD 0x2C 0x0200

/-- Decimal SBC of 42 - 27 with a borrow pending: `E9 27` at $0200, A = $42,
D = 1, C = 0. -/
def sbcDecimal : CPU :=
  mkCPU (fun i => if i = 0x0200 then 0xE9 else if i = 0x0201 then 0x27 else 0)
    0x42 0 0 0xFD 0x2C 0x0200

/-- Binary SBC: `E9 70` at $0200, A = $50, C = 1. -/
def sbcBinary : CPU :=
  mkCPU (fun i => if i = 0x0200 then 0xE9 else if i = 0x0201 then 0x70 else 0)
    0x50 0 0 0xFD 0x25 0x0200

/-- Binary ADC of the complemented operand of `sbcBinary`: `69 8F` at $0200,
A = $50, C = 1. -/
def adcComplement : CPU :=
  mkCPU (fun i => if i = 0x0200 then 0x69 else if i = 0x0201 then 0x8F else 0)
    0x50 0 0 0xFD 0x25 0x0200

/-- LDA ($FE,X) at $0200 with X = 1: the pointer is at $FF, its low byte $34
at $00FF and its high byte $12 at $0000; $77 is at $1234 and $0100 holds $80. -/
def ldaXindWrap : CPU :=
  mkCPU (fun i => if i = 0x0200 then 0xA1 else if i = 0x0201 then 0xFE
      else if i = 0x00FF then 0x34 else if i = 0x0000 then 0x12
      else if i = 0x0100 then 0x80 else if i = 0x1234 then 0x77 else 0)
    0 1 0 0xFD 0x24 0x0200

/-- The accumulator that decimal-mode `inst_SBC` computes from the old
accumulator, the operand and the carry: the nibble-wise subtraction of the
source, as a function of its inputs. -/
def sbcDecimalResult (a operand : Nat) (carry : Bool) : Nat :=
  let lo := u32 (((a &&& 0x0f : Nat) : Int) - ((operand &&& 0x0f : Nat) : Int) - 1
    + (carry.toNat : Int))
  let hi := u32 (((a >>> 4 : Nat) : Int) - ((operand >>> 4 : Nat) : Int))
  let b := decide (lo &&& 0x10 ≠ 0)
  let lo := if b then u32 ((lo : Int) - 6) else lo
  let hi := if b then u32 ((hi : Int) - 1) else hi
  let hi := if hi &&& 0x10 ≠ 0 then u32 ((hi : Int) - 6) else hi
  ((hi <<< 4) % 4294967296 ||| (lo &&& 0x0f)) % 256

/-! ## Frame lemmas: what the decoders and the pointer writes leave alone -/

theorem get_ptr_snd (m : Mode) (s : CPU) :
    (get_ptr m s).2 = { s with extra_cycles := (get_ptr m s).2.extra_cycles } := by
  cases m <;>
    simp only [get_ptr, get_ACC, get_ABS, get_ABSX, get_ABSY, get_IMM, get_IMPL, get_IND,
      get_XIND, get_INDY, get_REL, get_ZP, get_ZPX, get_ZPY, get_JMP_IND_BUG, get_uint16] <;>
    (first | rfl | (split_ifs <;> rfl))

@[simp] theorem get_ptr_memory (m : Mode) (s : CPU) : (get_ptr m s).2.memory = s.memory := by
  rw [get_ptr_snd]

@[simp] theorem get_ptr_A (m : Mode) (s : CPU) : (get_ptr m s).2.A = s.A := by
  rw [get_ptr_snd]

@[simp] theorem get_ptr_X (m : Mode) (s : CPU) : (get_ptr m s).2.X = s.X := by
  rw [get_ptr_snd]

@[simp] theorem get_ptr_Y (m : Mode) (s : CPU) : (get_ptr m s).2.Y = s.Y := by
  rw [get_ptr_snd]

@[simp] theorem get_ptr_PC (m : Mode) (s : CPU) : (get_ptr m s).2.PC = s.PC := by
  rw [get_ptr_snd]

@[simp] theorem get_ptr_SP (m : Mode) (s : CPU) : (get_ptr m s).2.SP = s.SP := by
  rw [get_ptr_snd]

@[simp] theorem get_ptr_total_cycles (m : Mode) (s : CPU) :
    (get_ptr m s).2.total_cycles = s.total_cycles := by
  rw [get_ptr_snd]

@[simp] theorem get_ptr_SR (m : Mode) (s : CPU) : (get_ptr m s).2.SR = s.SR := by
  rw [get_ptr_snd]

@[simp] theorem get_ptr_inst (m : Mode) (s : CPU) : (get_ptr m s).2.inst = s.inst := by
  rw [get_ptr_snd]

@[simp] theorem get_ptr_jumping (m : Mode) (s : CPU) : (get_ptr m s).2.jumping = s.jumping := by
  rw [get_ptr_snd]

@[simp] theorem store_SR (s : CPU) (p : Ptr) (v : Nat) : (store s p v).SR = s.SR := by
  cases p <;> rfl

@[simp] theorem store_inst (s : CPU) (p : Ptr) (v : Nat) : (store s p v).inst = s.inst := by
  cases p <;> rfl

@[simp] theorem store_PC (s : CPU) (p : Ptr) (v : Nat) : (store s p v).PC = s.PC := by
  cases p <;> rfl

@[simp] theorem store_SP (s : CPU) (p : Ptr) (v : Nat) : (store s p v).SP = s.SP := by
  cases p <;> rfl

@[simp] theorem store_jumping (s : CPU) (p : Ptr) (v : Nat) :
    (store s p v).jumping = s.jumping := by
  cases p <;> rfl

@[simp] theorem store_total_cycles (s : CPU) (p : Ptr) (v : Nat) :
    (store s p v).total_cycles = s.total_cycles := by
  cases p <;> rfl

@[simp] theorem store_extra_cycles (s : CPU) (p : Ptr) (v : Nat) :
    (store s p v).extra_cycles = s.extra_cycles := by
  cases p <;> rfl

@[simp] theorem store_X (s : CPU) (p : Ptr) (v : Nat) : (store s p v).X = s.X := by
  cases p <;> rfl

@[simp] theorem store_Y (s : CPU) (p : Ptr) (v : Nat) : (store s p v).Y = s.Y := by
  cases p <;> rfl

/-! ## Properties of every semantic -/

theorem exec_unused (op : Op) (s : CPU) (h : s.SR.unused = true) :
    (exec op s).SR.unused = true := by
  cases op <;>
    simp only [exec, inst_ADC, inst_AND, inst_ASL, inst_BCC, inst_BCS, inst_BEQ, inst_BIT,
      inst_BMI, inst_BNE, inst_BPL, inst_BRK, inst_BVC, inst_BVS, inst_CLC, inst_CLD, inst_CLI,
      inst_CLV, inst_CMP, inst_CPX, inst_CPY, inst_DEC, inst_DEX, inst_DEY, inst_EOR, inst_INC,
      inst_INX, inst_INY, inst_JMP, inst_JSR, inst_LDA, inst_LDX, inst_LDY, inst_LSR, inst_NOP,
      inst_ORA, inst_PHA, inst_PHP, inst_PLA, inst_PLP, inst_ROL, inst_ROR, inst_RTI, inst_RTS,
      inst_SBC, inst_SEC, inst_SED, inst_SEI, inst_STA, inst_STX, inst_STY, inst_TAX, inst_TAY,
      inst_TSX, inst_TXA, inst_TXS, inst_TYA, take_branch, read_ptr, write_ptr, N_flag, Z_flag,
      stack_push, stack_pull, get_ptr_SR, store_SR] <;>
    (repeat (first | exact h | rfl | split))

theorem exec_inst_total (op : Op) (s : CPU) :
    (exec op s).inst = s.inst ∧ (exec op s).total_cycles = s.total_cycles := by
  cases op <;>
    simp only [exec, inst_ADC, inst_AND, inst_ASL, inst_BCC, inst_BCS, inst_BEQ, inst_BIT,
      inst_BMI, inst_BNE, inst_BPL, inst_BRK, inst_BVC, inst_BVS, inst_CLC, inst_CLD, inst_CLI,
      inst_CLV, inst_CMP, inst_CPX, inst_CPY, inst_DEC, inst_DEX, inst_DEY, inst_EOR, inst_INC,
      inst_INX, inst_INY, inst_JMP, inst_JSR, inst_LDA, inst_LDX, inst_LDY, inst_LSR, inst_NOP,
      inst_ORA, inst_PHA, inst_PHP, inst_PLA, inst_PLP, inst_ROL, inst_ROR, inst_RTI, inst_RTS,
      inst_SBC, inst_SEC, inst_SED, inst_SEI, inst_STA, inst_STX, inst_STY, inst_TAX, inst_TAY,
      inst_TSX, inst_TXA, inst_TXS, inst_TYA, take_branch, read_ptr, write_ptr, N_flag, Z_flag,
      stack_push, stack_pull, get_ptr_inst, get_ptr_total_cycles, store_inst,
      store_total_cycles] <;>
    (repeat (first | exact ⟨rfl, rfl⟩ | exact ⟨trivial, trivial⟩ | split))

theorem exec_PC_jumping (op : Op) (s : CPU)
    (h : op ∉ [Op.BCC, Op.BCS, Op.BNE, Op.BEQ, Op.BPL, Op.BMI, Op.BVC, Op.BVS,
      Op.JMP, Op.JSR, Op.RTS, Op.RTI, Op.BRK]) :
    (exec op s).PC = s.PC ∧ (exec op s).jumping = s.jumping := by
  cases op <;> first
    | exact absurd (by decide) h
    | (simp only [exec, inst_ADC, inst_AND, inst_ASL, inst_BIT, inst_CLC, inst_CLD, inst_CLI,
        inst_CLV, inst_CMP, inst_CPX, inst_CPY, inst_DEC, inst_DEX, inst_DEY, inst_EOR, inst_INC,
        inst_INX, inst_INY, inst_LDA, inst_LDX, inst_LDY, inst_LSR, inst_NOP,
        inst_ORA, inst_PHA, inst_PHP, inst_PLA, inst_PLP, inst_ROL, inst_ROR,
        inst_SBC, inst_SEC, inst_SED, inst_SEI, inst_STA, inst_STX, inst_STY, inst_TAX, inst_TAY,
        inst_TSX, inst_TXA, inst_TXS, inst_TYA, read_ptr, write_ptr, N_flag, Z_flag,
        stack_push, stack_pull, get_ptr_PC, get_ptr_jumping, store_PC, store_jumping]
       repeat (first | exact ⟨rfl, rfl⟩ | exact ⟨trivial, trivial⟩ | split))

/-! ## The step driver -/

theorem step_cpu_fst (s : CPU) :
    (step_cpu s).1 = (instructions (s.memory s.PC)).cycles + (step_cpu s).2.extra_cycles := by
  simp only [step_cpu]
  split_ifs <;> simp [(exec_inst_total _ _).1]

theorem step_cpu_unused (s : CPU) (h : s.SR.unused = true) :
    (step_cpu s).2.SR.unused = true := by
  have h1 := exec_unused (instructions (s.memory s.PC)).function
    { s with inst := instructions (s.memory s.PC), jumping := 0, extra_cycles := 0 } h
  simp only [step_cpu]
  split_ifs <;> exact h1

theorem run_unused (n : Nat) (s : CPU) (h : s.SR.unused = true) :
    (run n s).SR.unused = true := by
  induction n generalizing s with
  | zero => exact h
  | succ k ih => exact ih _ (step_cpu_unused s h)

theorem reset_cpu_unused (s : CPU) (a x y sp sr pc : Int) :
    (reset_cpu s a x y sp sr pc).SR.unused = true := by
  simp only [reset_cpu]
  split_ifs <;> rfl

theorem byte_bit5 (r : StatusReg) : r.byte / 32 % 2 = r.unused.toNat := by
  rcases r with ⟨_ | _, _ | _, _ | _, _ | _, _ | _, _ | _, _ | _, _ | _⟩ <;> rfl

/-- C1: in every state reached from `reset_cpu` (any arguments, any prior
contents of the globals, memory included) by any number `n` of `step_cpu`
calls, bit 5 of the status register is 1.  `reset_cpu` establishes it, and a
step from any state in which it is set, whatever the opcode, keeps it set. -/
theorem C1_unused_bit_invariant (s0 : CPU) (a x y sp sr pc : Int) (n : Nat) :
    (reset_cpu s0 a x y sp sr pc).SR.unused = true ∧
    (∀ s : CPU, (step_cpu { s with SR := { s.SR with unused := true } }).2.SR.unused = true) ∧
    (run n (reset_cpu s0 a x y sp sr pc)).SR.unused = true ∧
    (run n (reset_cpu s0 a x y sp sr pc)).SR.byte / 32 % 2 = 1 := by
  have h := run_unused n _ (reset_cpu_unused s0 a x y sp sr pc)
  refine ⟨reset_cpu_unused s0 a x y sp sr pc, fun s => step_cpu_unused _ rfl, h, ?_⟩
  rw [byte_bit5, h]; rfl

/-- C2: when the opcode at `PC` is bound to a semantic that is neither a branch
nor one of JMP, JSR, RTS, RTI, BRK, the step leaves `PC` at
`(PC + L) mod 65536`, with `L` the length of the addressing mode of the entry; the
length table is the one listed in the claim. -/
theorem C2_pc_advances_by_length (s : CPU)
    (h : (instructions (s.memory s.PC)).function ∉
      [Op.BCC, Op.BCS, Op.BNE, Op.BEQ, Op.BPL, Op.BMI, Op.BVC, Op.BVS,
        Op.JMP, Op.JSR, Op.RTS, Op.RTI, Op.BRK]) :
    (step_cpu s).2.PC = (s.PC + lengths (instructions (s.memory s.PC)).mode) % 65536 ∧
    (lengths Mode.IMPL = 1 ∧ lengths Mode.ACC = 1 ∧ lengths Mode.IMM = 2 ∧ lengths Mode.ZP = 2 ∧
      lengths Mode.ZPX = 2 ∧ lengths Mode.ZPY = 2 ∧ lengths Mode.REL = 2 ∧
      lengths Mode.XIND = 2 ∧ lengths Mode.INDY = 2 ∧ lengths Mode.ABS = 3 ∧
      lengths Mode.ABSX = 3 ∧ lengths Mode.ABSY = 3 ∧ lengths Mode.IND = 3 ∧
      lengths Mode.JMP_IND_BUG = 3) := by
  refine ⟨?_, by decide⟩
  have h1 := exec_PC_jumping _
    { s with inst := instructions (s.memory s.PC), jumping := 0, extra_cycles := 0 } h
  simp only [step_cpu]
  split_ifs <;> simp_all [(exec_inst_total _ _).1]

/-- Witness of C2: a NOP at $FFFF moves the program counter to $0000. -/
theorem C2_witness :
    (instructions (nopAtTop.memory nopAtTop.PC)).function ∉
      [Op.BCC, Op.BCS, Op.BNE, Op.BEQ, Op.BPL, Op.BMI, Op.BVC, Op.BVS,
        Op.JMP, Op.JSR, Op.RTS, Op.RTI, Op.BRK] ∧
    (step_cpu nopAtTop).2.PC = 0 :=
  ⟨by decide, (C2_pc_advances_by_length nopAtTop (by decide)).1⟩

/-- C3: the value returned by `step_cpu` is at least the base cycle count of
the table entry of the opcode at the old `PC`, and `total_cycles` grows by
exactly the returned value, modulo 2^64. -/
theorem C3_cycles_accounting (s : CPU) :
    (instructions (s.memory s.PC)).cycles ≤ (step_cpu s).1 ∧
    (step_cpu s).2.total_cycles = (s.total_cycles + (step_cpu s).1) % 2 ^ 64 := by
  constructor
  · rw [step_cpu_fst]; omega
  · simp only [step_cpu]
    split_ifs <;> simp [(exec_inst_total _ _).1, (exec_inst_total _ _).2]

/-! ## Auxiliary facts: memory cells, the status byte, table entries -/

theorem poke_same (m : Nat → Nat) (a v : Nat) : poke m a v a = v := by
  simp [poke]

theorem poke_other (m : Nat → Nat) (a v i : Nat) (h : i ≠ a) : poke m a v i = m i := by
  simp [poke, h]

theorem StatusReg.byte_lt (r : StatusReg) : r.byte < 256 := by
  rcases r with ⟨_ | _, _ | _, _ | _, _ | _, _ | _, _ | _, _ | _, _ | _⟩ <;> decide

theorem StatusReg.ofByte_byte (r : StatusReg) : StatusReg.ofByte r.byte = r := by
  rcases r with ⟨_ | _, _ | _, _ | _, _ | _, _ | _, _ | _, _ | _, _ | _⟩ <;> rfl

theorem byte_bit4 (r : StatusReg) : r.byte / 16 % 2 = r.brk.toNat := by
  rcases r with ⟨_ | _, _ | _, _ | _, _ | _, _ | _, _ | _, _ | _, _ | _⟩ <;> rfl

theorem instructions_PHA :
    instructions 0x48 = Instruction.mk "PHA impl" Op.PHA Mode.IMPL 3 := rfl

theorem instructions_PLA :
    instructions 0x68 = Instruction.mk "PLA impl" Op.PLA Mode.IMPL 4 := rfl

theorem instructions_PHP :
    instructions 0x08 = Instruction.mk "PHP impl" Op.PHP Mode.IMPL 3 := rfl

theorem instructions_PLP :
    instructions 0x28 = Instruction.mk "PLP impl" Op.PLP Mode.IMPL 4 := rfl

/-! ## Single steps of the stack instructions -/

theorem step_PHA (s : CPU) (h1 : s.memory s.PC = 0x48) :
    step_cpu s = (3, { s with
      memory := poke s.memory (0x100 + s.SP) (s.A % 256), SP := (s.SP + 255) % 256,
      PC := (s.PC + 1) % 65536, inst := instructions 0x48, jumping := 0, extra_cycles := 0,
      total_cycles := (s.total_cycles + 3) % 2 ^ 64 }) := by
  simp only [step_cpu, h1, instructions_PHA, exec, inst_PHA, stack_push, lengths]
  simp

theorem step_PLA (s : CPU) (h1 : s.memory s.PC = 0x68) :
    step_cpu s = (4, { s with
      A := s.memory (0x100 + (s.SP + 1) % 256), SP := (s.SP + 1) % 256,
      SR := { s.SR with sign := decide (128 ≤ s.memory (0x100 + (s.SP + 1) % 256) % 256),
                        zero := decide (s.memory (0x100 + (s.SP + 1) % 256) % 256 = 0) },
      PC := (s.PC + 1) % 65536, inst := instructions 0x68, jumping := 0, extra_cycles := 0,
      total_cycles := (s.total_cycles + 4) % 2 ^ 64 }) := by
  simp only [step_cpu, h1, instructions_PLA, exec, inst_PLA, stack_pull, N_flag, Z_flag, lengths]
  simp

theorem step_PHP (s : CPU) (h1 : s.memory s.PC = 0x08) :
    step_cpu s = (3, { s with
      memory := poke s.memory (0x100 + s.SP) ({ s.SR with brk := true }.byte % 256),
      SP := (s.SP + 255) % 256,
      PC := (s.PC + 1) % 65536, inst := instructions 0x08, jumping := 0, extra_cycles := 0,
      total_cycles := (s.total_cycles + 3) % 2 ^ 64 }) := by
  simp only [step_cpu, h1, instructions_PHP, exec, inst_PHP, stack_push, lengths]
  simp

theorem step_PLP (s : CPU) (h1 : s.memory s.PC = 0x28) :
    step_cpu s = (4, { s with
      SP := (s.SP + 1) % 256,
      SR := { StatusReg.ofByte (s.memory (0x100 + (s.SP + 1) % 256)) with
        unused := true, brk := false },
      PC := (s.PC + 1) % 65536, inst := instructions 0x28, jumping := 0, extra_cycles := 0,
      total_cycles := (s.total_cycles + 4) % 2 ^ 64 }) := by
  simp only [step_cpu, h1, instructions_PLP, exec, inst_PLP, stack_pull, lengths]
  simp

/-! ## Well-formedness of the concrete machines -/

theorem phaPla_WF : WF phaPla := by
  refine ⟨fun a => ?_, by decide, by decide, by decide, by decide, by decide, by decide⟩
  show (if a = 0x0200 then 0x48 else if a = 0x0201 then 0x68 else 0) < 256
  split_ifs <;> decide

theorem phpPlp_WF : WF phpPlp := by
  refine ⟨fun a => ?_, by decide, by decide, by decide, by decide, by decide, by decide⟩
  show (if a = 0x0200 then 0x08 else if a = 0x0201 then 0x28 else 0) < 256
  split_ifs <;> decide

/-! ## The claims about the stack instructions -/

/-- C4 as stated fails: PHA at $0200 then PLA, with A = $42 and SP = $FD on a
memory whose stack page is zero, leaves $42 in the cell $01FD. -/
theorem C4_counterexample :
    WF phaPla ∧ phaPla.memory phaPla.PC = 0x48 ∧
    (step_cpu phaPla).2.memory (step_cpu phaPla).2.PC = 0x68 ∧
    phaPla.memory 0x01FD = 0 ∧
    (step_cpu (step_cpu phaPla).2).2.memory 0x01FD = 0x42 :=
  ⟨phaPla_WF, by decide, by decide, by decide, by decide⟩

/-- C4 (amended): two consecutive steps that execute PHA and then PLA leave
every byte of memory other than the stack cell $0100+SP unchanged, leave A in
that cell, leave A and SP unchanged, and end with N equal to bit 7 of A and Z
set iff A is 0. -/
theorem C4_pha_pla (s : CPU) (hwf : WF s) (h1 : s.memory s.PC = 0x48)
    (h2 : (step_cpu s).2.memory (step_cpu s).2.PC = 0x68) :
    (∀ a, a ≠ 0x100 + s.SP → (step_cpu (step_cpu s).2).2.memory a = s.memory a) ∧
    (step_cpu (step_cpu s).2).2.memory (0x100 + s.SP) = s.A ∧
    (step_cpu (step_cpu s).2).2.A = s.A ∧
    (step_cpu (step_cpu s).2).2.SP = s.SP ∧
    (step_cpu (step_cpu s).2).2.SR.sign = decide (s.A / 128 % 2 = 1) ∧
    (step_cpu (step_cpu s).2).2.SR.zero = decide (s.A = 0) := by
  obtain ⟨hm, hA, hX, hY, hPC, hSP, hT⟩ := hwf
  have hs1 := congrArg Prod.snd (step_PHA s h1)
  rw [hs1] at h2 ⊢
  rw [congrArg Prod.snd (step_PLA _ h2)]
  have e3 : ((s.SP + 255) % 256 + 1) % 256 = s.SP := by omega
  have e4 : s.A % 256 = s.A := by omega
  simp only [e3, poke_same, e4]
  refine ⟨fun a ha => poke_other _ _ _ _ ha, trivial, trivial, trivial, ?_, trivial⟩
  congr 1; apply propext; omega

/-- Witness of C4 (amended), at the machine of the counterexample. -/
theorem C4_witness :
    WF phaPla ∧ phaPla.memory phaPla.PC = 0x48 ∧
    (step_cpu phaPla).2.memory (step_cpu phaPla).2.PC = 0x68 ∧
    (step_cpu (step_cpu phaPla).2).2.A = phaPla.A ∧
    (step_cpu (step_cpu phaPla).2).2.SP = phaPla.SP :=
  ⟨phaPla_WF, by decide, by decide,
    (C4_pha_pla phaPla phaPla_WF (by decide) (by decide)).2.2.1,
    (C4_pha_pla phaPla phaPla_WF (by decide) (by decide)).2.2.2.1⟩

/-- C5: a step executing PHP leaves the live status register unchanged and
stores in the stack cell $0100+SP the status byte with B (bit 4) set; when the
next step executes PLP, the two steps leave SP unchanged (also from SP = 0,
where the push wraps) and yield the status register of before the PHP with
bit 5 set and B clear, the six other flags unchanged. -/
theorem C5_php_plp (s : CPU) (hwf : WF s) (h1 : s.memory s.PC = 0x08) :
    ((step_cpu s).2.SR = s.SR ∧
      (step_cpu s).2.memory (0x100 + s.SP) = { s.SR with brk := true }.byte ∧
      { s.SR with brk := true }.byte = s.SR.byte ||| 0x10 ∧
      (step_cpu s).2.SP = (s.SP + 255) % 256) ∧
    ((step_cpu s).2.memory (step_cpu s).2.PC = 0x28 →
      (step_cpu (step_cpu s).2).2.SP = s.SP ∧
      (step_cpu (step_cpu s).2).2.SR = { s.SR with unused := true, brk := false } ∧
      (step_cpu (step_cpu s).2).2.SR.byte / 32 % 2 = 1 ∧
      (step_cpu (step_cpu s).2).2.SR.byte / 16 % 2 = 0) := by
  obtain ⟨hm, hA, hX, hY, hPC, hSP, hT⟩ := hwf
  have hs1 := congrArg Prod.snd (step_PHP s h1)
  have e3 : ((s.SP + 255) % 256 + 1) % 256 = s.SP := by omega
  have e4 : { s.SR with brk := true }.byte % 256 = { s.SR with brk := true }.byte :=
    Nat.mod_eq_of_lt (StatusReg.byte_lt _)
  rw [hs1]
  refine ⟨⟨rfl, ?_, ?_, rfl⟩, fun h2 => ?_⟩
  · show poke _ _ _ _ = _
    rw [poke_same, e4]
  · rcases s.SR with ⟨_ | _, _ | _, _ | _, _ | _, _ | _, _ | _, _ | _, _ | _⟩ <;> rfl
  · rw [congrArg Prod.snd (step_PLP _ h2)]
    simp only [e3, poke_same, e4, StatusReg.ofByte_byte, byte_bit5, byte_bit4]
    exact ⟨trivial, trivial, rfl, rfl⟩

/-- Witness of C5: PHP then PLP from SP = 0 and status byte $E3. -/
theorem C5_witness :
    WF phpPlp ∧ phpPlp.memory phpPlp.PC = 0x08 ∧
    (step_cpu phpPlp).2.memory (step_cpu phpPlp).2.PC = 0x28 ∧
    (step_cpu phpPlp).2.SP = 0xFF ∧
    (step_cpu phpPlp).2.memory 0x0100 = 0xF3 ∧
    (step_cpu (step_cpu phpPlp).2).2.SP = 0 ∧
    (step_cpu (step_cpu phpPlp).2).2.SR.byte = 0xE3 :=
  ⟨phpPlp_WF, by decide, by decide,
    (C5_php_plp phpPlp phpPlp_WF (by decide)).1.2.2.2,
    (C5_php_plp phpPlp phpPlp_WF (by decide)).1.2.1,
    ((C5_php_plp phpPlp phpPlp_WF (by decide)).2 (by decide)).1, by decide⟩

/-! ## Pointers: what a decoder result depends on, and reading back a write -/

theorem get_ptr_fst_congr (m : Mode) (s t : CPU) (hm : s.memory = t.memory)
    (hpc : s.PC = t.PC) (hx : s.X = t.X) (hy : s.Y = t.Y) :
    (get_ptr m s).1 = (get_ptr m t).1 := by
  cases m <;>
    simp only [get_ptr, get_ACC, get_ABS, get_ABSX, get_ABSY, get_IMM, get_IMPL, get_IND,
      get_XIND, get_INDY, get_REL, get_ZP, get_ZPX, get_ZPY, get_JMP_IND_BUG, get_uint16,
      load, Ptr.offset, hm, hpc, hx, hy]

theorem load_congr (s t : CPU) (p : Ptr) (hm : s.memory = t.memory) (ha : s.A = t.A) :
    load s p = load t p := by
  cases p <;> simp only [load, hm, ha]

theorem load_store_same (s : CPU) (p : Ptr) (v : Nat) : load (store s p v) p = v := by
  cases p <;> simp [load, store, poke]

theorem load_lt (s : CPU) (hwf : WF s) (p : Ptr) : load s p < 256 := by
  cases p
  · exact hwf.1 _
  · exact hwf.2.1

/-- The fields of the state after a step that the driver itself does not
touch are those left by the semantic. -/
theorem step_cpu_fields (s : CPU) :
    (step_cpu s).2.memory = (exec (instructions (s.memory s.PC)).function
      { s with inst := instructions (s.memory s.PC), jumping := 0, extra_cycles := 0 }).memory ∧
    (step_cpu s).2.A = (exec (instructions (s.memory s.PC)).function
      { s with inst := instructions (s.memory s.PC), jumping := 0, extra_cycles := 0 }).A ∧
    (step_cpu s).2.SR = (exec (instructions (s.memory s.PC)).function
      { s with inst := instructions (s.memory s.PC), jumping := 0, extra_cycles := 0 }).SR := by
  simp only [step_cpu]
  split_ifs <;> exact ⟨rfl, rfl, rfl⟩

theorem step_cpu_load (s : CPU) (p : Ptr) :
    load (step_cpu s).2 p = load (exec (instructions (s.memory s.PC)).function
      { s with inst := instructions (s.memory s.PC), jumping := 0, extra_cycles := 0 }) p :=
  load_congr _ _ p (step_cpu_fields s).1 (step_cpu_fields s).2.1

/-! ## Bit operations as arithmetic -/

theorem and_255 (x : Nat) : x &&& 0xFF = x % 256 :=
  Nat.and_pow_two_sub_one_eq_mod x 8

theorem or_shl8 (lo hi : Nat) (h : lo < 256) : lo ||| (hi <<< 8) = lo + 256 * hi := by
  rw [Nat.or_comm, Nat.shiftLeft_eq, Nat.mul_comm hi, Nat.add_comm]
  exact (Nat.mul_add_lt_is_or h hi).symm

theorem shl1_or_bit (v c : Nat) (h : c < 2) : (v <<< 1) ||| c = 2 * v + c := by
  rw [Nat.shiftLeft_eq, Nat.mul_comm v]
  exact (Nat.mul_add_lt_is_or (by simpa using h) v).symm

theorem toNat_and_one (b : Bool) : b.toNat &&& 1 = b.toNat := by
  cases b <;> rfl

theorem toNat_lt_two (b : Bool) : b.toNat < 2 := by
  cases b <;> decide

/-! ## The rotates -/

theorem load_store_get_ptr (m : Mode) (t s : CPU) (v : Nat) (hm : t.memory = s.memory)
    (hpc : t.PC = s.PC) (hx : t.X = s.X) (hy : t.Y = s.Y) :
    load (store (get_ptr m t).2 (get_ptr m t).1 v) (get_ptr m s).1 = v := by
  rw [get_ptr_fst_congr m t s hm hpc hx hy]
  exact load_store_same _ _ _

theorem load_get_ptr (m : Mode) (s : CPU) (p : Ptr) : load (get_ptr m s).2 p = load s p :=
  load_congr _ _ _ (get_ptr_memory m s) (get_ptr_A m s)

theorem inst_ROL_effect (s : CPU) :
    load (inst_ROL s) (get_ptr s.inst.mode s).1
        = (2 * load s (get_ptr s.inst.mode s).1 + s.SR.carry.toNat) % 256 ∧
    (inst_ROL s).SR.carry
        = decide (2 * load s (get_ptr s.inst.mode s).1 + s.SR.carry.toNat > 0xFF) := by
  simp only [inst_ROL, read_ptr, write_ptr, N_flag, Z_flag, get_ptr_SR, load_get_ptr,
    toNat_and_one, shl1_or_bit _ _ (toNat_lt_two _), and_255, Nat.mod_mod, get_ptr_inst,
    store_SR]
  exact ⟨load_store_get_ptr _ _ _ _ (get_ptr_memory _ _) (get_ptr_PC _ _) (get_ptr_X _ _)
    (get_ptr_Y _ _), trivial⟩

theorem inst_ROR_effect (s : CPU) (h : load s (get_ptr s.inst.mode s).1 < 256) :
    load (inst_ROR s) (get_ptr s.inst.mode s).1
        = (load s (get_ptr s.inst.mode s).1 + 256 * s.SR.carry.toNat) / 2 % 256 ∧
    (inst_ROR s).SR.carry
        = decide ((load s (get_ptr s.inst.mode s).1 + 256 * s.SR.carry.toNat) % 2 ≠ 0) := by
  simp only [inst_ROR, read_ptr, write_ptr, N_flag, Z_flag, get_ptr_SR, load_get_ptr,
    or_shl8 _ _ h, Nat.and_one_is_mod, Nat.shiftRight_eq_div_pow, Nat.pow_one, get_ptr_inst,
    store_SR]
  exact ⟨load_store_get_ptr _ _ _ _ (get_ptr_memory _ _) (get_ptr_PC _ _) (get_ptr_X _ _)
    (get_ptr_Y _ _), trivial⟩

theorem step_ROL_effect (s : CPU) (h : (instructions (s.memory s.PC)).function = Op.ROL) :
    load (step_cpu s).2 (get_ptr (instructions (s.memory s.PC)).mode s).1
        = (2 * load s (get_ptr (instructions (s.memory s.PC)).mode s).1
            + s.SR.carry.toNat) % 256 ∧
    (step_cpu s).2.SR.carry
        = decide (2 * load s (get_ptr (instructions (s.memory s.PC)).mode s).1
            + s.SR.carry.toNat > 0xFF) := by
  have e := inst_ROL_effect
    { s with inst := instructions (s.memory s.PC), jumping := 0, extra_cycles := 0 }
  have hp : (get_ptr (instructions (s.memory s.PC)).mode
      { s with inst := instructions (s.memory s.PC), jumping := 0, extra_cycles := 0 }).1
      = (get_ptr (instructions (s.memory s.PC)).mode s).1 :=
    get_ptr_fst_congr _ _ _ rfl rfl rfl rfl
  have hl : ∀ p, load
      { s with inst := instructions (s.memory s.PC), jumping := 0, extra_cycles := 0 } p
      = load s p := fun p => load_congr _ _ p rfl rfl
  simp only [hp, hl] at e
  rw [step_cpu_load, (step_cpu_fields s).2.2, h]
  exact e

theorem step_ROR_effect (s : CPU) (h : (instructions (s.memory s.PC)).function = Op.ROR)
    (hv : load s (get_ptr (instructions (s.memory s.PC)).mode s).1 < 256) :
    load (step_cpu s).2 (get_ptr (instructions (s.memory s.PC)).mode s).1
        = (load s (get_ptr (instructions (s.memory s.PC)).mode s).1
            + 256 * s.SR.carry.toNat) / 2 % 256 ∧
    (step_cpu s).2.SR.carry
        = decide ((load s (get_ptr (instructions (s.memory s.PC)).mode s).1
            + 256 * s.SR.carry.toNat) % 2 ≠ 0) := by
  have hp : (get_ptr (instructions (s.memory s.PC)).mode
      { s with inst := instructions (s.memory s.PC), jumping := 0, extra_cycles := 0 }).1
      = (get_ptr (instructions (s.memory s.PC)).mode s).1 :=
    get_ptr_fst_congr _ _ _ rfl rfl rfl rfl
  have hl : ∀ p, load
      { s with inst := instructions (s.memory s.PC), jumping := 0, extra_cycles := 0 } p
      = load s p := fun p => load_congr _ _ p rfl rfl
  have e := inst_ROR_effect
    { s with inst := instructions (s.memory s.PC), jumping := 0, extra_cycles := 0 }
    (by simp only [hp, hl]; exact hv)
  simp only [hp, hl] at e
  rw [step_cpu_load, (step_cpu_fields s).2.2, h]
  exact e

/-- C6: when a step executes ROL (any of its opcodes) and the next step
executes ROR (any of its opcodes) on the same operand, the accumulator or the
same memory cell, the operand and the carry end as they began: with `v` the
operand and `c` the carry at the start, ROL leaves `(2 v + c) mod 256` in the
operand and bit 7 of `v` in the carry, and ROR restores `v` and `c`. -/
theorem C6_rol_then_ror (s : CPU) (hwf : WF s)
    (h1 : (instructions (s.memory s.PC)).function = Op.ROL)
    (h2 : (instructions ((step_cpu s).2.memory (step_cpu s).2.PC)).function = Op.ROR)
    (hp : (get_ptr (instructions ((step_cpu s).2.memory (step_cpu s).2.PC)).mode
        (step_cpu s).2).1 = (get_ptr (instructions (s.memory s.PC)).mode s).1) :
    load (step_cpu s).2 (get_ptr (instructions (s.memory s.PC)).mode s).1
      = (2 * load s (get_ptr (instructions (s.memory s.PC)).mode s).1
          + s.SR.carry.toNat) % 256 ∧
    (step_cpu s).2.SR.carry
      = decide (128 ≤ load s (get_ptr (instructions (s.memory s.PC)).mode s).1) ∧
    load (step_cpu (step_cpu s).2).2 (get_ptr (instructions (s.memory s.PC)).mode s).1
      = load s (get_ptr (instructions (s.memory s.PC)).mode s).1 ∧
    (step_cpu (step_cpu s).2).2.SR.carry = s.SR.carry := by
  have hv := load_lt s hwf (get_ptr (instructions (s.memory s.PC)).mode s).1
  have hc := toNat_lt_two s.SR.carry
  obtain ⟨a1, a2⟩ := step_ROL_effect s h1
  have b := step_ROR_effect (step_cpu s).2 h2 (by rw [hp, a1]; omega)
  rw [hp, a1, a2] at b
  obtain ⟨b1, b2⟩ := b
  refine ⟨a1, ?_, ?_, ?_⟩
  · rw [a2]; congr 1; apply propext; omega
  · rw [b1]
    by_cases hh : 2 * load s (get_ptr (instructions (s.memory s.PC)).mode s).1
        + s.SR.carry.toNat > 0xFF
    · simp only [hh, decide_True, Bool.toNat_true]; omega
    · simp only [hh, decide_False, Bool.toNat_false]; omega
  · rw [b2]
    by_cases hh : 2 * load s (get_ptr (instructions (s.memory s.PC)).mode s).1
        + s.SR.carry.toNat > 0xFF
    · simp only [hh, decide_True, Bool.toNat_true]
      cases hcar : s.SR.carry <;> simp [hcar] <;> omega
    · simp only [hh, decide_False, Bool.toNat_false]
      cases hcar : s.SR.carry <;> simp [hcar] <;> omega

theorem rolRorAcc_WF : WF rolRorAcc := by
  refine ⟨fun a => ?_, by decide, by decide, by decide, by decide, by decide, by decide⟩
  show (if a = 0x0200 then 0x2A else if a = 0x0201 then 0x6A else 0) < 256
  split_ifs <;> decide

/-- Witness of C6: ROL A then ROR A from A = $C5 with the carry set. -/
theorem C6_witness :
    WF rolRorAcc ∧ (instructions (rolRorAcc.memory rolRorAcc.PC)).function = Op.ROL ∧
    (instructions ((step_cpu rolRorAcc).2.memory (step_cpu rolRorAcc).2.PC)).function
      = Op.ROR ∧
    (step_cpu rolRorAcc).2.A = 0x8B ∧ (step_cpu rolRorAcc).2.SR.carry = true ∧
    (step_cpu (step_cpu rolRorAcc).2).2.A = 0xC5 ∧
    (step_cpu (step_cpu rolRorAcc).2).2.SR.carry = true :=
  ⟨rolRorAcc_WF, by decide, by decide, by decide, by decide,
    (C6_rol_then_ror rolRorAcc rolRorAcc_WF (by decide) (by decide) (by decide)).2.2.1,
    (C6_rol_then_ror rolRorAcc rolRorAcc_WF (by decide) (by decide) (by decide)).2.2.2⟩

/-! ## JSR and RTS -/

theorem instructions_JSR :
    instructions 0x20 = Instruction.mk "JSR abs" Op.JSR Mode.ABS 6 := rfl

theorem instructions_RTS :
    instructions 0x60 = Instruction.mk "RTS impl" Op.RTS Mode.IMPL 6 := rfl

theorem step_JSR (s : CPU) (h1 : s.memory s.PC = 0x20) :
    step_cpu s = (6, { s with
      memory := poke (poke s.memory (0x100 + s.SP) ((s.PC + 2) % 65536 / 256 % 256))
        (0x100 + (s.SP + 255) % 256) ((s.PC + 2) % 65536 % 256 % 256),
      SP := ((s.SP + 255) % 256 + 255) % 256,
      PC := memcpy16 s.memory ((s.PC + 1) % 65536) % 65536,
      inst := instructions 0x20, jumping := 1, extra_cycles := 0,
      total_cycles := (s.total_cycles + 6) % 2 ^ 64 }) := by
  simp only [step_cpu, h1, instructions_JSR, exec, inst_JSR, stack_push, lengths, read_ptr,
    get_ptr, get_ABS, get_uint16, get_IMM, Ptr.offset, and_255, Nat.shiftRight_eq_div_pow]
  simp

theorem step_RTS (s : CPU) (h1 : s.memory s.PC = 0x60) :
    step_cpu s = (6, { s with
      SP := ((s.SP + 1) % 256 + 1) % 256,
      PC := ((s.memory (0x100 + (s.SP + 1) % 256)
        ||| (s.memory (0x100 + ((s.SP + 1) % 256 + 1) % 256) <<< 8)) % 65536 + 1) % 65536,
      inst := instructions 0x60, jumping := 1, extra_cycles := 0,
      total_cycles := (s.total_cycles + 6) % 2 ^ 64 }) := by
  simp only [step_cpu, h1, instructions_RTS, exec, inst_RTS, stack_pull, lengths]
  simp

/-- C8: a step executing JSR sets `PC` to the operand word fetched at
`PC + 1`, stores the high byte of `(PC + 2) mod 65536` at $0100+SP and its low
byte at $0100+((SP-1) mod 256), sets SP to (SP-2) mod 256, changes no other
memory byte, no flag and none of A, X, Y, and returns 6 cycles. -/
theorem C8_jsr_step (s : CPU) (hwf : WF s) (h1 : s.memory s.PC = 0x20) :
    (step_cpu s).2.PC = s.memory ((s.PC + 1) % 65536)
      + 256 * s.memory ((s.PC + 1) % 65536 + 1) ∧
    (step_cpu s).2.memory (0x100 + s.SP) = (s.PC + 2) % 65536 / 256 ∧
    (step_cpu s).2.memory (0x100 + (s.SP + 255) % 256) = (s.PC + 2) % 65536 % 256 ∧
    (step_cpu s).2.SP = (s.SP + 254) % 256 ∧
    (∀ a, a ≠ 0x100 + s.SP → a ≠ 0x100 + (s.SP + 255) % 256 →
      (step_cpu s).2.memory a = s.memory a) ∧
    (step_cpu s).2.SR = s.SR ∧
    (step_cpu s).2.A = s.A ∧ (step_cpu s).2.X = s.X ∧ (step_cpu s).2.Y = s.Y ∧
    (step_cpu s).1 = 6 := by
  obtain ⟨hm, hA, hX, hY, hPC, hSP, hT⟩ := hwf
  rw [step_JSR s h1]
  have hlo := hm ((s.PC + 1) % 65536)
  have hhi := hm ((s.PC + 1) % 65536 + 1)
  refine ⟨?_, ?_, ?_, ?_, ?_, rfl, rfl, rfl, rfl, rfl⟩
  · show memcpy16 s.memory ((s.PC + 1) % 65536) % 65536 = _
    unfold memcpy16; omega
  · show poke _ _ _ _ = _
    rw [poke_other _ _ _ _ (by omega), poke_same]; omega
  · show poke _ _ _ _ = _
    rw [poke_same]; omega
  · show ((s.SP + 255) % 256 + 255) % 256 = _
    omega
  · intro a ha hb
    show poke _ _ _ _ = _
    rw [poke_other _ _ _ _ hb, poke_other _ _ _ _ ha]

theorem jsrRts_WF : WF jsrRts := by
  refine ⟨fun a => ?_, by decide, by decide, by decide, by decide, by decide, by decide⟩
  show (if a = 0x0200 then 0x20 else if a = 0x0201 then 0x34
      else if a = 0x0202 then 0x12 else if a = 0x1234 then 0x60 else 0) < 256
  split_ifs <;> decide

theorem jsrRtsWrap_WF : WF jsrRtsWrap := by
  refine ⟨fun a => ?_, by decide, by decide, by decide, by decide, by decide, by decide⟩
  show (if a = 0xFFFD then 0x20 else if a = 0xFFFE then 0x00
      else if a = 0xFFFF then 0x03 else if a = 0x0300 then 0x60 else 0) < 256
  split_ifs <;> decide

/-- Witness of C8: the JSR scenario of the spec. -/
theorem C8_witness :
    WF jsrRts ∧ jsrRts.memory jsrRts.PC = 0x20 ∧
    (step_cpu jsrRts).2.PC = 0x1234 ∧ (step_cpu jsrRts).2.memory 0x01FF = 0x02 ∧
    (step_cpu jsrRts).2.memory 0x01FE = 0x02 ∧ (step_cpu jsrRts).2.SP = 0xFD ∧
    (step_cpu jsrRts).1 = 6 :=
  ⟨jsrRts_WF, by decide, (C8_jsr_step jsrRts jsrRts_WF (by decide)).1,
    (C8_jsr_step jsrRts jsrRts_WF (by decide)).2.1,
    (C8_jsr_step jsrRts jsrRts_WF (by decide)).2.2.1,
    (C8_jsr_step jsrRts jsrRts_WF (by decide)).2.2.2.1,
    (C8_jsr_step jsrRts jsrRts_WF (by decide)).2.2.2.2.2.2.2.2.2⟩

/-- C7: a step executing JSR followed by a step executing RTS at the target
ends with `PC = (PC + 3) mod 65536`, the instruction after the JSR, and with
the original SP, whatever PC, SP and the target are. -/
theorem C7_jsr_then_rts (s : CPU) (hwf : WF s) (h1 : s.memory s.PC = 0x20)
    (h2 : (step_cpu s).2.memory (step_cpu s).2.PC = 0x60) :
    (step_cpu (step_cpu s).2).2.PC = (s.PC + 3) % 65536 ∧
    (step_cpu (step_cpu s).2).2.SP = s.SP := by
  obtain ⟨hm, hA, hX, hY, hPC, hSP, hT⟩ := hwf
  have hs1 := congrArg Prod.snd (step_JSR s h1)
  rw [hs1] at h2 ⊢
  rw [congrArg Prod.snd (step_RTS _ h2)]
  have e1 : (((s.SP + 255) % 256 + 255) % 256 + 1) % 256 = (s.SP + 255) % 256 := by omega
  have e2 : ((s.SP + 255) % 256 + 1) % 256 = s.SP := by omega
  have e3 : 0x100 + s.SP ≠ 0x100 + (s.SP + 255) % 256 := by omega
  simp only [e1, e2, poke_same, poke_other _ _ _ _ e3]
  refine ⟨?_, trivial⟩
  rw [or_shl8 _ _ (by omega)]
  omega

/-- Witness of C7: JSR at $FFFD with SP = 0; the return address and both
pushes wrap. -/
theorem C7_witness :
    WF jsrRtsWrap ∧ jsrRtsWrap.memory jsrRtsWrap.PC = 0x20 ∧
    (step_cpu jsrRtsWrap).2.memory (step_cpu jsrRtsWrap).2.PC = 0x60 ∧
    (step_cpu (step_cpu jsrRtsWrap).2).2.PC = 0 ∧
    (step_cpu (step_cpu jsrRtsWrap).2).2.SP = 0 :=
  ⟨jsrRtsWrap_WF, by decide, by decide,
    (C7_jsr_then_rts jsrRtsWrap jsrRtsWrap_WF (by decide) (by decide)).1,
    (C7_jsr_then_rts jsrRtsWrap jsrRtsWrap_WF (by decide) (by decide)).2⟩

/-! ## ADC -/

theorem and_128 (x : Nat) : x &&& 0x80 = x / 128 % 2 * 128 := by
  have h := Nat.and_two_pow x 7
  rw [Nat.testBit_to_div_mod] at h
  have e : (2 : Nat) ^ 7 = 128 := rfl
  rw [e] at h
  rw [h]
  by_cases hx : x / 128 % 2 = 1
  · simp [hx]
  · have : x / 128 % 2 = 0 := by omega
    simp [this]

theorem xor_bit7 (x y : Nat) : (x ^^^ y) / 128 % 2 = (x / 128 + y / 128) % 2 := by
  have h := Nat.testBit_xor x y 7
  simp only [Nat.testBit_to_div_mod] at h
  have e : (2 : Nat) ^ 7 = 128 := rfl
  rw [e] at h
  by_cases h1 : x / 128 % 2 = 1 <;> by_cases h2 : y / 128 % 2 = 1 <;>
    by_cases h3 : (x ^^^ y) / 128 % 2 = 1 <;> simp [h1, h2, h3] at h <;> omega

theorem and_bit7 (x y : Nat) : (x &&& y) / 128 % 2 = (x / 128 % 2) * (y / 128 % 2) := by
  have h := Nat.testBit_and x y 7
  simp only [Nat.testBit_to_div_mod] at h
  have e : (2 : Nat) ^ 7 = 128 := rfl
  rw [e] at h
  by_cases h1 : x / 128 % 2 = 1 <;> by_cases h2 : y / 128 % 2 = 1 <;>
    by_cases h3 : (x &&& y) / 128 % 2 = 1 <;> simp [h1, h2, h3] at h <;>
    first
      | omega
      | (have a1 : x / 128 % 2 = 0 := by omega
         simp [a1]; omega)
      | (have a2 : y / 128 % 2 = 0 := by omega
         simp [a2]; omega)
      | (simp [h1, h2]; omega)

/-- The overflow test of ADC and SBC in terms of the sign bits. -/
theorem overflow_test (x y : Nat) :
    (x &&& y &&& 0x80 ≠ 0) ↔ (x / 128 % 2 = 1 ∧ y / 128 % 2 = 1) := by
  rw [and_128, and_bit7]
  by_cases h1 : x / 128 % 2 = 1 <;> by_cases h2 : y / 128 % 2 = 1
  · simp [h1, h2]
  · have : y / 128 % 2 = 0 := by omega
    simp [h1, this]
  · have : x / 128 % 2 = 0 := by omega
    simp [h2, this]
  · have : x / 128 % 2 = 0 := by omega
    simp [this, h2]

theorem step_ADC_binary (s : CPU)
    (h : (instructions (s.memory s.PC)).function = Op.ADC) (hd : s.SR.decimal = false) :
    (step_cpu s).2.A
      = (s.A + load s (get_ptr (instructions (s.memory s.PC)).mode s).1
          + s.SR.carry.toNat) % 256 ∧
    (step_cpu s).2.SR = { s.SR with
      carry := decide (s.A + load s (get_ptr (instructions (s.memory s.PC)).mode s).1
          + s.SR.carry.toNat > 0xFF),
      overflow := decide ((s.A ^^^ (s.A + load s (get_ptr (instructions (s.memory s.PC)).mode s).1
            + s.SR.carry.toNat))
          &&& (load s (get_ptr (instructions (s.memory s.PC)).mode s).1
            ^^^ (s.A + load s (get_ptr (instructions (s.memory s.PC)).mode s).1
              + s.SR.carry.toNat)) &&& 0x80 ≠ 0),
      sign := decide (128 ≤ (s.A + load s (get_ptr (instructions (s.memory s.PC)).mode s).1
          + s.SR.carry.toNat) % 256),
      zero := decide ((s.A + load s (get_ptr (instructions (s.memory s.PC)).mode s).1
          + s.SR.carry.toNat) % 256 = 0) } := by
  have hp : (get_ptr (instructions (s.memory s.PC)).mode
      { s with inst := instructions (s.memory s.PC), jumping := 0, extra_cycles := 0 }).1
      = (get_ptr (instructions (s.memory s.PC)).mode s).1 :=
    get_ptr_fst_congr _ _ _ rfl rfl rfl rfl
  have hl : ∀ p, load
      { s with inst := instructions (s.memory s.PC), jumping := 0, extra_cycles := 0 } p
      = load s p := fun p => load_congr _ _ p rfl rfl
  rw [(step_cpu_fields s).2.1, (step_cpu_fields s).2.2, h]
  simp only [exec, inst_ADC, read_ptr, N_flag, Z_flag, get_ptr_SR, get_ptr_A, load_get_ptr,
    hp, hl, hd, toNat_and_one, and_255, Nat.mod_mod,
    Bool.false_eq_true, if_false]
  exact ⟨trivial, trivial⟩

/-- C9: with D = 0, a step executing ADC (any of its opcodes) on the operand
`m` with carry-in `c` sets A to `(A + m + c) mod 256`, C iff `A + m + c > 255`,
V iff the sum of A and `m` read as signed bytes plus `c` lies outside
[-128, 127], N to bit 7 of the new A and Z iff the new A is 0. -/
theorem C9_adc_binary (s : CPU) (hwf : WF s)
    (h : (instructions (s.memory s.PC)).function = Op.ADC) (hd : s.SR.decimal = false) :
    (step_cpu s).2.A
      = (s.A + load s (get_ptr (instructions (s.memory s.PC)).mode s).1
          + s.SR.carry.toNat) % 256 ∧
    (step_cpu s).2.SR.carry
      = decide (s.A + load s (get_ptr (instructions (s.memory s.PC)).mode s).1
          + s.SR.carry.toNat > 255) ∧
    (step_cpu s).2.SR.overflow
      = decide (int8 s.A + int8 (load s (get_ptr (instructions (s.memory s.PC)).mode s).1)
            + (s.SR.carry.toNat : Int) < -128 ∨
          127 < int8 s.A + int8 (load s (get_ptr (instructions (s.memory s.PC)).mode s).1)
            + (s.SR.carry.toNat : Int)) ∧
    (step_cpu s).2.SR.sign = decide ((step_cpu s).2.A / 128 % 2 = 1) ∧
    (step_cpu s).2.SR.zero = decide ((step_cpu s).2.A = 0) := by
  have hv := load_lt s hwf (get_ptr (instructions (s.memory s.PC)).mode s).1
  have hc := toNat_lt_two s.SR.carry
  have hA := hwf.2.1
  obtain ⟨e1, e2⟩ := step_ADC_binary s h hd
  rw [e1, e2]
  refine ⟨rfl, rfl, ?_, ?_, rfl⟩
  · show decide _ = decide _
    congr 1; apply propext
    rw [overflow_test, xor_bit7, xor_bit7]
    simp only [int8]
    split_ifs <;> omega
  · show decide _ = decide _
    congr 1; apply propext
    omega

theorem adcBinary_WF : WF adcBinary := by
  refine ⟨fun a => ?_, by decide, by decide, by decide, by decide, by decide, by decide⟩
  show (if a = 0x0200 then 0x69 else if a = 0x0201 then 0x50 else 0) < 256
  split_ifs <;> decide

/-- Witness of C9: the ADC scenario of the spec, $50 + $50. -/
theorem C9_witness :
    WF adcBinary ∧ (instructions (adcBinary.memory adcBinary.PC)).function = Op.ADC ∧
    adcBinary.SR.decimal = false ∧
    (step_cpu adcBinary).2.A = 0xA0 ∧ (step_cpu adcBinary).2.SR.carry = false ∧
    (step_cpu adcBinary).2.SR.overflow = true ∧ (step_cpu adcBinary).2.SR.sign = true ∧
    (step_cpu adcBinary).2.SR.zero = false :=
  ⟨adcBinary_WF, by decide, by decide,
    (C9_adc_binary adcBinary adcBinary_WF (by decide) (by decide)).1,
    (C9_adc_binary adcBinary adcBinary_WF (by decide) (by decide)).2.1,
    (C9_adc_binary adcBinary adcBinary_WF (by decide) (by decide)).2.2.1,
    by decide, by decide⟩

theorem and_15 (x : Nat) : x &&& 0x0f = x % 16 :=
  Nat.and_pow_two_sub_one_eq_mod x 4

set_option maxRecDepth 8000 in
theorem and_240 : ∀ x, x < 256 → x &&& 0xf0 = x / 16 * 16 := by
  decide

theorem or_16 : ∀ y, y < 16 → y ||| 0x10 = y + 16 := by
  decide

theorem step_ADC_decimal (s : CPU)
    (h : (instructions (s.memory s.PC)).function = Op.ADC) (hd : s.SR.decimal = true) :
    (step_cpu s).2.A
      = (if (if (s.A &&& 0x0f) + (load s (get_ptr (instructions (s.memory s.PC)).mode s).1
                &&& 0x0f) + s.SR.carry.toNat ≥ 10
             then ((s.A &&& 0x0f) + (load s (get_ptr (instructions (s.memory s.PC)).mode s).1
                &&& 0x0f) + s.SR.carry.toNat - 10) ||| 0x10
             else (s.A &&& 0x0f) + (load s (get_ptr (instructions (s.memory s.PC)).mode s).1
                &&& 0x0f) + s.SR.carry.toNat)
            + ((s.A &&& 0xf0) + (load s (get_ptr (instructions (s.memory s.PC)).mode s).1
                &&& 0xf0)) > 0x9f
         then (if (s.A &&& 0x0f) + (load s (get_ptr (instructions (s.memory s.PC)).mode s).1
                &&& 0x0f) + s.SR.carry.toNat ≥ 10
             then ((s.A &&& 0x0f) + (load s (get_ptr (instructions (s.memory s.PC)).mode s).1
                &&& 0x0f) + s.SR.carry.toNat - 10) ||| 0x10
             else (s.A &&& 0x0f) + (load s (get_ptr (instructions (s.memory s.PC)).mode s).1
                &&& 0x0f) + s.SR.carry.toNat)
            + ((s.A &&& 0xf0) + (load s (get_ptr (instructions (s.memory s.PC)).mode s).1
                &&& 0xf0)) + 0x60
         else (if (s.A &&& 0x0f) + (load s (get_ptr (instructions (s.memory s.PC)).mode s).1
                &&& 0x0f) + s.SR.carry.toNat ≥ 10
             then ((s.A &&& 0x0f) + (load s (get_ptr (instructions (s.memory s.PC)).mode s).1
                &&& 0x0f) + s.SR.carry.toNat - 10) ||| 0x10
             else (s.A &&& 0x0f) + (load s (get_ptr (instructions (s.memory s.PC)).mode s).1
                &&& 0x0f) + s.SR.carry.toNat)
            + ((s.A &&& 0xf0) + (load s (get_ptr (instructions (s.memory s.PC)).mode s).1
                &&& 0xf0))) % 256 ∧
    (step_cpu s).2.SR.carry
      = decide ((if (if (s.A &&& 0x0f) + (load s (get_ptr (instructions (s.memory s.PC)).mode s).1
                &&& 0x0f) + s.SR.carry.toNat ≥ 10
             then ((s.A &&& 0x0f) + (load s (get_ptr (instructions (s.memory s.PC)).mode s).1
                &&& 0x0f) + s.SR.carry.toNat - 10) ||| 0x10
             else (s.A &&& 0x0f) + (load s (get_ptr (instructions (s.memory s.PC)).mode s).1
                &&& 0x0f) + s.SR.carry.toNat)
            + ((s.A &&& 0xf0) + (load s (get_ptr (instructions (s.memory s.PC)).mode s).1
                &&& 0xf0)) > 0x9f
         then (if (s.A &&& 0x0f) + (load s (get_ptr (instructions (s.memory s.PC)).mode s).1
                &&& 0x0f) + s.SR.carry.toNat ≥ 10
             then ((s.A &&& 0x0f) + (load s (get_ptr (instructions (s.memory s.PC)).mode s).1
                &&& 0x0f) + s.SR.carry.toNat - 10) ||| 0x10
             else (s.A &&& 0x0f) + (load s (get_ptr (instructions (s.memory s.PC)).mode s).1
                &&& 0x0f) + s.SR.carry.toNat)
            + ((s.A &&& 0xf0) + (load s (get_ptr (instructions (s.memory s.PC)).mode s).1
                &&& 0xf0)) + 0x60
         else (if (s.A &&& 0x0f) + (load s (get_ptr (instructions (s.memory s.PC)).mode s).1
                &&& 0x0f) + s.SR.carry.toNat ≥ 10
             then ((s.A &&& 0x0f) + (load s (get_ptr (instructions (s.memory s.PC)).mode s).1
                &&& 0x0f) + s.SR.carry.toNat - 10) ||| 0x10
             else (s.A &&& 0x0f) + (load s (get_ptr (instructions (s.memory s.PC)).mode s).1
                &&& 0x0f) + s.SR.carry.toNat)
            + ((s.A &&& 0xf0) + (load s (get_ptr (instructions (s.memory s.PC)).mode s).1
                &&& 0xf0))) > 0xFF) := by
  have hp : (get_ptr (instructions (s.memory s.PC)).mode
      { s with inst := instructions (s.memory s.PC), jumping := 0, extra_cycles := 0 }).1
      = (get_ptr (instructions (s.memory s.PC)).mode s).1 :=
    get_ptr_fst_congr _ _ _ rfl rfl rfl rfl
  have hl : ∀ p, load
      { s with inst := instructions (s.memory s.PC), jumping := 0, extra_cycles := 0 } p
      = load s p := fun p => load_congr _ _ p rfl rfl
  rw [(step_cpu_fields s).2.1, (step_cpu_fields s).2.2, h]
  simp only [exec, inst_ADC, read_ptr, N_flag, Z_flag, get_ptr_SR, get_ptr_A, load_get_ptr,
    hp, hl, hd, toNat_and_one, and_255, Nat.mod_mod, if_true]
  exact ⟨trivial, trivial⟩

/-- The decimal-mode adjustment of ADC on digits: `ah al` and `mh ml` are the
nibbles of the accumulator and of the operand. -/
theorem adc_decimal_digits (ah al mh ml c : Nat) (ha1 : ah ≤ 9) (ha2 : al ≤ 9)
    (hm1 : mh ≤ 9) (hm2 : ml ≤ 9) (hc : c < 2) :
    (if (if al + ml + c ≥ 10 then (al + ml + c - 10) ||| 0x10 else al + ml + c)
          + (ah * 16 + mh * 16) > 0x9f
      then (if al + ml + c ≥ 10 then (al + ml + c - 10) ||| 0x10 else al + ml + c)
          + (ah * 16 + mh * 16) + 0x60
      else (if al + ml + c ≥ 10 then (al + ml + c - 10) ||| 0x10 else al + ml + c)
          + (ah * 16 + mh * 16)) % 256
      = 16 * ((10 * ah + al + (10 * mh + ml) + c) % 100 / 10)
        + (10 * ah + al + (10 * mh + ml) + c) % 100 % 10 ∧
    decide ((if (if al + ml + c ≥ 10 then (al + ml + c - 10) ||| 0x10 else al + ml + c)
          + (ah * 16 + mh * 16) > 0x9f
      then (if al + ml + c ≥ 10 then (al + ml + c - 10) ||| 0x10 else al + ml + c)
          + (ah * 16 + mh * 16) + 0x60
      else (if al + ml + c ≥ 10 then (al + ml + c - 10) ||| 0x10 else al + ml + c)
          + (ah * 16 + mh * 16)) > 0xFF)
      = decide (10 * ah + al + (10 * mh + ml) + c ≥ 100) := by
  by_cases hlo : al + ml + c ≥ 10
  · have ho : (al + ml + c - 10) ||| 0x10 = al + ml + c - 10 + 16 :=
      or_16 _ (by omega)
    simp only [hlo, if_true, ho]
    by_cases hH : ah + mh ≥ 9
    · have hc1 : al + ml + c - 10 + 16 + (ah * 16 + mh * 16) > 159 := by omega
      have t1 : (10 * ah + al + (10 * mh + ml) + c) % 100
          = 10 * (ah + mh + 1 - 10) + (al + ml + c - 10) := by omega
      simp only [hc1, if_true, t1]
      constructor
      · omega
      · congr 1; apply propext; omega
    · have hc1 : ¬ al + ml + c - 10 + 16 + (ah * 16 + mh * 16) > 159 := by omega
      have t1 : (10 * ah + al + (10 * mh + ml) + c) % 100
          = 10 * (ah + mh + 1) + (al + ml + c - 10) := by omega
      simp only [hc1, if_false, t1]
      constructor
      · omega
      · congr 1; apply propext; omega
  · simp only [hlo, if_false]
    by_cases hH : ah + mh ≥ 10
    · have hc1 : al + ml + c + (ah * 16 + mh * 16) > 159 := by omega
      have t1 : (10 * ah + al + (10 * mh + ml) + c) % 100
          = 10 * (ah + mh - 10) + (al + ml + c) := by omega
      simp only [hc1, if_true, t1]
      constructor
      · omega
      · congr 1; apply propext; omega
    · have hc1 : ¬ al + ml + c + (ah * 16 + mh * 16) > 159 := by omega
      have t1 : (10 * ah + al + (10 * mh + ml) + c) % 100
          = 10 * (ah + mh) + (al + ml + c) := by omega
      simp only [hc1, if_false, t1]
      constructor
      · omega
      · congr 1; apply propext; omega

/-- C10: with D = 1, a step executing ADC (any of its opcodes) on a valid
packed-BCD accumulator and a valid packed-BCD operand `m` with carry-in `c`
sets A to the packed-BCD encoding of `(dec A + dec m + c) mod 100` and sets C
iff `dec A + dec m + c ≥ 100`. -/
theorem C10_adc_decimal (s : CPU) (hwf : WF s)
    (h : (instructions (s.memory s.PC)).function = Op.ADC) (hd : s.SR.decimal = true)
    (hA : validBCD s.A)
    (hm : validBCD (load s (get_ptr (instructions (s.memory s.PC)).mode s).1)) :
    (step_cpu s).2.A
      = bcdOfDec ((decOfBCD s.A
          + decOfBCD (load s (get_ptr (instructions (s.memory s.PC)).mode s).1)
          + s.SR.carry.toNat) % 100) ∧
    (step_cpu s).2.SR.carry
      = decide (decOfBCD s.A
          + decOfBCD (load s (get_ptr (instructions (s.memory s.PC)).mode s).1)
          + s.SR.carry.toNat ≥ 100) := by
  have hv := load_lt s hwf (get_ptr (instructions (s.memory s.PC)).mode s).1
  have hc := toNat_lt_two s.SR.carry
  have hA8 := hwf.2.1
  obtain ⟨e1, e2⟩ := step_ADC_decimal s h hd
  rw [e1, e2]
  generalize load s (get_ptr (instructions (s.memory s.PC)).mode s).1 = m at hm hv ⊢
  generalize s.SR.carry.toNat = c at hc ⊢
  generalize s.A = a at hA hA8 ⊢
  clear e1 e2
  simp only [and_15, and_240 a hA8, and_240 m hv, bcdOfDec, decOfBCD]
  exact adc_decimal_digits (a / 16) (a % 16) (m / 16) (m % 16) c hA.1 hA.2 hm.1 hm.2 hc

theorem adcDecimal_WF : WF adcDecimal := by
  refine ⟨fun a => ?_, by decide, by decide, by decide, by decide, by decide, by decide⟩
  show (if a = 0x0200 then 0x69 else if a = 0x0201 then 0x27 else 0) < 256
  split_ifs <;> decide

/-- Witness of C10: 95 + 27 + 1 = 123 in decimal mode gives A = $23 with the
carry set. -/
theorem C10_witness :
    WF adcDecimal ∧ (instructions (adcDecimal.memory adcDecimal.PC)).function = Op.ADC ∧
    adcDecimal.SR.decimal = true ∧ validBCD adcDecimal.A ∧
    validBCD (load adcDecimal
      (get_ptr (instructions (adcDecimal.memory adcDecimal.PC)).mode adcDecimal).1) ∧
    (step_cpu adcDecimal).2.A = 0x23 ∧ (step_cpu adcDecimal).2.SR.carry = true :=
  ⟨adcDecimal_WF, by decide, by decide, by decide, by decide,
    (C10_adc_decimal adcDecimal adcDecimal_WF (by decide) (by decide) (by decide)
      (by decide)).1,
    (C10_adc_decimal adcDecimal adcDecimal_WF (by decide) (by decide) (by decide)
      (by decide)).2⟩

/-! ## Facts read off the opcode table -/

set_option maxRecDepth 8000 in
theorem table_branch : ∀ n, n < 256 → (instructions n).function ∈ branchOps →
    (instructions n).mode = Mode.REL ∧ (instructions n).cycles = 2 := by
  decide

/-! ## Branches -/

theorem exec_branch (op : Op) (s : CPU) (h : op ∈ branchOps) :
    exec op s = if branchPredicate op s.SR then take_branch s else s := by
  cases op <;> first
    | exact absurd h (by decide)
    | simp only [exec, inst_BCC, inst_BCS, inst_BNE, inst_BEQ, inst_BPL, inst_BMI, inst_BVC,
        inst_BVS, branchPredicate]

theorem take_branch_REL (s : CPU) (h : s.inst.mode = Mode.REL) :
    take_branch s = { s with
      PC := (((s.PC : Int) + int8 (s.memory ((s.PC + 1) % 65536))) % 65536).toNat % 65536,
      extra_cycles :=
        ((if ((((s.PC : Int) + int8 (s.memory ((s.PC + 1) % 65536))) % 65536).toNat % 65536
              ^^^ (s.PC + 2) % 65536) &&& 0xff00 ≠ 0
          then (s.extra_cycles + 1) % 256 else s.extra_cycles) + 1) % 256 } := by
  simp only [take_branch, read_ptr, h, get_ptr, get_REL, get_IMM, load, Ptr.offset]
  split_ifs <;> rfl

/-- C11: for each of the eight branch instructions, if its predicate holds the
step leaves `PC` at `(PC + 2 + signed offset) mod 65536`, the signed offset
lying in [-128, 127], and otherwise at `(PC + 2) mod 65536`; in both cases A,
X, Y, SP, the status register and the memory are unchanged. -/
theorem C11_branch_pc (s : CPU) (hwf : WF s)
    (h : (instructions (s.memory s.PC)).function ∈ branchOps) :
    (step_cpu s).2.PC
      = (if branchPredicate (instructions (s.memory s.PC)).function s.SR
          then (((s.PC : Int) + 2 + int8 (s.memory ((s.PC + 1) % 65536))) % 65536).toNat
          else (s.PC + 2) % 65536) ∧
    (-128 ≤ int8 (s.memory ((s.PC + 1) % 65536)) ∧
      int8 (s.memory ((s.PC + 1) % 65536)) ≤ 127) ∧
    (step_cpu s).2.A = s.A ∧ (step_cpu s).2.X = s.X ∧ (step_cpu s).2.Y = s.Y ∧
    (step_cpu s).2.SP = s.SP ∧ (step_cpu s).2.SR = s.SR ∧
    (step_cpu s).2.memory = s.memory := by
  obtain ⟨hm, hA, hX, hY, hPC, hSP, hT⟩ := hwf
  obtain ⟨hmode, hcyc⟩ := table_branch _ (hm s.PC) h
  have hb := hm ((s.PC + 1) % 65536)
  have hi : -128 ≤ int8 (s.memory ((s.PC + 1) % 65536)) ∧
      int8 (s.memory ((s.PC + 1) % 65536)) ≤ 127 := by
    simp only [int8]; split_ifs <;> omega
  simp only [step_cpu, exec_branch _ _ h]
  by_cases hp : branchPredicate (instructions (s.memory s.PC)).function s.SR = true
  · simp only [hp, if_true]
    rw [take_branch_REL _ hmode]
    simp only [hmode, hcyc, lengths]
    refine ⟨?_, hi, ?_⟩
    · split_ifs <;> simp <;> omega
    · split_ifs <;> exact ⟨rfl, rfl, rfl, rfl, rfl, rfl⟩
  · simp only [hp, if_false, Bool.false_eq_true]
    simp only [hmode, hcyc, lengths]
    refine ⟨?_, hi, ?_⟩
    · split_ifs <;> simp
    · split_ifs <;> exact ⟨rfl, rfl, rfl, rfl, rfl, rfl⟩

theorem bneSpec_WF : WF bneSpec := by
  refine ⟨fun a => ?_, by decide, by decide, by decide, by decide, by decide, by decide⟩
  show (if a = 0x02F0 then 0xD0 else if a = 0x02F1 then 0x7F else 0) < 256
  split_ifs <;> decide

/-- Witness of C11: the branch scenario of the spec, BNE +127 at $02F0. -/
theorem C11_witness :
    WF bneSpec ∧ (instructions (bneSpec.memory bneSpec.PC)).function ∈ branchOps ∧
    (step_cpu bneSpec).2.PC = 0x0371 ∧ (step_cpu bneSpec).2.SR = bneSpec.SR :=
  ⟨bneSpec_WF, by decide, (C11_branch_pc bneSpec bneSpec_WF (by decide)).1,
    (C11_branch_pc bneSpec bneSpec_WF (by decide)).2.2.2.2.2.2.1⟩

/-! ## The page test of `take_branch` -/

theorem and_ff00_eq_zero (x : Nat) (hx : x < 65536) : x &&& 0xff00 = 0 ↔ x < 256 := by
  have h1 : x &&& 0xffff = x := by
    have e := Nat.and_pow_two_sub_one_eq_mod x 16
    rw [Nat.mod_eq_of_lt hx] at e
    exact e
  have h2 : (0xffff : Nat) = 0xff00 ||| 0xff := by decide
  have h3 : x = (x &&& 0xff00) ||| (x % 256) := by
    conv_lhs => rw [← h1, h2, Nat.and_or_distrib_left, and_255]
  have h4 : (x &&& 0xff00) % 256 = 0 := by
    rw [← and_255, Nat.and_assoc]
    have e : (0xff00 : Nat) &&& 0xFF = 0 := by decide
    rw [e, Nat.and_zero]
  have h5 : x &&& 0xff00 ≤ x := Nat.and_le_left
  constructor
  · intro h
    rw [h, Nat.zero_or] at h3
    omega
  · intro h
    omega

theorem xor_div_256 (a b : Nat) : (a ^^^ b) / 256 = a / 256 ^^^ b / 256 := by
  have e : ∀ x : Nat, x / 256 = x / 2 / 2 / 2 / 2 / 2 / 2 / 2 / 2 := by
    intro x; omega
  rw [e, e a, e b]
  simp only [Nat.xor_div_two]

theorem high_byte_test (a b : Nat) (ha : a < 65536) (hb : b < 65536) :
    ((a ^^^ b) &&& 0xff00 ≠ 0) ↔ pageDiffers a b := by
  have hx : a ^^^ b < 2 ^ 16 := Nat.xor_lt_two_pow ha hb
  have h1 := and_ff00_eq_zero (a ^^^ b) hx
  have h2 := xor_div_256 a b
  have h3 : a / 256 ^^^ b / 256 = 0 ↔ a / 256 = b / 256 := Nat.xor_eq_zero
  unfold pageDiffers
  constructor
  · intro h hab
    apply h
    rw [h1]
    have : (a ^^^ b) / 256 = 0 := by rw [h2]; exact h3.2 hab
    omega
  · intro h hz
    apply h
    apply h3.1
    rw [← h2]
    have := h1.1 hz
    omega

/-- What the code charges for a branch: 2 cycles when it is not taken, and
when it is taken 3 or 4 according to whether `(PC + signed offset) mod 65536`,
the address before the driver adds the instruction length, lies in the page
of `(PC + 2) mod 65536`. -/
theorem branch_cycles (s : CPU) (hwf : WF s)
    (h : (instructions (s.memory s.PC)).function ∈ branchOps) :
    (step_cpu s).1
      = (if branchPredicate (instructions (s.memory s.PC)).function s.SR then
          (if pageDiffers (((s.PC : Int) + int8 (branchOffset s)) % 65536).toNat
              ((s.PC + 2) % 65536) then 4 else 3)
        else 2) := by
  obtain ⟨hm, hA, hX, hY, hPC, hSP, hT⟩ := hwf
  obtain ⟨hmode, hcyc⟩ := table_branch _ (hm s.PC) h
  have hb := hm ((s.PC + 1) % 65536)
  have hlt : (((s.PC : Int) + int8 (s.memory ((s.PC + 1) % 65536))) % 65536).toNat < 65536 := by
    omega
  have hmod : (((s.PC : Int) + int8 (s.memory ((s.PC + 1) % 65536))) % 65536).toNat % 65536
      = (((s.PC : Int) + int8 (s.memory ((s.PC + 1) % 65536))) % 65536).toNat :=
    Nat.mod_eq_of_lt hlt
  have ht := high_byte_test _ ((s.PC + 2) % 65536) hlt (by omega)
  rw [step_cpu_fst]
  simp only [step_cpu, exec_branch _ _ h, branchOffset]
  by_cases hp : branchPredicate (instructions (s.memory s.PC)).function s.SR = true
  · simp only [hp, if_true]
    rw [take_branch_REL _ hmode]
    simp only [hmode, hcyc, lengths, hmod]
    by_cases hd : pageDiffers (((s.PC : Int) + int8 (s.memory ((s.PC + 1) % 65536))) % 65536).toNat
        ((s.PC + 2) % 65536)
    · simp [hd, ht.2 hd, hcyc]
    · have hz : ¬ ((((s.PC : Int) + int8 (s.memory ((s.PC + 1) % 65536))) % 65536).toNat
          ^^^ (s.PC + 2) % 65536) &&& 0xff00 ≠ 0 := fun hh => hd (ht.1 hh)
      simp [hd, hz, hcyc]
  · simp only [hp, if_false, Bool.false_eq_true]
    simp [hcyc]

/-- C12 on the code: BNE +14 at $02F0, taken, leads from the next instruction
at $02F2 to the target $0300 in another page, and `step_cpu` returns 3, not 4;
BNE +0 at $02FE, taken, has its target $0300 in the page of the next
instruction $0300, and `step_cpu` returns 4, not 3. -/
theorem C12_branch_cycles_at_page_edge :
    ((instructions (bneLate.memory bneLate.PC)).function = Op.BNE ∧
      branchPredicate Op.BNE bneLate.SR = true ∧
      (bneLate.PC + 2) % 65536 = 0x02F2 ∧ branchTarget bneLate = 0x0300 ∧
      (step_cpu bneLate).2.PC = 0x0300 ∧
      pageDiffers (branchTarget bneLate) ((bneLate.PC + 2) % 65536) ∧
      (step_cpu bneLate).1 = 3) ∧
    ((instructions (bneEarly.memory bneEarly.PC)).function = Op.BNE ∧
      branchPredicate Op.BNE bneEarly.SR = true ∧
      (bneEarly.PC + 2) % 65536 = 0x0300 ∧ branchTarget bneEarly = 0x0300 ∧
      (step_cpu bneEarly).2.PC = 0x0300 ∧
      ¬ pageDiffers (branchTarget bneEarly) ((bneEarly.PC + 2) % 65536) ∧
      (step_cpu bneEarly).1 = 4) := by
  refine ⟨⟨by decide, by decide, by decide, by decide, by decide, by decide, by decide⟩,
    ⟨by decide, by decide, by decide, by decide, by decide, by decide, by decide⟩⟩

/-! ## The indirect JMP -/

theorem instructions_JMP_ind :
    instructions 0x6C = Instruction.mk "JMP ind" Op.JMP Mode.JMP_IND_BUG 5 := rfl

theorem step_JMP_ind (s : CPU) (h1 : s.memory s.PC = 0x6C) :
    step_cpu s = (5, { s with
      PC := (if operandWord s &&& 0xff = 0xff then
          (s.memory (operandWord s) + (s.memory (operandWord s &&& 0xff00) <<< 8)) % 65536
        else memcpy16 s.memory (operandWord s)) % 65536,
      inst := instructions 0x6C, jumping := 1, extra_cycles := 0,
      total_cycles := (s.total_cycles + 5) % 2 ^ 64 }) := by
  simp only [step_cpu, h1, instructions_JMP_ind, exec, inst_JMP, read_ptr, get_ptr,
    get_JMP_IND_BUG, get_uint16, get_IMM, Ptr.offset, lengths, operandWord]
  simp

/-- C13: a step executing opcode $6C with operand word `ptr` sets `PC` to
`memory[ptr] | (memory[ptr & 0xFF00] << 8)` when the low byte of `ptr` is $FF
and to `memory[ptr] | (memory[ptr + 1] << 8)` otherwise; it returns 5 cycles
and changes no other register, no flag and no memory. -/
theorem C13_jmp_indirect (s : CPU) (hwf : WF s) (h1 : s.memory s.PC = 0x6C) :
    (step_cpu s).2.PC
      = (if operandWord s % 256 = 0xFF then
          s.memory (operandWord s) ||| (s.memory (operandWord s &&& 0xFF00) <<< 8)
        else s.memory (operandWord s) ||| (s.memory (operandWord s + 1) <<< 8)) ∧
    (step_cpu s).1 = 5 ∧
    (step_cpu s).2.A = s.A ∧ (step_cpu s).2.X = s.X ∧ (step_cpu s).2.Y = s.Y ∧
    (step_cpu s).2.SP = s.SP ∧ (step_cpu s).2.SR = s.SR ∧
    (step_cpu s).2.memory = s.memory := by
  obtain ⟨hm, hA, hX, hY, hPC, hSP, hT⟩ := hwf
  rw [step_JMP_ind s h1]
  refine ⟨?_, rfl, rfl, rfl, rfl, rfl, rfl, rfl⟩
  show (if operandWord s &&& 0xff = 0xff then _ else _) % 65536 = _
  have h0 := hm (operandWord s)
  have h2 := hm (operandWord s &&& 0xFF00)
  have h3 := hm (operandWord s + 1)
  rw [and_255, or_shl8 _ _ h0, or_shl8 _ _ h0]
  unfold memcpy16
  split_ifs <;> omega

theorem jmpIndirect_WF : WF jmpIndirect := by
  refine ⟨fun a => ?_, by decide, by decide, by decide, by decide, by decide, by decide⟩
  show (if a = 0x0200 then 0x6C else if a = 0x0201 then 0xFF
      else if a = 0x0202 then 0x30 else if a = 0x30FF then 0x34
      else if a = 0x3000 then 0x12 else if a = 0x3100 then 0x80 else 0) < 256
  split_ifs <;> decide

/-- Witness of C13: the indirect JMP scenario of the spec. -/
theorem C13_witness :
    WF jmpIndirect ∧ jmpIndirect.memory jmpIndirect.PC = 0x6C ∧
    operandWord jmpIndirect = 0x30FF ∧
    (step_cpu jmpIndirect).2.PC = 0x1234 ∧ (step_cpu jmpIndirect).1 = 5 :=
  ⟨jmpIndirect_WF, by decide, by decide, (C13_jmp_indirect jmpIndirect jmpIndirect_WF (by decide)).1,
    (C13_jmp_indirect jmpIndirect jmpIndirect_WF (by decide)).2.1⟩

/-! ## Page-cross cycles -/

set_option maxRecDepth 8000 in
theorem table_indexed_read : ∀ n, n < 256 →
    ((instructions n).mode ∈ [Mode.ABSX, Mode.ABSY, Mode.INDY] ∧
      (instructions n).function ∉ [Op.STA, Op.STX, Op.STY] ∧
      (instructions n).cycles ≠ 7) → (instructions n).function ∈ readOps := by
  decide

set_option maxRecDepth 8000 in
theorem table_store_modes : ∀ n, n < 256 →
    (instructions n).function ∈ [Op.STX, Op.STY] →
    (instructions n).mode ∈ [Mode.ZP, Mode.ABS, Mode.ZPX, Mode.ZPY] := by
  decide

set_option maxRecDepth 8000 in
theorem table_nop_modes : ∀ n, n < 256 → (instructions n).function = Op.NOP →
    (instructions n).mode ∈ [Mode.IMPL, Mode.IMM, Mode.ZP, Mode.ABS, Mode.ABSX] ∧
    ((instructions n).mode = Mode.ABSX → (instructions n).cycles ≠ 7) := by
  decide

theorem exec_read_once (op : Op) (s : CPU) (h : op ∈ readOps) :
    (exec op s).extra_cycles = (get_ptr s.inst.mode s).2.extra_cycles := by
  cases op <;> first
    | exact absurd h (by decide)
    | (simp only [exec, inst_ORA, inst_AND, inst_EOR, inst_ADC, inst_LDA, inst_LDX, inst_LDY,
        inst_CMP, inst_SBC, inst_NOP, read_ptr, N_flag, Z_flag]; done)
    | (simp only [exec, inst_ORA, inst_AND, inst_EOR, inst_ADC, inst_LDA, inst_LDX, inst_LDY,
        inst_CMP, inst_SBC, inst_NOP, read_ptr, N_flag, Z_flag]
       first | rfl | (split_ifs <;> rfl))

theorem get_ptr_extra_cycles (m : Mode) (s : CPU) :
    (get_ptr m s).2.extra_cycles
      = (if m ∈ [Mode.ABSX, Mode.ABSY, Mode.INDY] ∧
            (indexedBase m s + indexValue m s) % 65536 % 256 < indexValue m s
          then (s.extra_cycles + 1) % 256 else s.extra_cycles) ∧
    (m ∈ [Mode.ABSX, Mode.ABSY, Mode.INDY] →
      (get_ptr m s).1 = Ptr.mem ((indexedBase m s + indexValue m s) % 65536)) := by
  have e : (255 : Nat) &&& 65280 = 0 := by decide
  cases m <;>
    simp [get_ptr, get_ACC, get_ABS, get_ABSX, get_ABSY, get_IMM, get_IMPL, get_IND,
      get_XIND, get_INDY, get_REL, get_ZP, get_ZPX, get_ZPY, get_JMP_IND_BUG, get_uint16,
      load, Ptr.offset, indexedBase, indexValue, operandWord] <;>
    split_ifs <;> ((try simp_all); (try omega))

theorem page_cross_test (base idx : Nat) (hb : base < 65536) (hi : idx < 256) :
    (base + idx) % 65536 % 256 < idx ↔ pageDiffers ((base + idx) % 65536) base := by
  unfold pageDiffers
  omega

theorem step_cpu_extra (s : CPU) :
    (step_cpu s).2.extra_cycles
      = (if (instructions (s.memory s.PC)).cycles = 7 then 0
        else (exec (instructions (s.memory s.PC)).function
          { s with inst := instructions (s.memory s.PC), jumping := 0,
                   extra_cycles := 0 }).extra_cycles) := by
  simp only [step_cpu]
  split_ifs
  all_goals simp_all [(exec_inst_total _ _).1]

theorem indexedBase_lt (m : Mode) (s : CPU) (hwf : WF s) : indexedBase m s < 65536 := by
  have h1 := hwf.1 ((s.PC + 1) % 65536)
  have h2 := hwf.1 ((s.PC + 1) % 65536 + 1)
  have h3 := hwf.1 (s.memory ((s.PC + 1) % 65536))
  have h4 := hwf.1 (s.memory ((s.PC + 1) % 65536) + 1)
  cases m <;> simp only [indexedBase, operandWord, memcpy16] <;> (try split_ifs) <;> omega

theorem indexValue_lt (m : Mode) (s : CPU) (hwf : WF s) : indexValue m s < 256 := by
  have h1 := hwf.2.2.1
  have h2 := hwf.2.2.2.1
  cases m <;> simp only [indexValue] <;> assumption

/-- C14: for every opcode in mode ABSX, ABSY or INDY whose semantic is not a
store and whose base cycle count is not 7, `step_cpu` returns the base count
plus 1 when the effective address, `(base + index) mod 65536`, lies in another
page than the un-indexed base address, and the base count otherwise. -/
theorem C14_page_cross_cycle (s : CPU) (hwf : WF s)
    (hmode : (instructions (s.memory s.PC)).mode ∈ [Mode.ABSX, Mode.ABSY, Mode.INDY])
    (hstore : (instructions (s.memory s.PC)).function ∉ [Op.STA, Op.STX, Op.STY])
    (hseven : (instructions (s.memory s.PC)).cycles ≠ 7) :
    (get_ptr (instructions (s.memory s.PC)).mode s).1
      = Ptr.mem ((indexedBase (instructions (s.memory s.PC)).mode s
          + indexValue (instructions (s.memory s.PC)).mode s) % 65536) ∧
    (step_cpu s).1
      = (instructions (s.memory s.PC)).cycles
        + (if pageDiffers ((indexedBase (instructions (s.memory s.PC)).mode s
              + indexValue (instructions (s.memory s.PC)).mode s) % 65536)
            (indexedBase (instructions (s.memory s.PC)).mode s) then 1 else 0) := by
  have hop := table_indexed_read _ (hwf.1 s.PC) ⟨hmode, hstore, hseven⟩
  have hb := indexedBase_lt (instructions (s.memory s.PC)).mode s hwf
  have hi := indexValue_lt (instructions (s.memory s.PC)).mode s hwf
  have ht := page_cross_test _ _ hb hi
  refine ⟨(get_ptr_extra_cycles _ s).2 hmode, ?_⟩
  rw [step_cpu_fst, step_cpu_extra, if_neg hseven, exec_read_once _ _ hop]
  have e := (get_ptr_extra_cycles (instructions (s.memory s.PC)).mode
    { s with inst := instructions (s.memory s.PC), jumping := 0, extra_cycles := 0 }).1
  have eb : indexedBase (instructions (s.memory s.PC)).mode
      { s with inst := instructions (s.memory s.PC), jumping := 0, extra_cycles := 0 }
      = indexedBase (instructions (s.memory s.PC)).mode s := rfl
  have ei : indexValue (instructions (s.memory s.PC)).mode
      { s with inst := instructions (s.memory s.PC), jumping := 0, extra_cycles := 0 }
      = indexValue (instructions (s.memory s.PC)).mode s := rfl
  rw [eb, ei] at e
  rw [e]
  by_cases hd : pageDiffers ((indexedBase (instructions (s.memory s.PC)).mode s
      + indexValue (instructions (s.memory s.PC)).mode s) % 65536)
      (indexedBase (instructions (s.memory s.PC)).mode s)
  · rw [if_pos hd, if_pos ⟨hmode, ht.2 hd⟩]
    rfl
  · rw [if_neg hd, if_neg (fun hh => hd (ht.1 hh.2))]

theorem ldaAbsX_WF : WF ldaAbsX := by
  refine ⟨fun a => ?_, by decide, by decide, by decide, by decide, by decide, by decide⟩
  show (if a = 0x0200 then 0xBD else if a = 0x0201 then 0xFF
      else if a = 0x0202 then 0x20 else if a = 0x2100 then 0x77 else 0) < 256
  split_ifs <;> decide

/-- Witness of C14: LDA $20FF,X with X = 1 reads $2100 and takes 4 + 1 cycles. -/
theorem C14_witness :
    WF ldaAbsX ∧
    (instructions (ldaAbsX.memory ldaAbsX.PC)).mode ∈ [Mode.ABSX, Mode.ABSY, Mode.INDY] ∧
    (instructions (ldaAbsX.memory ldaAbsX.PC)).function ∉ [Op.STA, Op.STX, Op.STY] ∧
    (instructions (ldaAbsX.memory ldaAbsX.PC)).cycles ≠ 7 ∧
    (get_ptr (instructions (ldaAbsX.memory ldaAbsX.PC)).mode ldaAbsX).1 = Ptr.mem 0x2100 ∧
    (step_cpu ldaAbsX).1 = 5 :=
  ⟨ldaAbsX_WF, by decide, by decide, by decide,
    (C14_page_cross_cycle ldaAbsX ldaAbsX_WF (by decide) (by decide) (by decide)).1,
    (C14_page_cross_cycle ldaAbsX ldaAbsX_WF (by decide) (by decide) (by decide)).2⟩

theorem exec_store_extra (op : Op) (s : CPU) (h : op ∈ [Op.STA, Op.STX, Op.STY])
    (hm : op ∈ [Op.STX, Op.STY] → s.inst.mode ∈ [Mode.ZP, Mode.ABS, Mode.ZPX, Mode.ZPY])
    (he : s.extra_cycles = 0) : (exec op s).extra_cycles = 0 := by
  cases op <;> first
    | exact absurd h (by decide)
    | (simp only [exec, inst_STA]; done)
    | (have hmode := hm (by decide)
       have e := (get_ptr_extra_cycles s.inst.mode s).1
       have hn : ¬ (s.inst.mode ∈ [Mode.ABSX, Mode.ABSY, Mode.INDY] ∧
           (indexedBase s.inst.mode s + indexValue s.inst.mode s) % 65536 % 256
             < indexValue s.inst.mode s) := by
         intro hh
         have h1 := hh.1
         revert hmode h1
         cases s.inst.mode <;> decide
       rw [if_neg hn] at e
       simp only [exec, inst_STX, inst_STY, write_ptr, store_extra_cycles, e, he])

/-- C15: for every opcode bound to STA, STX or STY and for every opcode whose
base cycle count is 7, `step_cpu` returns exactly the base cycle count,
whatever X, Y, the operand bytes and the memory are. -/
theorem C15_no_page_cross_penalty (s : CPU) (hwf : WF s)
    (h : (instructions (s.memory s.PC)).function ∈ [Op.STA, Op.STX, Op.STY] ∨
      (instructions (s.memory s.PC)).cycles = 7) :
    (step_cpu s).1 = (instructions (s.memory s.PC)).cycles := by
  rw [step_cpu_fst, step_cpu_extra]
  by_cases h7 : (instructions (s.memory s.PC)).cycles = 7
  · rw [if_pos h7]; rfl
  · rw [if_neg h7]
    have hs : (instructions (s.memory s.PC)).function ∈ [Op.STA, Op.STX, Op.STY] := by
      rcases h with h | h
      · exact h
      · exact absurd h h7
    rw [exec_store_extra _ _ hs (fun hx => table_store_modes _ (hwf.1 s.PC) hx) rfl]
    rfl

theorem staAbsX_WF : WF staAbsX := by
  refine ⟨fun a => ?_, by decide, by decide, by decide, by decide, by decide, by decide⟩
  show (if a = 0x0200 then 0x9D else if a = 0x0201 then 0xFF
      else if a = 0x0202 then 0x20 else 0) < 256
  split_ifs <;> decide

/-- Witness of C15: STA $20FF,X with X = 1 writes $2100, in the page after the
base, and takes the 5 base cycles. -/
theorem C15_witness :
    WF staAbsX ∧
    ((instructions (staAbsX.memory staAbsX.PC)).function ∈ [Op.STA, Op.STX, Op.STY] ∨
      (instructions (staAbsX.memory staAbsX.PC)).cycles = 7) ∧
    (step_cpu staAbsX).2.memory 0x2100 = 0x55 ∧
    (step_cpu staAbsX).1 = 5 :=
  ⟨staAbsX_WF, by decide, by decide,
    C15_no_page_cross_penalty staAbsX staAbsX_WF (by decide)⟩

/-! ## NOP and the undocumented opcodes -/

theorem exec_NOP_eq (s : CPU) :
    exec Op.NOP s = { s with extra_cycles := (get_ptr s.inst.mode s).2.extra_cycles } := by
  simp only [exec, inst_NOP, read_ptr]
  exact get_ptr_snd _ _

/-- C16: for every opcode bound to the NOP semantic, `step_cpu` leaves A, X, Y,
SP, the status register and the memory unchanged, advances `PC` by the length
of the addressing mode of the entry, and returns the base cycle count of the
entry, plus 1 exactly when the mode is ABSX and the indexed address lies in
another page than the operand word. -/
theorem C16_nop_frame (s : CPU) (hwf : WF s)
    (h : (instructions (s.memory s.PC)).function = Op.NOP) :
    (step_cpu s).2.A = s.A ∧ (step_cpu s).2.X = s.X ∧ (step_cpu s).2.Y = s.Y ∧
    (step_cpu s).2.SP = s.SP ∧ (step_cpu s).2.SR = s.SR ∧
    (step_cpu s).2.memory = s.memory ∧
    (step_cpu s).2.PC = (s.PC + lengths (instructions (s.memory s.PC)).mode) % 65536 ∧
    (step_cpu s).1
      = (instructions (s.memory s.PC)).cycles
        + (if (instructions (s.memory s.PC)).mode = Mode.ABSX ∧
              pageDiffers ((operandWord s + s.X) % 65536) (operandWord s)
            then 1 else 0) := by
  obtain ⟨hmodes, habsx⟩ := table_nop_modes _ (hwf.1 s.PC) h
  have hframe : (step_cpu s).2.A = s.A ∧ (step_cpu s).2.X = s.X ∧ (step_cpu s).2.Y = s.Y ∧
      (step_cpu s).2.SP = s.SP ∧ (step_cpu s).2.SR = s.SR ∧
      (step_cpu s).2.memory = s.memory ∧
      (step_cpu s).2.PC = (s.PC + lengths (instructions (s.memory s.PC)).mode) % 65536 := by
    simp only [step_cpu, h, exec_NOP_eq]
    split_ifs <;> exact ⟨rfl, rfl, rfl, rfl, rfl, rfl, rfl⟩
  obtain ⟨f1, f2, f3, f4, f5, f6, f7⟩ := hframe
  refine ⟨f1, f2, f3, f4, f5, f6, f7, ?_⟩
  rw [step_cpu_fst, step_cpu_extra]
  by_cases h7 : (instructions (s.memory s.PC)).cycles = 7
  · have hn : ¬ ((instructions (s.memory s.PC)).mode = Mode.ABSX ∧
        pageDiffers ((operandWord s + s.X) % 65536) (operandWord s)) :=
      fun hh => habsx hh.1 h7
    rw [if_pos h7, if_neg hn]
  · rw [if_neg h7, h, exec_NOP_eq]
    have e := (get_ptr_extra_cycles (instructions (s.memory s.PC)).mode
      { s with inst := instructions (s.memory s.PC), jumping := 0, extra_cycles := 0 }).1
    have eb : indexedBase (instructions (s.memory s.PC)).mode
        { s with inst := instructions (s.memory s.PC), jumping := 0, extra_cycles := 0 }
        = indexedBase (instructions (s.memory s.PC)).mode s := rfl
    have ei : indexValue (instructions (s.memory s.PC)).mode
        { s with inst := instructions (s.memory s.PC), jumping := 0, extra_cycles := 0 }
        = indexValue (instructions (s.memory s.PC)).mode s := rfl
    rw [eb, ei] at e
    show _ + (get_ptr (instructions (s.memory s.PC)).mode
      { s with inst := instructions (s.memory s.PC), jumping := 0,
               extra_cycles := 0 }).2.extra_cycles = _
    rw [e]
    by_cases hx : (instructions (s.memory s.PC)).mode = Mode.ABSX
    · have hb : operandWord s < 65536 := by
        have := indexedBase_lt Mode.ABSX s hwf
        exact this
      have ht := page_cross_test (operandWord s) s.X hb hwf.2.2.1
      have e1 : indexedBase (instructions (s.memory s.PC)).mode s = operandWord s := by
        rw [hx]; rfl
      have e2 : indexValue (instructions (s.memory s.PC)).mode s = s.X := by
        rw [hx]; rfl
      rw [e1, e2]
      by_cases hd : pageDiffers ((operandWord s + s.X) % 65536) (operandWord s)
      · rw [if_pos ⟨by rw [hx]; decide, ht.2 hd⟩, if_pos ⟨hx, hd⟩]
        rfl
      · rw [if_neg (fun hh => hd (ht.1 hh.2)), if_neg (fun hh => hd hh.2)]
    · have hn1 : ¬ ((instructions (s.memory s.PC)).mode = Mode.ABSX ∧
          pageDiffers ((operandWord s + s.X) % 65536) (operandWord s)) := fun hh => hx hh.1
      have hn2 : ¬ ((instructions (s.memory s.PC)).mode ∈ [Mode.ABSX, Mode.ABSY, Mode.INDY] ∧
          (indexedBase (instructions (s.memory s.PC)).mode s
            + indexValue (instructions (s.memory s.PC)).mode s) % 65536 % 256
            < indexValue (instructions (s.memory s.PC)).mode s) := by
        intro hh
        have h1 := hh.1
        revert hmodes hx h1
        cases (instructions (s.memory s.PC)).mode <;> decide
      rw [if_neg hn2, if_neg hn1]

theorem nopAbsX_WF : WF nopAbsX := by
  refine ⟨fun a => ?_, by decide, by decide, by decide, by decide, by decide, by decide⟩
  show (if a = 0x0200 then 0x1C else if a = 0x0201 then 0xFF
      else if a = 0x0202 then 0x20 else 0) < 256
  split_ifs <;> decide

/-- Witness of C16: the undocumented opcode $1C with operand $20FF and X = 1
advances `PC` by 3 and takes 4 + 1 cycles. -/
theorem C16_witness :
    WF nopAbsX ∧ (instructions (nopAbsX.memory nopAbsX.PC)).function = Op.NOP ∧
    (step_cpu nopAbsX).2.PC = 0x0203 ∧ (step_cpu nopAbsX).1 = 5 :=
  ⟨nopAbsX_WF, by decide, (C16_nop_frame nopAbsX nopAbsX_WF (by decide)).2.2.2.2.2.2.1,
    (C16_nop_frame nopAbsX nopAbsX_WF (by decide)).2.2.2.2.2.2.2⟩

/-! ## Image loading -/

/-- C17 as stated fails: on a memory filled with $EA, a `load_rom` whose file
cannot be opened returns -1 and leaves 0, not $EA, in the cell $1234. -/
theorem C17_counterexample :
    (load_rom nopAtTop none 0).1 = -1 ∧ nopAtTop.memory 0x1234 = 0xEA ∧
    (load_rom nopAtTop none 0).2.memory 0x1234 = 0 := by
  refine ⟨by decide, by decide, by decide⟩

/-- C17 (amended): when the file cannot be opened, `load_rom` returns -1 and
leaves every one of the 65,536 bytes of memory zero, the memory being cleared
before the file is opened; the registers are untouched. -/
theorem C17_load_failure_clears_memory (s : CPU) (load_addr a : Nat) :
    (load_rom s none load_addr).1 = -1 ∧
    (load_rom s none load_addr).2.memory (a % 65536) = 0 ∧
    (load_rom s none load_addr).2.A = s.A ∧ (load_rom s none load_addr).2.X = s.X ∧
    (load_rom s none load_addr).2.Y = s.Y ∧ (load_rom s none load_addr).2.PC = s.PC ∧
    (load_rom s none load_addr).2.SP = s.SP ∧ (load_rom s none load_addr).2.SR = s.SR := by
  refine ⟨rfl, ?_, rfl, rfl, rfl, rfl, rfl, rfl⟩
  show (if a % 65536 < 65536 then 0 else s.memory (a % 65536)) = 0
  rw [if_pos (by omega)]

/-! ## The operand fetch at the top of memory -/

/-- C18 on the code: with JMP abs at $FFFE the operand word is fetched from the
indices $FFFF and 65536.  Two machines that agree on the registers and on each
of the 65,536 cells of the array, and differ only in what lies at index 65536,
end the step with different `PC`; a fetch wrapping to $0000 would give $0034
in both. -/
theorem C18_operand_fetch_reads_index_65536 (i : Nat) :
    (jmpAtTop 0x12).PC = 0xFFFE ∧ (jmpAtTop 0).PC = 0xFFFE ∧
    (jmpAtTop 0x12).memory (i % 65536) = (jmpAtTop 0).memory (i % 65536) ∧
    (jmpAtTop 0x12).memory 0xFFFE = 0x4C ∧ (jmpAtTop 0x12).memory 0xFFFF = 0x34 ∧
    (jmpAtTop 0x12).memory 0x0000 = 0 ∧
    (step_cpu (jmpAtTop 0x12)).2.PC = 0x1234 ∧ (step_cpu (jmpAtTop 0)).2.PC = 0x0034 := by
  refine ⟨rfl, rfl, ?_, by decide, by decide, by decide, by decide, by decide⟩
  show (if i % 65536 = 0xFFFE then 0x4C else if i % 65536 = 0xFFFF then 0x34
      else if i % 65536 = 0x10000 then 0x12 else 0)
    = (if i % 65536 = 0xFFFE then 0x4C else if i % 65536 = 0xFFFF then 0x34
      else if i % 65536 = 0x10000 then 0 else 0)
  have h : ¬ i % 65536 = 0x10000 := by omega
  rw [if_neg h, if_neg h]

/-! ## RTI -/

theorem instructions_RTI :
    instructions 0x40 = Instruction.mk "RTI impl" Op.RTI Mode.IMPL 6 := rfl

theorem step_RTI (s : CPU) (h1 : s.memory s.PC = 0x40) :
    step_cpu s = (6, { s with
      SP := (((s.SP + 1) % 256 + 1) % 256 + 1) % 256,
      SR := { StatusReg.ofByte (s.memory (0x100 + (s.SP + 1) % 256)) with unused := true },
      PC := (s.memory (0x100 + ((s.SP + 1) % 256 + 1) % 256)
        ||| (s.memory (0x100 + (((s.SP + 1) % 256 + 1) % 256 + 1) % 256) <<< 8)) % 65536,
      inst := instructions 0x40, jumping := 1, extra_cycles := 0,
      total_cycles := (s.total_cycles + 6) % 2 ^ 64 }) := by
  simp only [step_cpu, h1, instructions_RTI, exec, inst_RTI, stack_pull, lengths]
  simp

/-- C20: a step executing RTI sets `PC` to
`memory[$0100 + (SP+2) mod 256] | (memory[$0100 + (SP+3) mod 256] << 8)` with
nothing added, sets SP to `(SP + 3) mod 256` and returns 6 cycles; a step
executing RTS, by contrast, sets `PC` to the word it pulls plus 1. -/
theorem C20_rti_pc (s : CPU) (hwf : WF s) (h1 : s.memory s.PC = 0x40) :
    (step_cpu s).2.PC
      = s.memory (0x100 + (s.SP + 2) % 256)
        ||| (s.memory (0x100 + (s.SP + 3) % 256) <<< 8) ∧
    (step_cpu s).2.SP = (s.SP + 3) % 256 ∧
    (step_cpu s).1 = 6 ∧
    (∀ t : CPU, WF t → t.memory t.PC = 0x60 →
      (step_cpu t).2.PC
        = ((t.memory (0x100 + (t.SP + 1) % 256)
            ||| (t.memory (0x100 + (t.SP + 2) % 256) <<< 8)) + 1) % 65536) := by
  obtain ⟨hm, hA, hX, hY, hPC, hSP, hT⟩ := hwf
  have e2 : ((s.SP + 1) % 256 + 1) % 256 = (s.SP + 2) % 256 := by omega
  have e3 : ((s.SP + 2) % 256 + 1) % 256 = (s.SP + 3) % 256 := by omega
  rw [step_RTI s h1]
  simp only [e2, e3]
  refine ⟨?_, trivial, trivial, ?_⟩
  · have h0 := hm (0x100 + (s.SP + 2) % 256)
    have h3 := hm (0x100 + (s.SP + 3) % 256)
    rw [or_shl8 _ _ h0]
    omega
  · intro t ht h60
    have f2 : ((t.SP + 1) % 256 + 1) % 256 = (t.SP + 2) % 256 := by omega
    rw [step_RTS t h60]
    simp only [f2]
    have h0 := ht.1 (0x100 + (t.SP + 1) % 256)
    have h3 := ht.1 (0x100 + (t.SP + 2) % 256)
    rw [or_shl8 _ _ h0]
    omega

theorem rtiWrap_WF : WF rtiWrap := by
  refine ⟨fun a => ?_, by decide, by decide, by decide, by decide, by decide, by decide⟩
  show (if a = 0x0200 then 0x40 else if a = 0x01FE then 0xC3
      else if a = 0x01FF then 0x34 else if a = 0x0100 then 0x12 else 0) < 256
  split_ifs <;> decide

theorem rtsPlain_WF : WF rtsPlain := by
  refine ⟨fun a => ?_, by decide, by decide, by decide, by decide, by decide, by decide⟩
  show (if a = 0x0200 then 0x60 else if a = 0x01FE then 0xC3
      else if a = 0x01FF then 0x34 else if a = 0x0100 then 0x12 else 0) < 256
  split_ifs <;> decide

/-- Witness of C20: RTI with SP = $FD, the third pull wrapping to $0100; RTS on
the same stack returns to $34C3 + 1. -/
theorem C20_witness :
    WF rtiWrap ∧ rtiWrap.memory rtiWrap.PC = 0x40 ∧
    (step_cpu rtiWrap).2.PC = 0x1234 ∧ (step_cpu rtiWrap).2.SP = 0 ∧
    (step_cpu rtiWrap).1 = 6 ∧
    (step_cpu rtsPlain).2.PC = 0x34C4 :=
  ⟨rtiWrap_WF, by decide, (C20_rti_pc rtiWrap rtiWrap_WF (by decide)).1,
    (C20_rti_pc rtiWrap rtiWrap_WF (by decide)).2.1,
    (C20_rti_pc rtiWrap rtiWrap_WF (by decide)).2.2.1,
    (C20_rti_pc rtiWrap rtiWrap_WF (by decide)).2.2.2 rtsPlain rtsPlain_WF (by decide)⟩

/-! ## N and Z after a register write or a comparison -/

theorem nz_of_byte (v : Nat) (hv : v < 256) :
    decide (128 ≤ v % 256) = decide (v / 128 % 2 = 1) ∧
    decide (v % 256 = 0) = decide (v = 0) := by
  constructor <;> (congr 1; apply propext; omega)

theorem or_lt_256 (a b : Nat) (ha : a < 256) (hb : b < 256) : a ||| b < 256 := by
  have h : a ||| b < 2 ^ 8 := Nat.or_lt_two_pow ha hb
  exact h

theorem xor_lt_256 (a b : Nat) (ha : a < 256) (hb : b < 256) : a ^^^ b < 256 := by
  have h : a ^^^ b < 2 ^ 8 := Nat.xor_lt_two_pow ha hb
  exact h

theorem exec_NZ_A (op : Op) (s : CPU) (hwf : WF s)
    (h : op ∈ [Op.LDA, Op.TXA, Op.TYA, Op.PLA, Op.AND, Op.ORA, Op.EOR, Op.ADC, Op.SBC]) :
    (exec op s).A < 256 ∧
    (exec op s).SR.sign = decide (128 ≤ (exec op s).A % 256) ∧
    (exec op s).SR.zero = decide ((exec op s).A % 256 = 0) := by
  obtain ⟨hm, hA, hX, hY, hPC, hSP, hT⟩ := hwf
  have hl := load_lt s ⟨hm, hA, hX, hY, hPC, hSP, hT⟩ (get_ptr s.inst.mode s).1
  cases op <;> first
    | exact absurd h (by decide)
    | (simp only [exec, inst_LDA, inst_TXA, inst_TYA, inst_PLA, inst_AND, inst_ORA, inst_EOR,
        inst_ADC, inst_SBC, N_flag, Z_flag, read_ptr, stack_pull, load_get_ptr, get_ptr_A,
        get_ptr_SR, and_255]
       refine ⟨?_, trivial, trivial⟩
       first
        | exact hl
        | exact hX
        | exact hY
        | exact hm _
        | exact Nat.lt_of_le_of_lt Nat.and_le_left hA
        | exact or_lt_256 _ _ hA hl
        | exact xor_lt_256 _ _ hA hl
        | exact Nat.mod_lt _ (by decide)
        | (split_ifs <;> exact Nat.mod_lt _ (by decide)))

theorem exec_NZ_X (op : Op) (s : CPU) (hwf : WF s)
    (h : op ∈ [Op.LDX, Op.TAX, Op.TSX, Op.INX, Op.DEX]) :
    (exec op s).X < 256 ∧
    (exec op s).SR.sign = decide (128 ≤ (exec op s).X % 256) ∧
    (exec op s).SR.zero = decide ((exec op s).X % 256 = 0) := by
  obtain ⟨hm, hA, hX, hY, hPC, hSP, hT⟩ := hwf
  have hl := load_lt s ⟨hm, hA, hX, hY, hPC, hSP, hT⟩ (get_ptr s.inst.mode s).1
  cases op <;> first
    | exact absurd h (by decide)
    | (simp only [exec, inst_LDX, inst_TAX, inst_TSX, inst_INX, inst_DEX, N_flag, Z_flag,
        read_ptr, load_get_ptr, get_ptr_X, get_ptr_SR]
       refine ⟨?_, trivial, trivial⟩
       first
        | exact hl
        | exact hA
        | exact hSP
        | exact Nat.mod_lt _ (by decide))

theorem exec_NZ_Y (op : Op) (s : CPU) (hwf : WF s)
    (h : op ∈ [Op.LDY, Op.TAY, Op.INY, Op.DEY]) :
    (exec op s).Y < 256 ∧
    (exec op s).SR.sign = decide (128 ≤ (exec op s).Y % 256) ∧
    (exec op s).SR.zero = decide ((exec op s).Y % 256 = 0) := by
  obtain ⟨hm, hA, hX, hY, hPC, hSP, hT⟩ := hwf
  have hl := load_lt s ⟨hm, hA, hX, hY, hPC, hSP, hT⟩ (get_ptr s.inst.mode s).1
  cases op <;> first
    | exact absurd h (by decide)
    | (simp only [exec, inst_LDY, inst_TAY, inst_INY, inst_DEY, N_flag, Z_flag,
        read_ptr, load_get_ptr, get_ptr_Y, get_ptr_SR]
       refine ⟨?_, trivial, trivial⟩
       first
        | exact hl
        | exact hA
        | exact Nat.mod_lt _ (by decide))

theorem exec_NZ_shift (op : Op) (s : CPU) (hwf : WF s)
    (h : op ∈ [Op.ASL, Op.LSR, Op.ROL, Op.ROR]) (hmode : s.inst.mode = Mode.ACC) :
    (exec op s).A < 256 ∧
    (exec op s).SR.sign = decide (128 ≤ (exec op s).A % 256) ∧
    (exec op s).SR.zero = decide ((exec op s).A % 256 = 0) := by
  obtain ⟨hm, hA, hX, hY, hPC, hSP, hT⟩ := hwf
  cases op <;> first
    | exact absurd h (by decide)
    | (simp only [exec, inst_ASL, inst_LSR, inst_ROL, inst_ROR, N_flag, Z_flag,
        read_ptr, write_ptr, hmode, get_ptr, get_ACC, store, load, Nat.mod_mod]
       refine ⟨?_, trivial, trivial⟩
       first
        | exact Nat.mod_lt _ (by decide)
        | omega)

theorem writtenRegister_some (op : Op) (m : Mode) (f : CPU → Nat)
    (h : writtenRegister op m = some f) :
    (f = CPU.A ∧
      op ∈ [Op.LDA, Op.TXA, Op.TYA, Op.PLA, Op.AND, Op.ORA, Op.EOR, Op.ADC, Op.SBC]) ∨
    (f = CPU.X ∧ op ∈ [Op.LDX, Op.TAX, Op.TSX, Op.INX, Op.DEX]) ∨
    (f = CPU.Y ∧ op ∈ [Op.LDY, Op.TAY, Op.INY, Op.DEY]) ∨
    (f = CPU.A ∧ op ∈ [Op.ASL, Op.LSR, Op.ROL, Op.ROR] ∧ m = Mode.ACC) := by
  cases op <;> simp [writtenRegister] at h <;> (try (obtain ⟨hm, hf⟩ := h)) <;>
    subst_vars <;> simp

theorem comparedRegister_some (op : Op) (f : CPU → Nat)
    (h : comparedRegister op = some f) :
    (f = CPU.A ∧ op = Op.CMP) ∨ (f = CPU.X ∧ op = Op.CPX) ∨ (f = CPU.Y ∧ op = Op.CPY) := by
  cases op <;> simp [comparedRegister] at h <;> subst_vars <;> simp

theorem exec_NZ_compare (op : Op) (s : CPU) (f : CPU → Nat)
    (h : comparedRegister op = some f) :
    (exec op s).SR.sign
      = decide ((((f s : Int) - (load s (get_ptr s.inst.mode s).1 : Int)) % 256).toNat
          / 128 % 2 = 1) ∧
    (exec op s).SR.zero
      = decide ((((f s : Int) - (load s (get_ptr s.inst.mode s).1 : Int)) % 256).toNat = 0) := by
  have hn := fun v (hv : v < 256) => nz_of_byte v hv
  rcases comparedRegister_some op f h with ⟨hf, ho⟩ | ⟨hf, ho⟩ | ⟨hf, ho⟩ <;>
    (subst hf; subst ho
     simp only [exec, inst_CMP, inst_CPX, inst_CPY, N_flag, Z_flag, read_ptr, load_get_ptr,
       get_ptr_A, get_ptr_X, get_ptr_Y, get_ptr_SR]
     refine ⟨(hn _ (by omega)).1, (hn _ (by omega)).2⟩)

theorem step_cpu_XY (s : CPU) :
    (step_cpu s).2.X = (exec (instructions (s.memory s.PC)).function
      { s with inst := instructions (s.memory s.PC), jumping := 0, extra_cycles := 0 }).X ∧
    (step_cpu s).2.Y = (exec (instructions (s.memory s.PC)).function
      { s with inst := instructions (s.memory s.PC), jumping := 0, extra_cycles := 0 }).Y := by
  simp only [step_cpu]
  split_ifs <;> exact ⟨rfl, rfl⟩

/-- C19: after a step whose instruction writes A, X or Y, N equals bit 7 of the
value now in the written register and Z is set iff that value is 0; after
CMP, CPX or CPY, N and Z are set in the same way from
`(register - operand) mod 256`. -/
theorem C19_nz_flags (s : CPU) (hwf : WF s) :
    (∀ f, writtenRegister (instructions (s.memory s.PC)).function
        (instructions (s.memory s.PC)).mode = some f →
      (step_cpu s).2.SR.sign = decide (f (step_cpu s).2 / 128 % 2 = 1) ∧
      (step_cpu s).2.SR.zero = decide (f (step_cpu s).2 = 0)) ∧
    (∀ f, comparedRegister (instructions (s.memory s.PC)).function = some f →
      (step_cpu s).2.SR.sign
        = decide ((((f s : Int)
            - (load s (get_ptr (instructions (s.memory s.PC)).mode s).1 : Int)) % 256).toNat
            / 128 % 2 = 1) ∧
      (step_cpu s).2.SR.zero
        = decide ((((f s : Int)
            - (load s (get_ptr (instructions (s.memory s.PC)).mode s).1 : Int)) % 256).toNat
            = 0)) := by
  have hwf0 : WF
      { s with inst := instructions (s.memory s.PC), jumping := 0, extra_cycles := 0 } := hwf
  constructor
  · intro f hf
    rw [(step_cpu_fields s).2.2]
    rcases writtenRegister_some _ _ f hf with ⟨e, ho⟩ | ⟨e, ho⟩ | ⟨e, ho⟩ | ⟨e, ho, hmode⟩
    · subst e
      rw [(step_cpu_fields s).2.1]
      obtain ⟨h1, h2, h3⟩ := exec_NZ_A _ _ hwf0 ho
      rw [h2, h3]
      exact nz_of_byte _ h1
    · subst e
      rw [(step_cpu_XY s).1]
      obtain ⟨h1, h2, h3⟩ := exec_NZ_X _ _ hwf0 ho
      rw [h2, h3]
      exact nz_of_byte _ h1
    · subst e
      rw [(step_cpu_XY s).2]
      obtain ⟨h1, h2, h3⟩ := exec_NZ_Y _ _ hwf0 ho
      rw [h2, h3]
      exact nz_of_byte _ h1
    · subst e
      rw [(step_cpu_fields s).2.1]
      obtain ⟨h1, h2, h3⟩ := exec_NZ_shift _ _ hwf0 ho hmode
      rw [h2, h3]
      exact nz_of_byte _ h1
  · intro f hf
    rw [(step_cpu_fields s).2.2]
    have e := exec_NZ_compare _
      { s with inst := instructions (s.memory s.PC), jumping := 0, extra_cycles := 0 } f hf
    have hp : (get_ptr (instructions (s.memory s.PC)).mode
        { s with inst := instructions (s.memory s.PC), jumping := 0, extra_cycles := 0 }).1
        = (get_ptr (instructions (s.memory s.PC)).mode s).1 :=
      get_ptr_fst_congr _ _ _ rfl rfl rfl rfl
    have hl : ∀ p, load
        { s with inst := instructions (s.memory s.PC), jumping := 0, extra_cycles := 0 } p
        = load s p := fun p => load_congr _ _ p rfl rfl
    have hfs : f
        { s with inst := instructions (s.memory s.PC), jumping := 0, extra_cycles := 0 }
        = f s := by
      rcases comparedRegister_some _ f hf with ⟨e1, _⟩ | ⟨e1, _⟩ | ⟨e1, _⟩ <;> (subst e1; rfl)
    simp only [hp, hl, hfs] at e
    exact e

theorem ldaZero_WF : WF ldaZero := by
  refine ⟨fun a => ?_, by decide, by decide, by decide, by decide, by decide, by decide⟩
  show (if a = 0x0200 then 0xA9 else 0) < 256
  split_ifs <;> decide

/-- Witness of C19: LDA #$00 leaves 0 in A, sets Z and clears N. -/
theorem C19_witness :
    WF ldaZero ∧
    writtenRegister (instructions (ldaZero.memory ldaZero.PC)).function
      (instructions (ldaZero.memory ldaZero.PC)).mode = some CPU.A ∧
    (step_cpu ldaZero).2.A = 0 ∧
    (step_cpu ldaZero).2.SR.zero = true ∧ (step_cpu ldaZero).2.SR.sign = false :=
  ⟨ldaZero_WF, rfl, by decide, ((C19_nz_flags ldaZero ldaZero_WF).1 CPU.A rfl).2,
    ((C19_nz_flags ldaZero ldaZero_WF).1 CPU.A rfl).1⟩

/-! ## The B flag in RTI and BRK -/

/-- What the code leaves in the status register after RTI: the byte pulled
from the stack with bit 5 set, the B bit as pulled. -/
theorem rti_status (s : CPU) (h1 : s.memory s.PC = 0x40) :
    (step_cpu s).2.SR
      = { StatusReg.ofByte (s.memory (0x100 + (s.SP + 1) % 256)) with unused := true } := by
  rw [step_RTI s h1]

/-- C21 on the code: RTI with the byte $10 (only B set) on the stack leaves the
status byte $30, with B set, where the claim says $20; PLP on the same stack
leaves $20. -/
theorem C21_rti_keeps_pulled_b :
    (rtiBreak.memory rtiBreak.PC = 0x40 ∧
      rtiBreak.memory (0x100 + (rtiBreak.SP + 1) % 256) = 0x10 ∧
      (step_cpu rtiBreak).2.SR.byte = 0x30 ∧ (step_cpu rtiBreak).2.SR.brk = true) ∧
    (plpBreak.memory plpBreak.PC = 0x28 ∧
      plpBreak.memory (0x100 + (plpBreak.SP + 1) % 256) = 0x10 ∧
      (step_cpu plpBreak).2.SR.byte = 0x20 ∧ (step_cpu plpBreak).2.SR.brk = false) := by
  refine ⟨⟨by decide, by decide, by decide, by decide⟩,
    ⟨by decide, by decide, by decide, by decide⟩⟩

theorem instructions_BRK :
    instructions 0x00 = Instruction.mk "BRK impl" Op.BRK Mode.IMPL 7 := rfl

theorem step_BRK (s : CPU) (h1 : s.memory s.PC = 0x00) :
    step_cpu s = (7, { s with
      memory := poke (poke (poke s.memory (0x100 + s.SP) ((s.PC + 2) % 65536 / 256 % 256))
          (0x100 + (s.SP + 255) % 256) ((s.PC + 2) % 65536 % 256 % 256))
        (0x100 + ((s.SP + 255) % 256 + 255) % 256) ({ s.SR with brk := true }.byte % 256),
      SP := (((s.SP + 255) % 256 + 255) % 256 + 255) % 256,
      SR := { s.SR with brk := true, interrupt := true },
      PC := memcpy16 s.memory IRQ_VEC,
      inst := instructions 0x00, jumping := 1, extra_cycles := 0,
      total_cycles := (s.total_cycles + 7) % 2 ^ 64 }) := by
  simp only [step_cpu, h1, instructions_BRK, exec, inst_BRK, stack_push, lengths, and_255,
    Nat.shiftRight_eq_div_pow]
  simp

/-- What the code does on BRK: everything the claim C22 lists, except that the
live status register ends with B set as well as I. -/
theorem brk_step (s : CPU) (hwf : WF s) (h1 : s.memory s.PC = 0x00) :
    (step_cpu s).2.memory (0x100 + s.SP) = (s.PC + 2) % 65536 / 256 ∧
    (step_cpu s).2.memory (0x100 + (s.SP + 255) % 256) = (s.PC + 2) % 65536 % 256 ∧
    (step_cpu s).2.memory (0x100 + (s.SP + 254) % 256) = { s.SR with brk := true }.byte ∧
    (step_cpu s).2.SP = (s.SP + 253) % 256 ∧
    (step_cpu s).2.PC = s.memory 0xFFFE + 256 * s.memory 0xFFFF ∧
    (step_cpu s).1 = 7 ∧
    (step_cpu s).2.A = s.A ∧ (step_cpu s).2.X = s.X ∧ (step_cpu s).2.Y = s.Y ∧
    (step_cpu s).2.SR = { s.SR with brk := true, interrupt := true } := by
  obtain ⟨hm, hA, hX, hY, hPC, hSP, hT⟩ := hwf
  rw [step_BRK s h1]
  have e1 : ((s.SP + 255) % 256 + 255) % 256 = (s.SP + 254) % 256 := by omega
  have e4 : { s.SR with brk := true }.byte % 256 = { s.SR with brk := true }.byte :=
    Nat.mod_eq_of_lt (StatusReg.byte_lt _)
  refine ⟨?_, ?_, ?_, ?_, rfl, rfl, rfl, rfl, rfl, rfl⟩
  · show poke _ _ _ _ = _
    rw [poke_other _ _ _ _ (by omega), poke_other _ _ _ _ (by omega), poke_same]; omega
  · show poke _ _ _ _ = _
    rw [poke_other _ _ _ _ (by omega), poke_same]; omega
  · show poke _ _ _ _ = _
    rw [e1, poke_same, e4]
  · show (((s.SP + 255) % 256 + 255) % 256 + 255) % 256 = _
    omega

/-- C22 on the code: BRK at $0200 with SP = $FD and status byte $20 pushes $02,
$02 and $30, sets SP to $FA and `PC` to the vector $1234 and returns 7, as
claimed, but leaves the live status byte $34, with B set, where the claim
says $24. -/
theorem C22_brk_sets_live_b :
    brkPlain.memory brkPlain.PC = 0x00 ∧ brkPlain.SR.byte = 0x20 ∧
    (step_cpu brkPlain).2.memory 0x01FD = 0x02 ∧ (step_cpu brkPlain).2.memory 0x01FC = 0x02 ∧
    (step_cpu brkPlain).2.memory 0x01FB = 0x30 ∧ (step_cpu brkPlain).2.SP = 0xFA ∧
    (step_cpu brkPlain).2.PC = 0x1234 ∧ (step_cpu brkPlain).1 = 7 ∧
    { brkPlain.SR with interrupt := true }.byte = 0x24 ∧
    (step_cpu brkPlain).2.SR.byte = 0x34 ∧ (step_cpu brkPlain).2.SR.brk = true := by
  refine ⟨by decide, by decide, by decide, by decide, by decide, by decide, by decide,
    by decide, by decide, by decide, by decide⟩

/-! ## V after a decimal ADC -/

/-- What the code leaves after a decimal ADC: V is the bit test on the sum after
the decimal correction, the value whose low byte becomes A. -/
theorem step_ADC_decimal_V (s : CPU)
    (h : (instructions (s.memory s.PC)).function = Op.ADC) (hd : s.SR.decimal = true) :
    (step_cpu s).2.SR.overflow
      = decide ((s.A ^^^ adcDecimalSum s.A
            (load s (get_ptr (instructions (s.memory s.PC)).mode s).1) s.SR.carry.toNat)
          &&& (load s (get_ptr (instructions (s.memory s.PC)).mode s).1
            ^^^ adcDecimalSum s.A
              (load s (get_ptr (instructions (s.memory s.PC)).mode s).1) s.SR.carry.toNat)
          &&& 0x80 ≠ 0) ∧
    (step_cpu s).2.A
      = adcDecimalSum s.A (load s (get_ptr (instructions (s.memory s.PC)).mode s).1)
          s.SR.carry.toNat % 256 := by
  have hp : (get_ptr (instructions (s.memory s.PC)).mode
      { s with inst := instructions (s.memory s.PC), jumping := 0, extra_cycles := 0 }).1
      = (get_ptr (instructions (s.memory s.PC)).mode s).1 :=
    get_ptr_fst_congr _ _ _ rfl rfl rfl rfl
  have hl : ∀ p, load
      { s with inst := instructions (s.memory s.PC), jumping := 0, extra_cycles := 0 } p
      = load s p := fun p => load_congr _ _ p rfl rfl
  rw [(step_cpu_fields s).2.1, (step_cpu_fields s).2.2, h]
  simp only [exec, inst_ADC, read_ptr, N_flag, Z_flag, get_ptr_SR, get_ptr_A, load_get_ptr,
    hp, hl, hd, toNat_and_one, and_255, Nat.mod_mod, if_true, adcDecimalSum]
  exact ⟨trivial, trivial⟩

/-- The sibling path: after SBC the V flag is the bit test on the binary
difference `tmp = A - operand - 1 + C`, in decimal mode as in binary mode;
`inst_SBC` sets it before its decimal branch. -/
theorem sbc_overflow_any_mode (s : CPU)
    (h : (instructions (s.memory s.PC)).function = Op.SBC) :
    (step_cpu s).2.SR.overflow
      = decide ((s.A ^^^ u32 ((s.A : Int)
            - (load s (get_ptr (instructions (s.memory s.PC)).mode s).1 : Int) - 1
            + (s.SR.carry.toNat : Int)))
          &&& (s.A ^^^ load s (get_ptr (instructions (s.memory s.PC)).mode s).1)
          &&& 0x80 ≠ 0) := by
  have hp : (get_ptr (instructions (s.memory s.PC)).mode
      { s with inst := instructions (s.memory s.PC), jumping := 0, extra_cycles := 0 }).1
      = (get_ptr (instructions (s.memory s.PC)).mode s).1 :=
    get_ptr_fst_congr _ _ _ rfl rfl rfl rfl
  have hl : ∀ p, load
      { s with inst := instructions (s.memory s.PC), jumping := 0, extra_cycles := 0 } p
      = load s p := fun p => load_congr _ _ p rfl rfl
  rw [(step_cpu_fields s).2.2, h]
  cases hd : s.SR.decimal
  · simp only [exec, inst_SBC, read_ptr, N_flag, Z_flag, get_ptr_SR, get_ptr_A, load_get_ptr,
      hp, hl, hd, toNat_and_one, and_255, Nat.mod_mod, Bool.false_eq_true, if_false]
  · simp only [exec, inst_SBC, read_ptr, N_flag, Z_flag, get_ptr_SR, get_ptr_A, load_get_ptr,
      hp, hl, hd, toNat_and_one, if_true]

/-- C23 on the code: decimal ADC of $50 + $50 with C = 0 leaves V clear, where
the claim gives V set: the bit test on the binary sum t = $A0 is true and
binary-mode ADC of the same A, operand and carry sets V. The code takes V from
the sum after the decimal correction, here $100. In the other direction,
decimal ADC of $79 + $01 with C = 0 sets V, where the bit test on the binary
sum t = $7A is false. -/
theorem C23_adc_decimal_overflow_after_correction :
    ((instructions (adcDecimalFifty.memory adcDecimalFifty.PC)).function = Op.ADC ∧
      adcDecimalFifty.SR.decimal = true ∧ adcDecimalFifty.A = 0x50 ∧
      load adcDecimalFifty (get_ptr (instructions
        (adcDecimalFifty.memory adcDecimalFifty.PC)).mode adcDecimalFifty).1 = 0x50 ∧
      adcDecimalFifty.SR.carry = false ∧
      decide ((0x50 ^^^ (0x50 + 0x50 + 0)) &&& (0x50 ^^^ (0x50 + 0x50 + 0)) &&& 0x80 ≠ 0)
        = true ∧
      adcDecimalSum 0x50 0x50 0 = 0x100 ∧
      (step_cpu adcDecimalFifty).2.SR.overflow = false) ∧
    ((instructions (adcBinary.memory adcBinary.PC)).function = Op.ADC ∧
      adcBinary.SR.decimal = false ∧ adcBinary.A = 0x50 ∧
      load adcBinary (get_ptr (instructions
        (adcBinary.memory adcBinary.PC)).mode adcBinary).1 = 0x50 ∧
      adcBinary.SR.carry = false ∧
      (step_cpu adcBinary).2.SR.overflow = true) ∧
    ((instructions (adcDecimalV.memory adcDecimalV.PC)).function = Op.ADC ∧
      adcDecimalV.SR.decimal = true ∧ adcDecimalV.A = 0x79 ∧
      load adcDecimalV (get_ptr (instructions
        (adcDecimalV.memory adcDecimalV.PC)).mode adcDecimalV).1 = 0x01 ∧
      adcDecimalV.SR.carry = false ∧
      decide ((0x79 ^^^ (0x79 + 0x01 + 0)) &&& (0x01 ^^^ (0x79 + 0x01 + 0)) &&& 0x80 ≠ 0)
        = false ∧
      adcDecimalSum 0x79 0x01 0 = 0x80 ∧
      (step_cpu adcDecimalV).2.SR.overflow = true) := by
  refine ⟨⟨by decide, by decide, by decide, by decide, by decide, by decide, by decide,
      by decide⟩,
    ⟨by decide, by decide, by decide, by decide, by decide, by decide⟩,
    ⟨by decide, by decide, by decide, by decide, by decide, by decide, by decide,
      by decide⟩⟩

/-! ## SBC -/

theorem step_SBC_decimal (s : CPU)
    (h : (instructions (s.memory s.PC)).function = Op.SBC) (hd : s.SR.decimal = true) :
    (step_cpu s).2.A
      = sbcDecimalResult s.A (load s (get_ptr (instructions (s.memory s.PC)).mode s).1)
          s.SR.carry ∧
    (step_cpu s).2.SR.carry
      = decide (u32 ((s.A : Int)
          - (load s (get_ptr (instructions (s.memory s.PC)).mode s).1 : Int) - 1
          + (s.SR.carry.toNat : Int)) < 0x100) := by
  have hp : (get_ptr (instructions (s.memory s.PC)).mode
      { s with inst := instructions (s.memory s.PC), jumping := 0, extra_cycles := 0 }).1
      = (get_ptr (instructions (s.memory s.PC)).mode s).1 :=
    get_ptr_fst_congr _ _ _ rfl rfl rfl rfl
  have hl : ∀ p, load
      { s with inst := instructions (s.memory s.PC), jumping := 0, extra_cycles := 0 } p
      = load s p := fun p => load_congr _ _ p rfl rfl
  rw [(step_cpu_fields s).2.1, (step_cpu_fields s).2.2, h]
  simp only [exec, inst_SBC, read_ptr, N_flag, Z_flag, get_ptr_SR, get_ptr_A, load_get_ptr,
    hp, hl, hd, toNat_and_one, if_true, sbcDecimalResult]
  exact ⟨trivial, trivial⟩

theorem step_SBC_binary (s : CPU)
    (h : (instructions (s.memory s.PC)).function = Op.SBC) (hd : s.SR.decimal = false) :
    (step_cpu s).2.A
      = u32 ((s.A : Int) - (load s (get_ptr (instructions (s.memory s.PC)).mode s).1 : Int) - 1
          + (s.SR.carry.toNat : Int)) % 256 ∧
    (step_cpu s).2.SR = { s.SR with
      carry := decide (u32 ((s.A : Int)
          - (load s (get_ptr (instructions (s.memory s.PC)).mode s).1 : Int) - 1
          + (s.SR.carry.toNat : Int)) < 0x100),
      overflow := decide ((s.A ^^^ u32 ((s.A : Int)
            - (load s (get_ptr (instructions (s.memory s.PC)).mode s).1 : Int) - 1
            + (s.SR.carry.toNat : Int)))
          &&& (s.A ^^^ load s (get_ptr (instructions (s.memory s.PC)).mode s).1) &&& 0x80 ≠ 0),
      sign := decide (128 ≤ u32 ((s.A : Int)
          - (load s (get_ptr (instructions (s.memory s.PC)).mode s).1 : Int) - 1
          + (s.SR.carry.toNat : Int)) % 256),
      zero := decide (u32 ((s.A : Int)
          - (load s (get_ptr (instructions (s.memory s.PC)).mode s).1 : Int) - 1
          + (s.SR.carry.toNat : Int)) % 256 = 0) } := by
  have hp : (get_ptr (instructions (s.memory s.PC)).mode
      { s with inst := instructions (s.memory s.PC), jumping := 0, extra_cycles := 0 }).1
      = (get_ptr (instructions (s.memory s.PC)).mode s).1 :=
    get_ptr_fst_congr _ _ _ rfl rfl rfl rfl
  have hl : ∀ p, load
      { s with inst := instructions (s.memory s.PC), jumping := 0, extra_cycles := 0 } p
      = load s p := fun p => load_congr _ _ p rfl rfl
  rw [(step_cpu_fields s).2.1, (step_cpu_fields s).2.2, h]
  simp only [exec, inst_SBC, read_ptr, N_flag, Z_flag, get_ptr_SR, get_ptr_A, load_get_ptr,
    hp, hl, hd, toNat_and_one, and_255, Nat.mod_mod, Bool.false_eq_true, if_false]
  exact ⟨trivial, trivial⟩

theorem and_16 (x : Nat) : x &&& 0x10 = x / 16 % 2 * 16 := by
  have h := Nat.and_two_pow x 4
  rw [Nat.testBit_to_div_mod] at h
  have e : (2 : Nat) ^ 4 = 16 := rfl
  rw [e] at h
  rw [h]
  by_cases hx : x / 16 % 2 = 1
  · simp [hx]
  · have : x / 16 % 2 = 0 := by omega
    simp [this]

theorem shl4_or_nibble (hi lo : Nat) :
    ((hi <<< 4) % 4294967296 ||| (lo &&& 0x0f)) % 256 = (16 * hi + lo % 16) % 256 := by
  have h1 : (hi <<< 4) % 4294967296 = 2 ^ 4 * (hi % 268435456) := by
    rw [Nat.shiftLeft_eq]; omega
  have h2 : lo % 16 < 2 ^ 4 := by omega
  rw [and_15, h1, ← Nat.mul_add_lt_is_or h2]
  omega

/-- The nibble-wise subtraction on decimal digits: `ah al` and `mh ml` are the
nibbles of the accumulator and of the operand, `c` the carry. -/
theorem sbc_decimal_digits (ah al mh ml c : Nat) (ha1 : ah ≤ 9) (ha2 : al ≤ 9)
    (hm1 : mh ≤ 9) (hm2 : ml ≤ 9) (hc : c < 2) :
    (16 * (if (if u32 ((al : Int) - (ml : Int) - 1 + (c : Int)) / 16 % 2 * 16 ≠ 0
              then u32 ((u32 ((ah : Int) - (mh : Int)) : Int) - 1)
              else u32 ((ah : Int) - (mh : Int))) / 16 % 2 * 16 ≠ 0
          then u32 (((if u32 ((al : Int) - (ml : Int) - 1 + (c : Int)) / 16 % 2 * 16 ≠ 0
              then u32 ((u32 ((ah : Int) - (mh : Int)) : Int) - 1)
              else u32 ((ah : Int) - (mh : Int)) : Nat) : Int) - 6)
          else (if u32 ((al : Int) - (ml : Int) - 1 + (c : Int)) / 16 % 2 * 16 ≠ 0
              then u32 ((u32 ((ah : Int) - (mh : Int)) : Int) - 1)
              else u32 ((ah : Int) - (mh : Int))))
        + (if u32 ((al : Int) - (ml : Int) - 1 + (c : Int)) / 16 % 2 * 16 ≠ 0
            then u32 ((u32 ((al : Int) - (ml : Int) - 1 + (c : Int)) : Int) - 6)
            else u32 ((al : Int) - (ml : Int) - 1 + (c : Int))) % 16) % 256
      = 16 * (((((10 * ah + al : Nat) : Int) - ((10 * mh + ml : Nat) : Int)
            - (1 - (c : Int))) % 100).toNat / 10)
        + ((((10 * ah + al : Nat) : Int) - ((10 * mh + ml : Nat) : Int)
            - (1 - (c : Int))) % 100).toNat % 10 := by
  unfold u32
  by_cases hlo : (al : Int) - (ml : Int) - 1 + (c : Int) < 0
  · by_cases hhi : (ah : Int) - (mh : Int) - 1 < 0
    · have t1 : ((((10 * ah + al : Nat) : Int) - ((10 * mh + ml : Nat) : Int)
          - (1 - (c : Int))) % 100).toNat
          = 10 * (ah + 10 - mh - 1) + (al + 10 + c - ml - 1) := by omega
      rw [t1]
      split_ifs <;> omega
    · have t1 : ((((10 * ah + al : Nat) : Int) - ((10 * mh + ml : Nat) : Int)
          - (1 - (c : Int))) % 100).toNat
          = 10 * (ah - mh - 1) + (al + 10 + c - ml - 1) := by omega
      rw [t1]
      split_ifs <;> omega
  · by_cases hhi : (ah : Int) - (mh : Int) < 0
    · have t1 : ((((10 * ah + al : Nat) : Int) - ((10 * mh + ml : Nat) : Int)
          - (1 - (c : Int))) % 100).toNat
          = 10 * (ah + 10 - mh) + (al + c - ml - 1) := by omega
      rw [t1]
      split_ifs <;> omega
    · have t1 : ((((10 * ah + al : Nat) : Int) - ((10 * mh + ml : Nat) : Int)
          - (1 - (c : Int))) % 100).toNat
          = 10 * (ah - mh) + (al + c - ml - 1) := by omega
      rw [t1]
      split_ifs <;> omega

theorem shl4_or_mod16 (hi lo : Nat) :
    ((hi <<< 4) % 4294967296 ||| lo % 16) % 256 = (16 * hi + lo % 16) % 256 := by
  have h := shl4_or_nibble hi lo
  rw [and_15] at h
  exact h

theorem sbcDecimalResult_valid (a m : Nat) (c : Bool) (hva : validBCD a) (hvm : validBCD m) :
    sbcDecimalResult a m c
      = bcdOfDec ((((decOfBCD a : Nat) : Int) - ((decOfBCD m : Nat) : Int)
          - (1 - (c.toNat : Int))) % 100).toNat := by
  have key := sbc_decimal_digits (a / 16) (a % 16) (m / 16) (m % 16) c.toNat
    hva.1 hva.2 hvm.1 hvm.2 (toNat_lt_two c)
  have e4 : ∀ x : Nat, x >>> 4 = x / 16 := fun x => by omega
  unfold sbcDecimalResult bcdOfDec decOfBCD
  simp only [and_15, and_16, shl4_or_mod16, e4, decide_eq_true_eq]
  exact key

/-- C24: with D = 1, a step executing SBC (any of its opcodes) on a valid
packed-BCD accumulator and a valid packed-BCD operand `m` with carry-in `c`
sets A to the packed-BCD encoding of `(dec A - dec m - (1 - c)) mod 100` and
sets C iff `dec A ≥ dec m + (1 - c)`, that is iff no borrow occurred. -/
theorem C24_sbc_decimal (s : CPU) (hwf : WF s)
    (h : (instructions (s.memory s.PC)).function = Op.SBC) (hd : s.SR.decimal = true)
    (hA : validBCD s.A)
    (hm : validBCD (load s (get_ptr (instructions (s.memory s.PC)).mode s).1)) :
    (step_cpu s).2.A
      = bcdOfDec ((((decOfBCD s.A : Nat) : Int)
          - ((decOfBCD (load s (get_ptr (instructions (s.memory s.PC)).mode s).1) : Nat) : Int)
          - (1 - (s.SR.carry.toNat : Int))) % 100).toNat ∧
    (step_cpu s).2.SR.carry
      = decide (decOfBCD s.A
          ≥ decOfBCD (load s (get_ptr (instructions (s.memory s.PC)).mode s).1)
            + (1 - s.SR.carry.toNat)) := by
  have hv := load_lt s hwf (get_ptr (instructions (s.memory s.PC)).mode s).1
  have hc := toNat_lt_two s.SR.carry
  have hA8 := hwf.2.1
  obtain ⟨e1, e2⟩ := step_SBC_decimal s h hd
  rw [e1, e2]
  refine ⟨sbcDecimalResult_valid _ _ _ hA hm, ?_⟩
  congr 1; apply propext
  obtain ⟨ha1, ha2⟩ := hA
  obtain ⟨hm1, hm2⟩ := hm
  unfold u32 decOfBCD
  omega

theorem sbcDecimal_WF : WF sbcDecimal := by
  refine ⟨fun a => ?_, by decide, by decide, by decide, by decide, by decide, by decide⟩
  show (if a = 0x0200 then 0xE9 else if a = 0x0201 then 0x27 else 0) < 256
  split_ifs <;> decide

/-- Witness of C24: 42 - 27 - 1 = 14 in decimal mode gives A = $14 with the
carry set. -/
theorem C24_witness :
    WF sbcDecimal ∧ (instructions (sbcDecimal.memory sbcDecimal.PC)).function = Op.SBC ∧
    sbcDecimal.SR.decimal = true ∧ validBCD sbcDecimal.A ∧
    validBCD (load sbcDecimal
      (get_ptr (instructions (sbcDecimal.memory sbcDecimal.PC)).mode sbcDecimal).1) ∧
    (step_cpu sbcDecimal).2.A = 0x14 ∧ (step_cpu sbcDecimal).2.SR.carry = true :=
  ⟨sbcDecimal_WF, by decide, by decide, by decide, by decide,
    (C24_sbc_decimal sbcDecimal sbcDecimal_WF (by decide) (by decide) (by decide)
      (by decide)).1,
    (C24_sbc_decimal sbcDecimal sbcDecimal_WF (by decide) (by decide) (by decide)
      (by decide)).2⟩

set_option maxRecDepth 8000 in
theorem xor_255 : ∀ m, m < 256 → m ^^^ 0xFF = 255 - m := by
  decide

/-- C25: with D = 0, a step executing SBC on the operand `m` and a step
executing ADC on the operand `m XOR 0xFF`, from states with the same
accumulator and the same status register, end with the same A and the same C,
V, N and Z (the same status register). -/
theorem C25_sbc_is_adc_of_complement (s t : CPU) (hs : WF s)
    (h1 : (instructions (s.memory s.PC)).function = Op.SBC)
    (h2 : (instructions (t.memory t.PC)).function = Op.ADC)
    (hA : t.A = s.A) (hSR : t.SR = s.SR) (hd : s.SR.decimal = false)
    (hop : load t (get_ptr (instructions (t.memory t.PC)).mode t).1
      = load s (get_ptr (instructions (s.memory s.PC)).mode s).1 ^^^ 0xFF) :
    (step_cpu s).2.A = (step_cpu t).2.A ∧
    (step_cpu s).2.SR.carry = (step_cpu t).2.SR.carry ∧
    (step_cpu s).2.SR.overflow = (step_cpu t).2.SR.overflow ∧
    (step_cpu s).2.SR.sign = (step_cpu t).2.SR.sign ∧
    (step_cpu s).2.SR.zero = (step_cpu t).2.SR.zero ∧
    (step_cpu s).2.SR = (step_cpu t).2.SR := by
  have hv := load_lt s hs (get_ptr (instructions (s.memory s.PC)).mode s).1
  have hc := toNat_lt_two s.SR.carry
  have hA8 := hs.2.1
  have hdt : t.SR.decimal = false := by rw [hSR]; exact hd
  obtain ⟨a1, a2⟩ := step_SBC_binary s h1 hd
  obtain ⟨b1, b2⟩ := step_ADC_binary t h2 hdt
  rw [hop, hA, hSR, xor_255 _ hv] at b1 b2
  have eA : u32 ((s.A : Int)
        - (load s (get_ptr (instructions (s.memory s.PC)).mode s).1 : Int) - 1
        + (s.SR.carry.toNat : Int)) % 256
      = (s.A + (255 - load s (get_ptr (instructions (s.memory s.PC)).mode s).1)
        + s.SR.carry.toNat) % 256 := by
    unfold u32; omega
  have eC : (u32 ((s.A : Int)
        - (load s (get_ptr (instructions (s.memory s.PC)).mode s).1 : Int) - 1
        + (s.SR.carry.toNat : Int)) < 0x100)
      ↔ (s.A + (255 - load s (get_ptr (instructions (s.memory s.PC)).mode s).1)
        + s.SR.carry.toNat > 0xFF) := by
    unfold u32; omega
  have eV : ((s.A ^^^ u32 ((s.A : Int)
          - (load s (get_ptr (instructions (s.memory s.PC)).mode s).1 : Int) - 1
          + (s.SR.carry.toNat : Int)))
        &&& (s.A ^^^ load s (get_ptr (instructions (s.memory s.PC)).mode s).1) &&& 0x80 ≠ 0)
      ↔ ((s.A ^^^ (s.A + (255 - load s (get_ptr (instructions (s.memory s.PC)).mode s).1)
          + s.SR.carry.toNat))
        &&& ((255 - load s (get_ptr (instructions (s.memory s.PC)).mode s).1)
          ^^^ (s.A + (255 - load s (get_ptr (instructions (s.memory s.PC)).mode s).1)
            + s.SR.carry.toNat)) &&& 0x80 ≠ 0) := by
    rw [overflow_test, overflow_test, xor_bit7, xor_bit7, xor_bit7, xor_bit7]
    unfold u32; omega
  have eSR : (step_cpu s).2.SR = (step_cpu t).2.SR := by
    rw [a2, b2, eA]
    simp only [eC, eV]
  refine ⟨by rw [a1, b1, eA], ?_, ?_, ?_, ?_, eSR⟩ <;> rw [eSR]

theorem sbcBinary_WF : WF sbcBinary := by
  refine ⟨fun a => ?_, by decide, by decide, by decide, by decide, by decide, by decide⟩
  show (if a = 0x0200 then 0xE9 else if a = 0x0201 then 0x70 else 0) < 256
  split_ifs <;> decide

/-- Witness of C25: SBC #$70 and ADC #$8F from A = $50 with the carry set both
give A = $E0 with N set and C, V and Z clear. -/
theorem C25_witness :
    WF sbcBinary ∧
    (instructions (sbcBinary.memory sbcBinary.PC)).function = Op.SBC ∧
    (instructions (adcComplement.memory adcComplement.PC)).function = Op.ADC ∧
    adcComplement.A = sbcBinary.A ∧ adcComplement.SR = sbcBinary.SR ∧
    sbcBinary.SR.decimal = false ∧
    load adcComplement
        (get_ptr (instructions (adcComplement.memory adcComplement.PC)).mode adcComplement).1
      = load sbcBinary
          (get_ptr (instructions (sbcBinary.memory sbcBinary.PC)).mode sbcBinary).1 ^^^ 0xFF ∧
    (step_cpu sbcBinary).2.A = 0xE0 ∧ (step_cpu adcComplement).2.A = 0xE0 ∧
    (step_cpu sbcBinary).2.SR.byte = 0xA4 ∧
    (step_cpu sbcBinary).2.SR = (step_cpu adcComplement).2.SR :=
  ⟨sbcBinary_WF, by decide, by decide, by decide, by decide, by decide, by decide,
    by decide, by decide, by decide,
    (C25_sbc_is_adc_of_complement sbcBinary adcComplement sbcBinary_WF (by decide) (by decide)
      (by decide) (by decide) (by decide) (by decide)).2.2.2.2.2⟩

/-! ## The zero-page pointer of XIND and INDY -/

theorem zp_pointer_fetch (m : Nat → Nat) (p : Nat) (hm : ∀ a, m a < 256) (hp : p < 256) :
    (if p = 0xff then (m p + (m (p &&& 0xff00) <<< 8)) % 65536 else memcpy16 m p)
      = m p ||| (m ((p + 1) % 256) <<< 8) := by
  have h0 := hm p
  rw [or_shl8 _ _ h0]
  by_cases h : p = 0xff
  · subst h
    have e : (0xff : Nat) &&& 0xff00 = 0 := by decide
    have h1 := hm 0
    have e1 : ((0xff : Nat) + 1) % 256 = 0 := by decide
    rw [if_pos rfl, e, e1]
    omega
  · have e : (p + 1) % 256 = p + 1 := by omega
    have h1 := hm (p + 1)
    rw [if_neg h, e]
    unfold memcpy16
    rfl

/-- C26: the 16-bit address that the XIND decoder fetches through the
zero-page pointer `p = (operand + X) mod 256`, and the base address that the
INDY decoder fetches through `p = operand`, are
`memory[p] | (memory[(p + 1) mod 256] << 8)`: the fetch wraps inside the zero
page, and a machine that agrees on `PC`, X, the operand byte and the cells
$0000-$00FF fetches the same addresses. -/
theorem C26_zero_page_pointer (s : CPU) (hwf : WF s) :
    (get_XIND s).1
      = Ptr.mem (s.memory ((s.memory ((s.PC + 1) % 65536) + s.X) % 256)
          ||| (s.memory (((s.memory ((s.PC + 1) % 65536) + s.X) % 256 + 1) % 256) <<< 8)) ∧
    indexedBase Mode.INDY s
      = (s.memory (s.memory ((s.PC + 1) % 65536))
          ||| (s.memory ((s.memory ((s.PC + 1) % 65536) + 1) % 256) <<< 8)) ∧
    (get_INDY s).1 = Ptr.mem ((indexedBase Mode.INDY s + s.Y) % 65536) ∧
    (∀ t : CPU, WF t → t.PC = s.PC → t.X = s.X →
      t.memory ((s.PC + 1) % 65536) = s.memory ((s.PC + 1) % 65536) →
      (∀ a, a < 256 → t.memory a = s.memory a) →
      (get_XIND t).1 = (get_XIND s).1 ∧
      indexedBase Mode.INDY t = indexedBase Mode.INDY s) := by
  have hx : ∀ u : CPU, WF u → (get_XIND u).1
      = Ptr.mem (u.memory ((u.memory ((u.PC + 1) % 65536) + u.X) % 256)
          ||| (u.memory (((u.memory ((u.PC + 1) % 65536) + u.X) % 256 + 1) % 256) <<< 8)) := by
    intro u hu
    simp only [get_XIND, get_IMM, load, and_255]
    rw [zp_pointer_fetch u.memory _ hu.1 (Nat.mod_lt _ (by decide))]
  have hy : ∀ u : CPU, WF u → indexedBase Mode.INDY u
      = (u.memory (u.memory ((u.PC + 1) % 65536))
          ||| (u.memory ((u.memory ((u.PC + 1) % 65536) + 1) % 256) <<< 8)) := by
    intro u hu
    have e := zp_pointer_fetch u.memory (u.memory ((u.PC + 1) % 65536)) hu.1 (hu.1 _)
    have e0 : (0xff : Nat) &&& 0xff00 = 0 := by decide
    simp only [indexedBase]
    rw [← e]
    split_ifs with h1 <;> simp [h1, e0]
  refine ⟨hx s hwf, hy s hwf, ((get_ptr_extra_cycles Mode.INDY s).2 (by decide)), ?_⟩
  intro t ht hpc hX hop hz
  have b1 : (s.memory ((s.PC + 1) % 65536) + s.X) % 256 < 256 := Nat.mod_lt _ (by decide)
  have b2 : ((s.memory ((s.PC + 1) % 65536) + s.X) % 256 + 1) % 256 < 256 :=
    Nat.mod_lt _ (by decide)
  have b3 : (s.memory ((s.PC + 1) % 65536) + 1) % 256 < 256 := Nat.mod_lt _ (by decide)
  rw [hx t ht, hx s hwf, hy t ht, hy s hwf, hpc, hX, hop, hz _ b1, hz _ b2, hz _ b3,
    hz _ (hwf.1 _)]
  exact ⟨rfl, rfl⟩

theorem ldaXindWrap_WF : WF ldaXindWrap := by
  refine ⟨fun a => ?_, by decide, by decide, by decide, by decide, by decide, by decide⟩
  show (if a = 0x0200 then 0xA1 else if a = 0x0201 then 0xFE
      else if a = 0x00FF then 0x34 else if a = 0x0000 then 0x12
      else if a = 0x0100 then 0x80 else if a = 0x1234 then 0x77 else 0) < 256
  split_ifs <;> decide

/-- Witness of C26: LDA ($FE,X) with X = 1 fetches its pointer from $00FF and
$0000, not $0100, and loads from $1234. -/
theorem C26_witness :
    WF ldaXindWrap ∧ (get_XIND ldaXindWrap).1 = Ptr.mem 0x1234 ∧
    (step_cpu ldaXindWrap).2.A = 0x77 :=
  ⟨ldaXindWrap_WF, (C26_zero_page_pointer ldaXindWrap ldaXindWrap_WF).1, by decide⟩

end Emu6502
